import Mathlib

/-!
The capability collector `Interface` of go-multiplex.

A shallow embedding of `multiplexinterface.go`.  The package walks the direct
fields of a struct through Go's `reflect` package, hands every field whose
(pointerized) type is assignable to the target interface `T` to a caller
supplied collector, and finally hands over the struct pointer itself when it is
a `T` as well.

The embedding is explicit state passing.  The state holds the memory of the
struct the candidate points to, the heap on which `reflect.New` allocates, and
the state of the collector.  A run ends either by returning or by a Go panic.
The operations of package `reflect` that the source calls are modelled after
their documented behaviour, including their own panics.

The source lines are embedded twice.  `Multiplex.Interface` takes `Collect` as
a function on the collector state and the options as functions on the
settings: caller code that returns and keeps to its own state.
`Multiplex.Go.Interface` takes caller code as Go has it: an option may be the
nil func or panic, and `Collect` runs on the whole state and may panic or
write to the candidate.  `Go.Interface_pureCollect` shows that the two agree
where the first applies.
-/

namespace Multiplex

/-! ## Settings and options (source lines 12 to 38) -/

/-- The type `NilHandling` with its three constants. -/
inductive NilHandling
  | skipNilFields
  | createNilFields
  | panicNilFields
  deriving DecidableEq, Repr

/-- The struct `Settings`. -/
structure Settings where
  nilHandling : NilHandling
  deriving DecidableEq, Repr

/-- The function type `Option` of the source, `func(*Settings)`: a settings
mutator.  It is called `Opt` here because `Option` is taken in Lean.  An option
is taken here as a function that returns; `Go.Opt` has the nil func and the
options that panic. -/
abbrev Opt := Settings → Settings

/-- Source: `func OptSkipNilFields(s *Settings) { s.nilHandling = skipNilFields }`. -/
def OptSkipNilFields : Opt := fun _ => Settings.mk NilHandling.skipNilFields

/-- Source: `func OptCreateNilFields(s *Settings) { s.nilHandling = createNilFields }`. -/
def OptCreateNilFields : Opt := fun _ => Settings.mk NilHandling.createNilFields

/-- Source: `func OptPanicNilFields(s *Settings) { s.nilHandling = panicNilFields }`. -/
def OptPanicNilFields : Opt := fun _ => Settings.mk NilHandling.panicNilFields

/-- Source: `makeSettings`: start from `createNilFields`, then run every option
in order on the same settings value. -/
def makeSettings (opts : List Opt) : Settings :=
  opts.foldl (fun s o => o s) (Settings.mk NilHandling.createNilFields)

/-! ## Go values as package `reflect` sees them -/

/-- The kinds of `reflect.Kind` that the source tells apart. -/
inductive Kind
  | Pointer
  | Struct
  | Other
  deriving DecidableEq, Repr

/-- A Go type: a struct type, a pointer type, or a type of any other kind
(strings, numbers, slices, maps, interfaces, functions, and so on). -/
inductive GoType
  | struct (name : String)
  | other (name : String)
  | pointer (elem : GoType)
  deriving DecidableEq, Repr

/-- What `reflect.Type.Kind` answers. -/
def GoType.Kind : GoType → Kind
  | GoType.struct _ => Kind.Struct
  | GoType.other _ => Kind.Other
  | GoType.pointer _ => Kind.Pointer

/-- A pointer value: nil, the address of a heap object, or the address of the
field with index `i` inside the struct that `base` points to. -/
inductive Ptr
  | null
  | obj (a : Nat)
  | field (base : Ptr) (i : Nat)
  deriving DecidableEq, Repr

/-- A Go value together with its type.  Contents of non-pointer values are
kept as an uninterpreted string, the source never looks at them. -/
inductive Value
  | pointer (elem : GoType) (p : Ptr)
  | struct (name : String) (data : String)
  | other (name : String) (data : String)
  deriving DecidableEq, Repr

/-- What `reflect.Value.Type` answers. -/
def Value.Type : Value → GoType
  | Value.pointer elem _ => GoType.pointer elem
  | Value.struct name _ => GoType.struct name
  | Value.other name _ => GoType.other name

/-- What `reflect.Value.Kind` answers. -/
def Value.Kind (v : Value) : Kind := v.Type.Kind

/-- A value of pointer kind that holds nil. -/
def Value.IsNil : Value → Bool
  | Value.pointer _ Ptr.null => true
  | _ => false

/-- A value of type `any`: the nil interface value, or a dynamic value. -/
inductive Any
  | nil
  | val (v : Value)
  deriving DecidableEq, Repr

/-- One field of the candidate struct: its declared name, whether the name is
exported (`reflect.StructField.IsExported`), and the value it holds, which
carries the declared type. -/
structure Field where
  Name : String
  exported : Bool
  val : Value
  deriving DecidableEq, Repr

/-- An object on the heap: the zero value of a type, as `reflect.New`
creates it, or any other content. -/
inductive Object
  | zero (ty : GoType)
  | data (ty : GoType) (d : String)
  deriving DecidableEq, Repr

/-- The heap: the address of an object is its position. -/
abbrev Heap := List Object

/-- What `reflect.New(ty)` does: allocate the zero value of `ty` at the next
free address and answer a pointer to it. -/
def reflectNew (h : Heap) (ty : GoType) : Heap × Value :=
  (h ++ [Object.zero ty], Value.pointer ty (Ptr.obj h.length))

/-- A Go panic: one raised by the source with `panic(...)`, a run-time error,
or a panic raised inside package `reflect`. -/
inductive Panic
  | raised (msg : String)
  | runtimeError (msg : String)
  | reflectError (msg : String)
  deriving DecidableEq, Repr

/-- The state a call works on: the fields of the struct the candidate points
to (for a nil struct pointer only their declarations matter), the heap, and
the state of the collector. -/
structure State (S : Type) where
  fields : List Field
  heap : Heap
  collection : S

/-- How a call ends. -/
inductive Outcome
  | returned (out : Value)
  | panicked (p : Panic)
  deriving DecidableEq, Repr

/-- The end of a call: how it ended and the state it left. -/
structure Result (S : Type) where
  outcome : Outcome
  state : State S

/-- How one pass through the body of the field loop ends. -/
inductive Step (S : Type)
  | next (st : State S)
  | brk (st : State S)
  | panicked (p : Panic) (st : State S)

/-- Source line 65: `fmt.Sprintf("field %q is nil", name)`.  A field name is a
Go identifier, which the verb `%q` puts between double quotes unchanged. -/
def nilFieldMessage (name : String) : String :=
  "field \"" ++ name ++ "\" is nil"

/-- Source lines 75 to 77: collect `fieldVal` when its type is assignable to
`T`.  `reflect.Value.Interface` panics on a value obtained through an
unexported field.  `Collect` is taken here as a function on the collector
state; `Go.collectIfAssignable` has a `Collect` that may panic or write to the
candidate. -/
def collectIfAssignable {S : Type} (implementsT : GoType → Bool) (Collect : S → Value → S)
    (exported : Bool) (fieldVal : Value) (st : State S) : Step S :=
  if implementsT fieldVal.Type then
    if exported then
      Step.next (State.mk st.fields st.heap (Collect st.collection fieldVal))
    else
      Step.panicked (Panic.reflectError
        "reflect.Value.Interface: cannot return value obtained from unexported field or method") st
  else
    Step.next st

/-- Source lines 60 to 77: the body of the field loop at index `i`.  `self` is
the candidate pointer; `reflect.ValueOf(maybe).Elem()` of a nil pointer is the
zero `reflect.Value`, on which `Field` panics. -/
def fieldStep {S : Type} (implementsT : GoType → Bool) (Collect : S → Value → S)
    (s : Settings) (self : Ptr) (i : Nat) (st : State S) : Step S :=
  if self = Ptr.null then
    Step.panicked (Panic.reflectError "reflect: call of reflect.Value.Field on zero Value") st
  else
    match st.fields[i]? with
    | none => Step.panicked (Panic.reflectError "reflect: Field index out of range") st
    | some f =>
      match f.val with
      | Value.pointer elem p =>
        if (Value.pointer elem p).IsNil then
          match s.nilHandling with
          | NilHandling.panicNilFields =>
            Step.panicked (Panic.raised (nilFieldMessage f.Name)) st
          | NilHandling.createNilFields =>
            let alloc := reflectNew st.heap elem
            if f.exported then
              collectIfAssignable implementsT Collect f.exported alloc.2
                (State.mk (st.fields.set i (Field.mk f.Name f.exported alloc.2)) alloc.1
                  st.collection)
            else
              Step.panicked (Panic.reflectError
                "reflect: reflect.Value.Set using value obtained using unexported field")
                (State.mk st.fields alloc.1 st.collection)
          | NilHandling.skipNilFields => Step.brk st
        else
          collectIfAssignable implementsT Collect f.exported (Value.pointer elem p) st
      | v =>
        collectIfAssignable implementsT Collect f.exported
          (Value.pointer v.Type (Ptr.field self i)) st

/-- Source lines 58 to 78: the loop `for i := 0; i < t.NumField(); i++`, with
`n` the number of fields still to visit, `n = t.NumField() - i`. -/
def fieldLoop {S : Type} (implementsT : GoType → Bool) (Collect : S → Value → S)
    (s : Settings) (self : Ptr) : Nat → Nat → State S → Step S
  | 0, _, st => Step.next st
  | n + 1, i, st =>
    match fieldStep implementsT Collect s self i st with
    | Step.next st1 => fieldLoop implementsT Collect s self n (i + 1) st1
    | Step.brk st1 => Step.next st1
    | Step.panicked p st1 => Step.panicked p st1

/-- The type assertion `x.(T)` on a value of type `any`, in its two-result
form: it fails on the nil interface value and on a dynamic type that is not a
`T`, and otherwise yields the value. -/
def assertT (implementsT : GoType → Bool) : Any → Option Value
  | Any.nil => none
  | Any.val v => if implementsT v.Type then some v else none

/-- Source lines 80 to 85: collect the candidate itself when it is a `T`, and
return the collector. -/
def collectSelf {S : Type} (implementsT : GoType → Bool) (Collect : S → Value → S)
    (maybe : Any) (out : Value) (st : State S) : Result S :=
  match assertT implementsT maybe with
  | some f =>
    Result.mk (Outcome.returned out) (State.mk st.fields st.heap (Collect st.collection f))
  | none => Result.mk (Outcome.returned out) st

/-- Source lines 40 to 86: `Interface[T, C](maybe, collection, options...)`.

* `implementsT ty` says whether a value of dynamic type `ty` is a `T`; it stands
  for `AssignableTo(tType)` and for the type assertion `.(T)`, which agree on
  the interface type `T`.
* `Collect` is the method `collection.Collect`, acting on the collector state.
* `collection` is the collector value itself, which the call returns as `out`.
* `reflect.TypeOf` of the nil interface value is nil, and `Kind` on it is a nil
  pointer dereference. -/
def Interface {S : Type} (implementsT : GoType → Bool) (Collect : S → Value → S)
    (maybe : Any) (collection : Any) (options : List Opt) (st : State S) : Result S :=
  let s := makeSettings options
  match assertT implementsT collection with
  | none => Result.mk (Outcome.panicked (Panic.raised "collection must implement T")) st
  | some out =>
    match maybe with
    | Any.nil =>
      Result.mk (Outcome.panicked (Panic.runtimeError
        "invalid memory address or nil pointer dereference")) st
    | Any.val (Value.pointer (GoType.struct _) self) =>
      match fieldLoop implementsT Collect s self st.fields.length 0 st with
      | Step.next st1 => collectSelf implementsT Collect maybe out st1
      | Step.brk st1 => collectSelf implementsT Collect maybe out st1
      | Step.panicked p st1 => Result.mk (Outcome.panicked p) st1
    | Any.val _ => Result.mk (Outcome.returned out) st

/-! ## The collector of the test file -/

/-- Source (test file): `func (md *multiDoer) Collect(d Doer) { *md = append(*md, d) }`,
for a receiver that is not nil, acting on the slice `*md`;
`Go.multiDoerCollect` has the receiver. -/
def multiDoerCollect (md : List Value) (d : Value) : List Value := md ++ [d]

/-- Source (test file): `func (md *multiDoer) Do()`, which runs `Do` of every
element in order; `doOf d` is what `d.Do()` writes. -/
def multiDoerDo (doOf : Value → List String) (md : List Value) : List String :=
  md.flatMap doOf

/-! ## The field loop as a recursion over the fields not yet visited

`visit` is the loop body seen from the one field it works on, and `walk` runs
it over a list of fields from a start index.  `fieldLoop_eq_walk` below shows
that the loop of the source computes exactly this. -/

/-- How the loop body leaves the one field it visits. -/
inductive Visit (S : Type)
  | next (f : Field) (h : Heap) (c : S)
  | brk
  | panicked (p : Panic) (h : Heap)

/-- The check of lines 75 to 77 on the visited field. -/
def visitCollect {S : Type} (implementsT : GoType → Bool) (Collect : S → Value → S)
    (f : Field) (fieldVal : Value) (h : Heap) (c : S) : Visit S :=
  if implementsT fieldVal.Type then
    if f.exported then
      Visit.next f h (Collect c fieldVal)
    else
      Visit.panicked (Panic.reflectError
        "reflect.Value.Interface: cannot return value obtained from unexported field or method") h
  else
    Visit.next f h c

/-- The loop body on the field `f` that sits at index `i`. -/
def visit {S : Type} (implementsT : GoType → Bool) (Collect : S → Value → S)
    (s : Settings) (self : Ptr) (i : Nat) (f : Field) (h : Heap) (c : S) : Visit S :=
  match f.val with
  | Value.pointer elem p =>
    if (Value.pointer elem p).IsNil then
      match s.nilHandling with
      | NilHandling.panicNilFields => Visit.panicked (Panic.raised (nilFieldMessage f.Name)) h
      | NilHandling.createNilFields =>
        if f.exported then
          visitCollect implementsT Collect (Field.mk f.Name f.exported (reflectNew h elem).2)
            (reflectNew h elem).2 (reflectNew h elem).1 c
        else
          Visit.panicked (Panic.reflectError
            "reflect: reflect.Value.Set using value obtained using unexported field")
            (reflectNew h elem).1
      | NilHandling.skipNilFields => Visit.brk
    else
      visitCollect implementsT Collect f (Value.pointer elem p) h c
  | v => visitCollect implementsT Collect f (Value.pointer v.Type (Ptr.field self i)) h c

/-- The loop over the fields `rest`, the first of which has index `i`.  The
state in the answer holds the fields of `rest` as the loop leaves them. -/
def walk {S : Type} (implementsT : GoType → Bool) (Collect : S → Value → S)
    (s : Settings) (self : Ptr) : Nat → List Field → Heap → S → Step S
  | _, [], h, c => Step.next (State.mk [] h c)
  | i, f :: rest, h, c =>
    match visit implementsT Collect s self i f h c with
    | Visit.next f1 h1 c1 =>
      match walk implementsT Collect s self (i + 1) rest h1 c1 with
      | Step.next st => Step.next (State.mk (f1 :: st.fields) st.heap st.collection)
      | Step.brk st => Step.brk (State.mk (f1 :: st.fields) st.heap st.collection)
      | Step.panicked p st => Step.panicked p (State.mk (f1 :: st.fields) st.heap st.collection)
    | Visit.brk => Step.next (State.mk (f :: rest) h c)
    | Visit.panicked p h1 => Step.panicked p (State.mk (f :: rest) h1 c)

/-! ## The collection the specification describes -/

/-- The pointerized field: the field itself when it is a pointer, otherwise
the address of the field (field `i` of the struct `self` points to). -/
def pointerized (self : Ptr) (i : Nat) : Value → Value
  | Value.pointer elem p => Value.pointer elem p
  | Value.struct name _ => Value.pointer (GoType.struct name) (Ptr.field self i)
  | Value.other name _ => Value.pointer (GoType.other name) (Ptr.field self i)

/-- The pointerized type of a field: its own type when that is a pointer type,
otherwise the type of pointers to it. -/
def pointerizedType : Value → GoType
  | Value.pointer elem _ => GoType.pointer elem
  | Value.struct name _ => GoType.pointer (GoType.struct name)
  | Value.other name _ => GoType.pointer (GoType.other name)

/-- A field qualifies when its pointerized type is assignable to `T`. -/
def qualifies (implementsT : GoType → Bool) (f : Field) : Bool :=
  implementsT (pointerizedType f.val)

/-- The declaration index of the first nil pointer field, and the number of
fields when no pointer field is nil. -/
def firstNilIndex (fields : List Field) : Nat :=
  fields.findIdx (fun f => f.val.IsNil)

/-- The number of leading fields the walk reaches: under the skip policy the
fields before the first nil pointer field, otherwise all of them. -/
def reached (nh : NilHandling) (fields : List Field) : Nat :=
  match nh with
  | NilHandling.skipNilFields => firstNilIndex fields
  | _ => fields.length

/-- The pointerized fields that qualify, in declaration order; the first of
`fields` has declaration index `i`. -/
def fieldItemsFrom (implementsT : GoType → Bool) (self : Ptr) (i : Nat)
    (fields : List Field) : List Value :=
  ((fields.enumFrom i).map (fun jf => pointerized self jf.1 jf.2.val)).filter
    (fun v => implementsT v.Type)

/-- The pointerized fields of a struct that qualify, in declaration order. -/
def fieldItems (implementsT : GoType → Bool) (self : Ptr) (fields : List Field) : List Value :=
  fieldItemsFrom implementsT self 0 fields

/-- The candidate itself, when it is a `T`. -/
def selfItem (implementsT : GoType → Bool) (maybe : Value) : List Value :=
  if implementsT maybe.Type then [maybe] else []

/-- The collection of the specification for a struct candidate: the reached
fields that qualify, in declaration order, then the candidate itself when it
is a `T`.  `entry` are the fields on entry, which decide what is reached, and
`final` the fields when the call returns, which are what is collected. -/
def expectedCollection (implementsT : GoType → Bool) (nh : NilHandling) (name : String)
    (self : Ptr) (entry final : List Field) : List Value :=
  fieldItems implementsT self (final.take (reached nh entry))
    ++ selfItem implementsT (Value.pointer (GoType.struct name) self)

/-- The items the specification expects a call to collect: for a pointer to
a struct the collection above, for every other candidate nothing. -/
def expectedItems (implementsT : GoType → Bool) (nh : NilHandling) (maybe : Any)
    (entry final : List Field) : List Value :=
  match maybe with
  | Any.val (Value.pointer (GoType.struct name) self) =>
    expectedCollection implementsT nh name self entry final
  | _ => []

/-! ## The types of the test file -/

/-- The interface `Doer` of the test file: the types `*doer1`, `*doer2`,
`*compoundDoer` and `*multiDoer` have the method `Do`. -/
def isDoer : GoType → Bool
  | GoType.pointer (GoType.struct "doer1") => true
  | GoType.pointer (GoType.struct "doer2") => true
  | GoType.pointer (GoType.struct "compoundDoer") => true
  | GoType.pointer (GoType.other "multiDoer") => true
  | _ => false

/-- The collector `&multiDoer{}` of the test file, at heap address 0. -/
def multiDoerPtr : Value := Value.pointer (GoType.other "multiDoer") (Ptr.obj 0)

/-- The fields of a `compoundDoer` with `Doer1: doer1{suffix}` and `Doer2: doer2`. -/
def compoundDoerFields (suffix : String) (doer2 : Ptr) : List Field :=
  [Field.mk "Doer1" true (Value.struct "doer1" suffix),
   Field.mk "Doer2" true (Value.pointer (GoType.struct "doer2") doer2),
   Field.mk "suffix" false (Value.other "string" "")]

/-- The fields of a `doerContainer` with `Doer1: doer1{suffix}` and `Doer2: doer2`. -/
def doerContainerFields (suffix : String) (doer2 : Ptr) : List Field :=
  [Field.mk "Doer1" true (Value.struct "doer1" suffix),
   Field.mk "Doer2" true (Value.pointer (GoType.struct "doer2") doer2)]

/-- A heap that holds the collector at address 0, the candidate struct at
address 1 and a `doer2{suffix}` at address 2. -/
def testHeap (structName : String) (suffix : String) : Heap :=
  [Object.data (GoType.other "multiDoer") "", Object.data (GoType.struct structName) "",
   Object.data (GoType.struct "doer2") suffix]

/-- A pointer to the candidate struct of `testHeap`. -/
def testCandidate (structName : String) : Any :=
  Any.val (Value.pointer (GoType.struct structName) (Ptr.obj 1))

/-- The fields of a struct `hiddenContainer` with an unexported field
`first doer1` before the pointer field `Doer2 *doer2`. -/
def hiddenContainerFields (suffix : String) (doer2 : Ptr) : List Field :=
  [Field.mk "first" false (Value.struct "doer1" suffix),
   Field.mk "Doer2" true (Value.pointer (GoType.struct "doer2") doer2)]

/-- The fields of a struct `hiddenPointer` with the field `Doer1 doer1` before
an unexported pointer field `second *doer2`. -/
def hiddenPointerFields (suffix : String) (doer2 : Ptr) : List Field :=
  [Field.mk "Doer1" true (Value.struct "doer1" suffix),
   Field.mk "second" false (Value.pointer (GoType.struct "doer2") doer2)]

/-- What `Do` of the test file writes for a collected item, read from the
fields of the candidate struct and from the heap: the name of the type the item
points to, followed by the suffix stored there (`doer1`, `doer2` and
`compoundDoer` all write their name and their `suffix`; the suffix of a zero
value is empty). -/
def testDo (fields : List Field) (heap : Heap) : Value → List String
  | Value.pointer (GoType.struct name) (Ptr.obj a) =>
    match heap[a]? with
    | some (Object.data _ d) => [name ++ d]
    | some (Object.zero _) => [name]
    | none => []
  | Value.pointer (GoType.struct name) (Ptr.field _ i) =>
    match fields[i]? with
    | some (Field.mk _ _ (Value.struct _ d)) => [name ++ d]
    | _ => []
  | _ => []

/-- The state a step leaves, however the step ends. -/
def Step.state {S : Type} : Step S → State S
  | Step.next st => st
  | Step.brk st => st
  | Step.panicked _ st => st

/-- The fields of a struct `privateNote` with the field `Doer1 doer1` before an
unexported pointer field `note *string`, whose type is not a `Doer`. -/
def privateNoteFields (suffix : String) (note : Ptr) : List Field :=
  [Field.mk "Doer1" true (Value.struct "doer1" suffix),
   Field.mk "note" false (Value.pointer (GoType.other "string") note)]

/-- The fields of a struct `mixedContainer`: the exported `Doer1 doer1`, the
unexported `hidden doer1`, and the pointer field `Doer2 *doer2`. -/
def mixedContainerFields (suffix : String) (doer2 : Ptr) : List Field :=
  [Field.mk "Doer1" true (Value.struct "doer1" suffix),
   Field.mk "hidden" false (Value.struct "doer1" suffix),
   Field.mk "Doer2" true (Value.pointer (GoType.struct "doer2") doer2)]

/-- The fields of a struct `doerHolder` with one field `D Doer` of the
interface type `Doer`; `held` stands for the value the interface holds, the
empty string for nil. -/
def doerHolderFields (held : String) : List Field :=
  [Field.mk "D" true (Value.other "Doer" held)]

/-- The fields of a struct `publicNote` with the field `Doer1 doer1` before the
exported pointer field `Note *string`, whose type is not a `Doer`. -/
def publicNoteFields (suffix : String) (note : Ptr) : List Field :=
  [Field.mk "Doer1" true (Value.struct "doer1" suffix),
   Field.mk "Note" true (Value.pointer (GoType.other "string") note)]

/-- The number of leading fields the walk works through before the policy
stops it: all fields under the create policy, the fields before the first nil
pointer field under the skip and the panic policy. -/
def walked (nh : NilHandling) (fields : List Field) : Nat :=
  match nh with
  | NilHandling.createNilFields => fields.length
  | _ => firstNilIndex fields

/-! ## The embedding with caller code that may panic or write to the candidate

`Interface` above takes the method `Collect` as a total function on a
collector state of its own, and every option as a total function.  In Go both
are caller code: an `Option` is a func value, which may be nil or panic, and
`Collect` may panic (a nil `*multiDoer` receiver) and may write to the struct
the candidate points to (a collector that is the candidate).  The definitions
of this section embed the same source lines with such caller code;
`Go.Interface_pureCollect` shows that they agree with the definitions above
on collectors that return and keep to their own state. -/

namespace Go

/-- The function type `Option` of the source, `func(*Settings)`, as a Go func
value: the nil func, or a function that returns new settings or panics.  An
option acts on the settings it is given and on nothing else. -/
inductive Opt
  | nilFunc
  | func (run : Settings → Except Panic Settings)

/-- Source: `func OptSkipNilFields(s *Settings) { s.nilHandling = skipNilFields }`. -/
def OptSkipNilFields : Opt :=
  Opt.func (fun _ => Except.ok (Settings.mk NilHandling.skipNilFields))

/-- Source: `func OptCreateNilFields(s *Settings) { s.nilHandling = createNilFields }`. -/
def OptCreateNilFields : Opt :=
  Opt.func (fun _ => Except.ok (Settings.mk NilHandling.createNilFields))

/-- Source: `func OptPanicNilFields(s *Settings) { s.nilHandling = panicNilFields }`. -/
def OptPanicNilFields : Opt :=
  Opt.func (fun _ => Except.ok (Settings.mk NilHandling.panicNilFields))

/-- Source lines 34 to 36: `for _, o := range opts { o(s) }`.  Calling the nil
func is a nil pointer dereference. -/
def applyOptions : Settings → List Opt → Except Panic Settings
  | s, [] => Except.ok s
  | _, Opt.nilFunc :: _ =>
    Except.error (Panic.runtimeError "invalid memory address or nil pointer dereference")
  | s, Opt.func run :: rest =>
    match run s with
    | Except.ok s1 => applyOptions s1 rest
    | Except.error p => Except.error p

/-- Source: `makeSettings`: start from `createNilFields`, then run every option
in order on the same settings value. -/
def makeSettings (opts : List Opt) : Except Panic Settings :=
  applyOptions (Settings.mk NilHandling.createNilFields) opts

/-- How a call of caller code ends: it returns and leaves a state, or it
panics and leaves a state. -/
inductive Effect (S : Type)
  | done (st : State S)
  | panicked (p : Panic) (st : State S)

/-- The state a call of caller code leaves, however it ends. -/
def Effect.state {S : Type} : Effect S → State S
  | Effect.done st => st
  | Effect.panicked _ st => st

/-- Source lines 75 to 77: collect `fieldVal` when its type is assignable to
`T`.  `reflect.Value.Interface` panics on a value obtained through an
unexported field; `Collect` is caller code, run on the whole state. -/
def collectIfAssignable {S : Type} (implementsT : GoType → Bool)
    (Collect : State S → Value → Effect S) (exported : Bool) (fieldVal : Value)
    (st : State S) : Step S :=
  if implementsT fieldVal.Type then
    if exported then
      match Collect st fieldVal with
      | Effect.done st1 => Step.next st1
      | Effect.panicked p st1 => Step.panicked p st1
    else
      Step.panicked (Panic.reflectError
        "reflect.Value.Interface: cannot return value obtained from unexported field or method") st
  else
    Step.next st

/-- Source lines 60 to 77: the body of the field loop at index `i`. -/
def fieldStep {S : Type} (implementsT : GoType → Bool) (Collect : State S → Value → Effect S)
    (s : Settings) (self : Ptr) (i : Nat) (st : State S) : Step S :=
  if self = Ptr.null then
    Step.panicked (Panic.reflectError "reflect: call of reflect.Value.Field on zero Value") st
  else
    match st.fields[i]? with
    | none => Step.panicked (Panic.reflectError "reflect: Field index out of range") st
    | some f =>
      match f.val with
      | Value.pointer elem p =>
        if (Value.pointer elem p).IsNil then
          match s.nilHandling with
          | NilHandling.panicNilFields =>
            Step.panicked (Panic.raised (nilFieldMessage f.Name)) st
          | NilHandling.createNilFields =>
            let alloc := reflectNew st.heap elem
            if f.exported then
              collectIfAssignable implementsT Collect f.exported alloc.2
                (State.mk (st.fields.set i (Field.mk f.Name f.exported alloc.2)) alloc.1
                  st.collection)
            else
              Step.panicked (Panic.reflectError
                "reflect: reflect.Value.Set using value obtained using unexported field")
                (State.mk st.fields alloc.1 st.collection)
          | NilHandling.skipNilFields => Step.brk st
        else
          collectIfAssignable implementsT Collect f.exported (Value.pointer elem p) st
      | v =>
        collectIfAssignable implementsT Collect f.exported
          (Value.pointer v.Type (Ptr.field self i)) st

/-- Source lines 58 to 78: the loop `for i := 0; i < t.NumField(); i++`, with
`n` the number of fields still to visit, `n = t.NumField() - i`. -/
def fieldLoop {S : Type} (implementsT : GoType → Bool) (Collect : State S → Value → Effect S)
    (s : Settings) (self : Ptr) : Nat → Nat → State S → Step S
  | 0, _, st => Step.next st
  | n + 1, i, st =>
    match fieldStep implementsT Collect s self i st with
    | Step.next st1 => fieldLoop implementsT Collect s self n (i + 1) st1
    | Step.brk st1 => Step.next st1
    | Step.panicked p st1 => Step.panicked p st1

/-- Source lines 80 to 85: collect the candidate itself when it is a `T`, and
return the collector. -/
def collectSelf {S : Type} (implementsT : GoType → Bool) (Collect : State S → Value → Effect S)
    (maybe : Any) (out : Value) (st : State S) : Result S :=
  match assertT implementsT maybe with
  | some f =>
    match Collect st f with
    | Effect.done st1 => Result.mk (Outcome.returned out) st1
    | Effect.panicked p st1 => Result.mk (Outcome.panicked p) st1
  | none => Result.mk (Outcome.returned out) st

/-- Source lines 40 to 86: `Interface[T, C](maybe, collection, options...)`,
with options and a `Collect` that are caller code.  Line 41 runs the options
before the collector is checked on line 43. -/
def Interface {S : Type} (implementsT : GoType → Bool) (Collect : State S → Value → Effect S)
    (maybe : Any) (collection : Any) (options : List Opt) (st : State S) : Result S :=
  match makeSettings options with
  | Except.error p => Result.mk (Outcome.panicked p) st
  | Except.ok s =>
    match assertT implementsT collection with
    | none => Result.mk (Outcome.panicked (Panic.raised "collection must implement T")) st
    | some out =>
      match maybe with
      | Any.nil =>
        Result.mk (Outcome.panicked (Panic.runtimeError
          "invalid memory address or nil pointer dereference")) st
      | Any.val (Value.pointer (GoType.struct _) self) =>
        match fieldLoop implementsT Collect s self st.fields.length 0 st with
        | Step.next st1 => collectSelf implementsT Collect maybe out st1
        | Step.brk st1 => collectSelf implementsT Collect maybe out st1
        | Step.panicked p st1 => Result.mk (Outcome.panicked p) st1
      | Any.val _ => Result.mk (Outcome.returned out) st

/-- A `Collect` that returns and keeps to the collector state: it acts on that
state as the function `f` and leaves the candidate struct and the heap alone. -/
def pureCollect {S : Type} (f : S → Value → S) : State S → Value → Effect S :=
  fun st d => Effect.done (State.mk st.fields st.heap (f st.collection d))

/-- A `Collect` that does not write to the candidate struct or to the heap,
whether it returns or panics. -/
def Framed {S : Type} (Collect : State S → Value → Effect S) : Prop :=
  ∀ (st : State S) (d : Value),
    (Collect st d).state.fields = st.fields ∧ (Collect st d).state.heap = st.heap

/-! ### Method sets -/

/-- The method declarations of a program: for a type name the methods declared
with a value receiver and with a pointer receiver, and for the name of an
interface type its methods. -/
structure Methods where
  valueRecv : String → List String
  pointerRecv : String → List String
  iface : String → Option (List String)

/-- The method set of a type, by the rules of the Go specification: an
interface type has its own methods; a pointer to a defined type has the
methods of both receivers; a pointer to an interface type and a pointer to a
pointer have none. -/
def methodSet (m : Methods) : GoType → List String
  | GoType.struct n => m.valueRecv n
  | GoType.other n =>
    match m.iface n with
    | some ms => ms
    | none => m.valueRecv n
  | GoType.pointer (GoType.struct n) => m.valueRecv n ++ m.pointerRecv n
  | GoType.pointer (GoType.other n) =>
    match m.iface n with
    | some _ => []
    | none => m.valueRecv n ++ m.pointerRecv n
  | GoType.pointer (GoType.pointer _) => []

/-- Assignability to the interface type `T` with the methods `T`: the method
set of the type has every method of `T`. -/
def implements (m : Methods) (T : List String) (ty : GoType) : Bool :=
  T.all (fun x => (methodSet m ty).contains x)

/-! ### The types of the test file, and two collectors

`multiDoer` with its receiver, and a struct `selfCollector` that collects into
its own field `Items`. -/

/-- The method declarations of the test file, with the struct
`selfCollector { Doer1 doer1; Items []Doer }`, which has `Do` and `Collect` on
its pointer. -/
def testMethods : Methods where
  valueRecv := fun _ => []
  pointerRecv := fun n =>
    if n = "doer1" ∨ n = "doer2" ∨ n = "compoundDoer" then ["Do"]
    else if n = "multiDoer" ∨ n = "selfCollector" then ["Collect", "Do"]
    else []
  iface := fun n => if n = "Doer" then some ["Do"] else none

/-- Source (test file): `func (md *multiDoer) Collect(d Doer) { *md = append(*md, d) }`
with the receiver `md`: a nil receiver is dereferenced. -/
def multiDoerCollect (md : Ptr) : State (List Value) → Value → Effect (List Value) :=
  fun st d =>
    if md = Ptr.null then
      Effect.panicked
        (Panic.runtimeError "invalid memory address or nil pointer dereference") st
    else
      Effect.done (State.mk st.fields st.heap (st.collection ++ [d]))

/-- The method `func (s *selfCollector) Collect(d Doer) { s.Items = append(s.Items, d) }`
of a collector that is the candidate: it writes to the field `Items`, at
index 1 of the candidate struct; the content of the slice is kept as one mark
per element. -/
def selfCollect : State Unit → Value → Effect Unit :=
  fun st _ =>
    match st.fields[1]? with
    | some (Field.mk name exported (Value.other ty items)) =>
      Effect.done
        (State.mk (st.fields.set 1 (Field.mk name exported (Value.other ty (items ++ "+"))))
          st.heap st.collection)
    | _ => Effect.done st

/-- The fields of a fresh `selfCollector{Doer1: doer1{suffix}}`: `Items` is
empty. -/
def selfCollectorFields (suffix : String) : List Field :=
  [Field.mk "Doer1" true (Value.struct "doer1" suffix),
   Field.mk "Items" true (Value.other "[]Doer" "")]

end Go

/-! ## Theorems -/

/-- The check of lines 75 to 77 does not touch the fields or the heap, so it
is the same seen from the state and seen from the field. -/
theorem collectIfAssignable_eq {S : Type} (implementsT : GoType → Bool)
    (Collect : S → Value → S) (before rest : List Field) (f : Field) (fieldVal : Value)
    (h : Heap) (c : S) :
    collectIfAssignable implementsT Collect f.exported fieldVal
        (State.mk (before ++ f :: rest) h c)
      = match visitCollect implementsT Collect f fieldVal h c with
        | Visit.next f1 h1 c1 => Step.next (State.mk (before ++ f1 :: rest) h1 c1)
        | Visit.brk => Step.brk (State.mk (before ++ f :: rest) h c)
        | Visit.panicked p h1 => Step.panicked p (State.mk (before ++ f :: rest) h1 c) := by
  unfold collectIfAssignable visitCollect
  by_cases hT : implementsT fieldVal.Type = true <;> by_cases hE : f.exported = true <;>
    simp [hT, hE]

/-- The loop body of the source at index `i`, on a struct whose field `i` is
`f`, is `visit` on `f`. -/
theorem fieldStep_eq_visit {S : Type} (implementsT : GoType → Bool)
    (Collect : S → Value → S) (s : Settings) (self : Ptr) (hself : self ≠ Ptr.null)
    (before rest : List Field) (f : Field) (h : Heap) (c : S) :
    fieldStep implementsT Collect s self before.length (State.mk (before ++ f :: rest) h c)
      = match visit implementsT Collect s self before.length f h c with
        | Visit.next f1 h1 c1 => Step.next (State.mk (before ++ f1 :: rest) h1 c1)
        | Visit.brk => Step.brk (State.mk (before ++ f :: rest) h c)
        | Visit.panicked p h1 => Step.panicked p (State.mk (before ++ f :: rest) h1 c) := by
  have hget : (before ++ f :: rest)[before.length]? = some f := by
    rw [List.getElem?_append_right (le_refl _)]
    simp
  unfold fieldStep visit
  simp only [hself, if_false, hget]
  rcases f with ⟨name, ex, v⟩
  cases v with
  | pointer elem p =>
    by_cases hn : (Value.pointer elem p).IsNil = true
    · simp only [hn, if_true]
      rcases s with ⟨nh⟩
      cases nh with
      | skipNilFields => rfl
      | panicNilFields => rfl
      | createNilFields =>
        cases ex with
        | false => simp
        | true =>
          simp only [if_true]
          have hset : (before ++ Field.mk name true (Value.pointer elem p) :: rest).set
              before.length (Field.mk name true (reflectNew h elem).2)
              = before ++ Field.mk name true (reflectNew h elem).2 :: rest := by simp
          rw [hset]
          unfold collectIfAssignable visitCollect
          by_cases hT : implementsT (reflectNew h elem).2.Type = true <;> simp [hT]
    · simp only [hn]
      exact collectIfAssignable_eq implementsT Collect before rest _ _ h c
  | struct n d => exact collectIfAssignable_eq implementsT Collect before rest _ _ h c
  | other n d => exact collectIfAssignable_eq implementsT Collect before rest _ _ h c

/-- The loop of the source, started at index `before.length` with the fields
`rest` still to visit, is `walk` over `rest`. -/
theorem fieldLoop_eq_walk {S : Type} (implementsT : GoType → Bool)
    (Collect : S → Value → S) (s : Settings) (self : Ptr) (hself : self ≠ Ptr.null)
    (rest : List Field) :
    ∀ (before : List Field) (h : Heap) (c : S),
      fieldLoop implementsT Collect s self rest.length before.length
          (State.mk (before ++ rest) h c)
        = match walk implementsT Collect s self before.length rest h c with
          | Step.next st => Step.next (State.mk (before ++ st.fields) st.heap st.collection)
          | Step.brk st => Step.next (State.mk (before ++ st.fields) st.heap st.collection)
          | Step.panicked p st =>
            Step.panicked p (State.mk (before ++ st.fields) st.heap st.collection) := by
  induction rest with
  | nil => intro before h c; simp [fieldLoop, walk]
  | cons f rest ih =>
    intro before h c
    simp only [List.length_cons, fieldLoop, walk]
    rw [fieldStep_eq_visit implementsT Collect s self hself before rest f h c]
    cases hv : visit implementsT Collect s self before.length f h c with
    | brk => simp
    | panicked p h1 => simp
    | next f1 h1 c1 =>
      simp only
      have e : before ++ f1 :: rest = (before ++ [f1]) ++ rest := by simp
      rw [e]
      have hl : before.length + 1 = (before ++ [f1]).length := by simp
      rw [hl, ih (before ++ [f1]) h1 c1]
      cases walk implementsT Collect s self (before ++ [f1]).length rest h1 c1 <;> simp

/-- The type of the pointerized field does not depend on where the field is. -/
theorem pointerized_Type (self : Ptr) (i : Nat) (v : Value) :
    (pointerized self i v).Type = pointerizedType v := by
  cases v <;> rfl

/-- The walk never ends in a break: a break ends the loop normally. -/
theorem walk_ne_brk {S : Type} (implementsT : GoType → Bool) (Collect : S → Value → S)
    (s : Settings) (self : Ptr) (rest : List Field) :
    ∀ (i : Nat) (h : Heap) (c : S) (st1 : State S),
      walk implementsT Collect s self i rest h c ≠ Step.brk st1 := by
  induction rest with
  | nil => intro i h c st1; simp [walk]
  | cons f rest ih =>
    intro i h c st1
    simp only [walk]
    cases hv : visit implementsT Collect s self i f h c with
    | brk => simp
    | panicked p h1 => simp
    | next f1 h1 c1 =>
      simp only
      cases hw : walk implementsT Collect s self (i + 1) rest h1 c1 with
      | next st2 => simp
      | panicked p st2 => simp
      | brk st2 => exact absurd hw (ih _ _ _ _)

/-- The body on a field that is not a nil pointer: only the check of lines 75
to 77, on the pointerized field. -/
theorem visit_of_not_nil {S : Type} (implementsT : GoType → Bool) (Collect : S → Value → S)
    (s : Settings) (self : Ptr) (i : Nat) (f : Field) (h : Heap) (c : S)
    (hn : f.val.IsNil = false) :
    visit implementsT Collect s self i f h c
      = visitCollect implementsT Collect f (pointerized self i f.val) h c := by
  rcases f with ⟨name, ex, v⟩
  cases v with
  | pointer elem p =>
    simp only at hn
    simp [visit, hn, pointerized]
  | struct n d => rfl
  | other n d => rfl

/-- A nil pointer field holds the nil pointer of its type. -/
theorem eq_null_of_IsNil (v : Value) (hn : v.IsNil = true) :
    ∃ elem, v = Value.pointer elem Ptr.null := by
  cases v with
  | pointer elem p =>
    cases p with
    | null => exact ⟨elem, rfl⟩
    | obj a => simp [Value.IsNil] at hn
    | field b i => simp [Value.IsNil] at hn
  | struct n d => simp [Value.IsNil] at hn
  | other n d => simp [Value.IsNil] at hn

/-- The body on a nil pointer field under the skip policy: a break. -/
theorem visit_nil_skip {S : Type} (implementsT : GoType → Bool) (Collect : S → Value → S)
    (s : Settings) (self : Ptr) (i : Nat) (f : Field) (h : Heap) (c : S)
    (hn : f.val.IsNil = true) (hs : s.nilHandling = NilHandling.skipNilFields) :
    visit implementsT Collect s self i f h c = Visit.brk := by
  obtain ⟨elem, he⟩ := eq_null_of_IsNil f.val hn
  simp [visit, he, Value.IsNil, hs]

/-- The body on a nil pointer field under the panic policy: the panic that
names the field. -/
theorem visit_nil_panic {S : Type} (implementsT : GoType → Bool) (Collect : S → Value → S)
    (s : Settings) (self : Ptr) (i : Nat) (f : Field) (h : Heap) (c : S)
    (hn : f.val.IsNil = true) (hs : s.nilHandling = NilHandling.panicNilFields) :
    visit implementsT Collect s self i f h c
      = Visit.panicked (Panic.raised (nilFieldMessage f.Name)) h := by
  obtain ⟨elem, he⟩ := eq_null_of_IsNil f.val hn
  simp [visit, he, Value.IsNil, hs]

/-- The body on a nil pointer field of type `*elem` under the create policy:
a zero value is allocated; an exported field is set to point at it and then
checked, an unexported field makes `Set` panic. -/
theorem visit_nil_create {S : Type} (implementsT : GoType → Bool) (Collect : S → Value → S)
    (s : Settings) (self : Ptr) (i : Nat) (f : Field) (h : Heap) (c : S) (elem : GoType)
    (he : f.val = Value.pointer elem Ptr.null)
    (hs : s.nilHandling = NilHandling.createNilFields) :
    visit implementsT Collect s self i f h c
      = if f.exported = true then
          visitCollect implementsT Collect
            (Field.mk f.Name f.exported (Value.pointer elem (Ptr.obj h.length)))
            (Value.pointer elem (Ptr.obj h.length)) (h ++ [Object.zero elem]) c
        else
          Visit.panicked (Panic.reflectError
            "reflect: reflect.Value.Set using value obtained using unexported field")
            (h ++ [Object.zero elem]) := by
  simp [visit, he, Value.IsNil, hs, reflectNew]

/-- The check of lines 75 to 77 on the pointerized field, by cases. -/
theorem visitCollect_pointerized {S : Type} (implementsT : GoType → Bool)
    (Collect : S → Value → S) (self : Ptr) (i : Nat) (f : Field) (h : Heap) (c : S) :
    visitCollect implementsT Collect f (pointerized self i f.val) h c
      = if qualifies implementsT f = true then
          if f.exported = true then
            Visit.next f h (Collect c (pointerized self i f.val))
          else
            Visit.panicked (Panic.reflectError
              "reflect.Value.Interface: cannot return value obtained from unexported field or method")
              h
        else
          Visit.next f h c := by
  simp [visitCollect, qualifies, pointerized_Type]

/-- The items of a list of fields, one field at a time. -/
theorem fieldItemsFrom_cons (implementsT : GoType → Bool) (self : Ptr) (i : Nat) (f : Field)
    (rest : List Field) :
    fieldItemsFrom implementsT self i (f :: rest)
      = (if qualifies implementsT f = true then [pointerized self i f.val] else [])
          ++ fieldItemsFrom implementsT self (i + 1) rest := by
  by_cases hq : qualifies implementsT f = true
  · have hq2 : implementsT (pointerizedType f.val) = true := hq
    simp [fieldItemsFrom, List.enumFrom_cons, hq, pointerized_Type, hq2]
  · have hq2 : ¬ implementsT (pointerizedType f.val) = true := hq
    simp [fieldItemsFrom, List.enumFrom_cons, hq, pointerized_Type, hq2]

/-- No field yields no item. -/
theorem fieldItemsFrom_nil (implementsT : GoType → Bool) (self : Ptr) (i : Nat) :
    fieldItemsFrom implementsT self i [] = [] := by
  simp [fieldItemsFrom]

/-- A field that is not a nil pointer is reached whenever the walk gets to it. -/
theorem reached_cons_of_not_nil (nh : NilHandling) (f : Field) (rest : List Field)
    (hn : f.val.IsNil = false) : reached nh (f :: rest) = reached nh rest + 1 := by
  cases nh <;> simp [reached, firstNilIndex, List.findIdx_cons, hn]

/-- Under the skip policy nothing is reached from a nil pointer field on. -/
theorem reached_cons_of_nil_skip (f : Field) (rest : List Field)
    (hn : f.val.IsNil = true) : reached NilHandling.skipNilFields (f :: rest) = 0 := by
  simp [reached, firstNilIndex, List.findIdx_cons, hn]

/-- What is known when the body lets the loop go on: the field is either not
a nil pointer and untouched, or it was a nil pointer of an exported field
under the create policy and now points at a fresh zero value; the collector
received the pointerized field exactly when the field qualifies. -/
theorem visit_next_inv {S : Type} (implementsT : GoType → Bool) (Collect : S → Value → S)
    (s : Settings) (self : Ptr) (i : Nat) (f : Field) (h : Heap) (c : S)
    (f1 : Field) (h1 : Heap) (c1 : S)
    (hv : visit implementsT Collect s self i f h c = Visit.next f1 h1 c1) :
    c1 = (if qualifies implementsT f1 = true then Collect c (pointerized self i f1.val) else c)
      ∧ f1.Name = f.Name ∧ f1.exported = f.exported
      ∧ (qualifies implementsT f1 = true → f.exported = true)
      ∧ ((f.val.IsNil = false ∧ f1 = f ∧ h1 = h)
          ∨ (s.nilHandling = NilHandling.createNilFields ∧ f.exported = true
              ∧ ∃ elem, f.val = Value.pointer elem Ptr.null
                ∧ f1.val = Value.pointer elem (Ptr.obj h.length)
                ∧ h1 = h ++ [Object.zero elem])) := by
  by_cases hn : f.val.IsNil = true
  · obtain ⟨elem, he⟩ := eq_null_of_IsNil f.val hn
    rcases s with ⟨nh⟩
    cases nh with
    | skipNilFields => rw [visit_nil_skip implementsT Collect _ self i f h c hn rfl] at hv; cases hv
    | panicNilFields =>
      rw [visit_nil_panic implementsT Collect _ self i f h c hn rfl] at hv; cases hv
    | createNilFields =>
      rw [visit_nil_create implementsT Collect _ self i f h c elem he rfl] at hv
      by_cases hx : f.exported = true
      · simp only [hx, if_true] at hv
        have hp := visitCollect_pointerized implementsT Collect self i
          (Field.mk f.Name true (Value.pointer elem (Ptr.obj h.length)))
          (h ++ [Object.zero elem]) c
        simp only [pointerized] at hp
        rw [hp] at hv
        by_cases hq : qualifies implementsT
            (Field.mk f.Name true (Value.pointer elem (Ptr.obj h.length))) = true
        · simp only [hq, if_true] at hv
          cases hv
          simp [hq, hx, pointerized, he]
        · simp only [hq, if_false] at hv
          cases hv
          simp [hq, hx, he]
      · simp only [hx, if_false] at hv
        cases hv
  · have hn2 : f.val.IsNil = false := by simpa using hn
    rw [visit_of_not_nil implementsT Collect s self i f h c hn2,
      visitCollect_pointerized] at hv
    by_cases hq : qualifies implementsT f = true
    · by_cases hx : f.exported = true
      · simp only [hq, hx, if_true] at hv
        cases hv
        simp [hq, hx, hn2]
      · simp only [hq, hx, if_true, if_false] at hv
        cases hv
    · simp only [hq, if_false] at hv
      cases hv
      simp [hq, hn2]

/-- What is known when the body breaks out of the loop. -/
theorem visit_brk_inv {S : Type} (implementsT : GoType → Bool) (Collect : S → Value → S)
    (s : Settings) (self : Ptr) (i : Nat) (f : Field) (h : Heap) (c : S)
    (hv : visit implementsT Collect s self i f h c = Visit.brk) :
    s.nilHandling = NilHandling.skipNilFields ∧ f.val.IsNil = true := by
  by_cases hn : f.val.IsNil = true
  · obtain ⟨elem, he⟩ := eq_null_of_IsNil f.val hn
    rcases s with ⟨nh⟩
    cases nh with
    | skipNilFields => exact ⟨rfl, hn⟩
    | panicNilFields =>
      rw [visit_nil_panic implementsT Collect _ self i f h c hn rfl] at hv; cases hv
    | createNilFields =>
      rw [visit_nil_create implementsT Collect _ self i f h c elem he rfl] at hv
      unfold visitCollect at hv
      split_ifs at hv
  · have hn2 : f.val.IsNil = false := by simpa using hn
    rw [visit_of_not_nil implementsT Collect s self i f h c hn2,
      visitCollect_pointerized] at hv
    split_ifs at hv

/-- What a walk that ends normally did at its first field. -/
theorem walk_cons_next_inv {S : Type} (implementsT : GoType → Bool) (Collect : S → Value → S)
    (s : Settings) (self : Ptr) (i : Nat) (f : Field) (rest : List Field) (h : Heap) (c : S)
    (st1 : State S)
    (hw : walk implementsT Collect s self i (f :: rest) h c = Step.next st1) :
    (visit implementsT Collect s self i f h c = Visit.brk ∧ st1 = State.mk (f :: rest) h c)
      ∨ ∃ f1 h1 c1 st2, visit implementsT Collect s self i f h c = Visit.next f1 h1 c1
          ∧ walk implementsT Collect s self (i + 1) rest h1 c1 = Step.next st2
          ∧ st1 = State.mk (f1 :: st2.fields) st2.heap st2.collection := by
  simp only [walk] at hw
  cases hv : visit implementsT Collect s self i f h c with
  | brk =>
    rw [hv] at hw
    simp only [Step.next.injEq] at hw
    exact Or.inl ⟨rfl, hw.symm⟩
  | panicked p h1 => rw [hv] at hw; cases hw
  | next f1 h1 c1 =>
    rw [hv] at hw
    simp only at hw
    cases hw2 : walk implementsT Collect s self (i + 1) rest h1 c1 with
    | next st2 =>
      rw [hw2] at hw
      simp only [Step.next.injEq] at hw
      exact Or.inr ⟨f1, h1, c1, st2, rfl, hw2, hw.symm⟩
    | brk st2 => rw [hw2] at hw; cases hw
    | panicked p st2 => rw [hw2] at hw; cases hw

/-- The collector after a walk that ends normally: it received the reached
fields that qualify, pointerized, in declaration order. -/
theorem walk_next_collection {S : Type} (implementsT : GoType → Bool)
    (Collect : S → Value → S) (s : Settings) (self : Ptr) (rest : List Field) :
    ∀ (i : Nat) (h : Heap) (c : S) (st1 : State S),
      walk implementsT Collect s self i rest h c = Step.next st1 →
      st1.collection
        = (fieldItemsFrom implementsT self i
            (st1.fields.take (reached s.nilHandling rest))).foldl Collect c := by
  induction rest with
  | nil =>
    intro i h c st1 hw
    simp only [walk, Step.next.injEq] at hw
    subst hw
    simp [fieldItemsFrom_nil]
  | cons f rest ih =>
    intro i h c st1 hw
    rcases walk_cons_next_inv implementsT Collect s self i f rest h c st1 hw with
      ⟨hv, hst⟩ | ⟨f1, h1, c1, st2, hv, hw2, hst⟩
    · obtain ⟨hs, hn⟩ := visit_brk_inv implementsT Collect s self i f h c hv
      subst hst
      rw [hs, reached_cons_of_nil_skip f rest hn]
      simp [fieldItemsFrom_nil]
    · obtain ⟨hc1, -, -, -, hcase⟩ := visit_next_inv implementsT Collect s self i f h c f1 h1 c1 hv
      have hr : reached s.nilHandling (f :: rest) = reached s.nilHandling rest + 1 := by
        rcases hcase with ⟨hn, -, -⟩ | ⟨hs, -, -⟩
        · exact reached_cons_of_not_nil _ f rest hn
        · rw [hs]; simp [reached]
      subst hst
      rw [hr]
      simp only [List.take_succ_cons, fieldItemsFrom_cons, List.foldl_append]
      rw [ih (i + 1) h1 c1 st2 hw2, hc1]
      by_cases hq : qualifies implementsT f1 = true <;> simp [hq]

/-- The first fatal condition: a collector that is not a `T` makes the call
panic at once, in the state it was given. -/
theorem Interface_of_assertT_none {S : Type} (implementsT : GoType → Bool)
    (Collect : S → Value → S) (maybe collection : Any) (options : List Opt) (st : State S)
    (hnot : assertT implementsT collection = none) :
    Interface implementsT Collect maybe collection options st
      = Result.mk (Outcome.panicked (Panic.raised "collection must implement T")) st := by
  unfold Interface
  simp only [hnot]

/-- The type assertion yields the asserted value itself. -/
theorem assertT_eq_some (implementsT : GoType → Bool) (a : Any) (v : Value)
    (h : assertT implementsT a = some v) : a = Any.val v ∧ implementsT v.Type = true := by
  cases a with
  | nil => simp [assertT] at h
  | val w =>
    simp only [assertT] at h
    split_ifs at h with hw
    simp only [Option.some.injEq] at h
    subst h
    exact ⟨rfl, hw⟩

/-- The state that `collectSelf` leaves, and that it returns the collector. -/
theorem collectSelf_spec {S : Type} (implementsT : GoType → Bool) (Collect : S → Value → S)
    (maybe out : Value) (st : State S) :
    (collectSelf implementsT Collect (Any.val maybe) out st).outcome = Outcome.returned out
      ∧ (collectSelf implementsT Collect (Any.val maybe) out st).state.fields = st.fields
      ∧ (collectSelf implementsT Collect (Any.val maybe) out st).state.heap = st.heap
      ∧ (collectSelf implementsT Collect (Any.val maybe) out st).state.collection
          = (selfItem implementsT maybe).foldl Collect st.collection := by
  unfold collectSelf selfItem assertT
  by_cases hT : implementsT maybe.Type = true <;> simp [hT]

/-- A call on a non-nil pointer to a struct with a collector that is a `T`:
the walk over all fields, then the candidate itself. -/
theorem Interface_struct_eq {S : Type} (implementsT : GoType → Bool)
    (Collect : S → Value → S) (name : String) (self : Ptr) (hself : self ≠ Ptr.null)
    (collection : Any) (out : Value) (hout : assertT implementsT collection = some out)
    (options : List Opt) (st : State S) :
    Interface implementsT Collect (Any.val (Value.pointer (GoType.struct name) self))
        collection options st
      = match walk implementsT Collect (makeSettings options) self 0 st.fields st.heap
            st.collection with
        | Step.next st1 =>
          collectSelf implementsT Collect (Any.val (Value.pointer (GoType.struct name) self))
            out st1
        | Step.brk st1 =>
          collectSelf implementsT Collect (Any.val (Value.pointer (GoType.struct name) self))
            out st1
        | Step.panicked p st1 => Result.mk (Outcome.panicked p) st1 := by
  have hw := fieldLoop_eq_walk implementsT Collect (makeSettings options) self hself
    st.fields [] st.heap st.collection
  simp only [List.length_nil, List.nil_append] at hw
  unfold Interface
  simp only [hout]
  rw [hw]
  cases walk implementsT Collect (makeSettings options) self 0 st.fields st.heap
    st.collection <;> rfl

/-- A call on a candidate that is not nil and not a pointer to a struct, with
a collector that is a `T`, returns the collector and leaves the state alone. -/
theorem Interface_not_struct_pointer_eq {S : Type} (implementsT : GoType → Bool)
    (Collect : S → Value → S) (v : Value)
    (hv : v.Type.Kind ≠ Kind.Pointer
      ∨ ∃ elem p, v = Value.pointer elem p ∧ elem.Kind ≠ Kind.Struct)
    (collection : Any) (out : Value) (hout : assertT implementsT collection = some out)
    (options : List Opt) (st : State S) :
    Interface implementsT Collect (Any.val v) collection options st
      = Result.mk (Outcome.returned out) st := by
  unfold Interface
  simp only [hout]
  cases v with
  | struct n d => rfl
  | other n d => rfl
  | pointer elem p =>
    rcases hv with hk | ⟨e, q, he, hk⟩
    · exact absurd rfl hk
    · cases he
      cases elem with
      | struct n => exact absurd rfl hk
      | other n => rfl
      | pointer e2 => rfl

/-- The loop on a nil struct pointer: it ends at once when the struct type
has no field, and panics in `Field` otherwise. -/
theorem fieldLoop_null {S : Type} (implementsT : GoType → Bool) (Collect : S → Value → S)
    (s : Settings) (n i : Nat) (st : State S) :
    fieldLoop implementsT Collect s Ptr.null n i st
      = if n = 0 then Step.next st
        else Step.panicked
          (Panic.reflectError "reflect: call of reflect.Value.Field on zero Value") st := by
  cases n with
  | zero => rfl
  | succ m => simp [fieldLoop, fieldStep]

/-- A call on a nil pointer to a struct with a collector that is a `T`: with
no field to walk only the candidate itself is looked at, otherwise `Field`
panics on the zero `reflect.Value`. -/
theorem Interface_null_struct_eq {S : Type} (implementsT : GoType → Bool)
    (Collect : S → Value → S) (name : String)
    (collection : Any) (out : Value) (hout : assertT implementsT collection = some out)
    (options : List Opt) (st : State S) :
    Interface implementsT Collect (Any.val (Value.pointer (GoType.struct name) Ptr.null))
        collection options st
      = if st.fields.length = 0 then
          collectSelf implementsT Collect
            (Any.val (Value.pointer (GoType.struct name) Ptr.null)) out st
        else
          Result.mk (Outcome.panicked
            (Panic.reflectError "reflect: call of reflect.Value.Field on zero Value")) st := by
  unfold Interface
  simp only [hout, fieldLoop_null]
  by_cases h0 : st.fields.length = 0 <;> simp [h0]

/-- A value is a pointer to a struct or it is not. -/
theorem Value.struct_pointer_or (v : Value) :
    (∃ name self, v = Value.pointer (GoType.struct name) self)
      ∨ (v.Type.Kind ≠ Kind.Pointer
          ∨ ∃ elem p, v = Value.pointer elem p ∧ elem.Kind ≠ Kind.Struct) := by
  cases v with
  | struct n d => exact Or.inr (Or.inl (by simp [Value.Type, GoType.Kind]))
  | other n d => exact Or.inr (Or.inl (by simp [Value.Type, GoType.Kind]))
  | pointer elem p =>
    cases elem with
    | struct n => exact Or.inl ⟨n, p, rfl⟩
    | other n => exact Or.inr (Or.inr ⟨_, p, rfl, by simp [GoType.Kind]⟩)
    | pointer e => exact Or.inr (Or.inr ⟨_, p, rfl, by simp [GoType.Kind]⟩)

/-- A call on a non-nil pointer to a struct that returns: the walk ended
normally, and the call left what the walk left, plus the candidate itself in
the collector when it is a `T`. -/
theorem Interface_struct_returned {S : Type} (implementsT : GoType → Bool)
    (Collect : S → Value → S) (name : String) (self : Ptr) (hself : self ≠ Ptr.null)
    (collection : Any) (options : List Opt) (st : State S) (out : Value)
    (hout : assertT implementsT collection = some out)
    (hret : (Interface implementsT Collect (Any.val (Value.pointer (GoType.struct name) self))
      collection options st).outcome = Outcome.returned out) :
    ∃ st1, walk implementsT Collect (makeSettings options) self 0 st.fields st.heap
          st.collection = Step.next st1
      ∧ (Interface implementsT Collect (Any.val (Value.pointer (GoType.struct name) self))
          collection options st).state.fields = st1.fields
      ∧ (Interface implementsT Collect (Any.val (Value.pointer (GoType.struct name) self))
          collection options st).state.heap = st1.heap
      ∧ (Interface implementsT Collect (Any.val (Value.pointer (GoType.struct name) self))
          collection options st).state.collection
          = (selfItem implementsT (Value.pointer (GoType.struct name) self)).foldl Collect
              st1.collection := by
  rw [Interface_struct_eq implementsT Collect name self hself collection out hout options st]
    at hret ⊢
  cases hw : walk implementsT Collect (makeSettings options) self 0 st.fields st.heap
      st.collection with
  | next st1 =>
    have hcs := collectSelf_spec implementsT Collect (Value.pointer (GoType.struct name) self)
      out st1
    exact ⟨st1, rfl, hcs.2.1, hcs.2.2.1, hcs.2.2.2⟩
  | brk st1 => exact absurd hw (walk_ne_brk implementsT Collect _ self _ _ _ _ _)
  | panicked p st1 => rw [hw] at hret; simp at hret

/-- A call that returns: the collector is a `T`, the returned value is the
collector, and the collector has received the expected items in order. -/
theorem Interface_returned_spec {S : Type} (implementsT : GoType → Bool)
    (Collect : S → Value → S) (maybe collection : Any) (options : List Opt) (st : State S)
    (out : Value)
    (hret : (Interface implementsT Collect maybe collection options st).outcome
      = Outcome.returned out) :
    assertT implementsT collection = some out
      ∧ (Interface implementsT Collect maybe collection options st).state.collection
        = (expectedItems implementsT (makeSettings options).nilHandling maybe st.fields
            (Interface implementsT Collect maybe collection options st).state.fields).foldl
            Collect st.collection := by
  cases hc : assertT implementsT collection with
  | none =>
    rw [Interface_of_assertT_none implementsT Collect maybe collection options st hc] at hret
    simp at hret
  | some o =>
    cases maybe with
    | nil => simp [Interface, hc] at hret
    | val v =>
      rcases Value.struct_pointer_or v with ⟨name, self, hv⟩ | hv
      · subst hv
        by_cases hself : self = Ptr.null
        · subst hself
          rw [Interface_null_struct_eq implementsT Collect name collection o hc options st]
            at hret ⊢
          by_cases h0 : st.fields.length = 0
          · simp only [h0, if_true] at hret ⊢
            have hcs := collectSelf_spec implementsT Collect
              (Value.pointer (GoType.struct name) Ptr.null) o st
            rw [hcs.1] at hret
            simp only [Outcome.returned.injEq] at hret
            subst hret
            refine ⟨rfl, ?_⟩
            rw [hcs.2.2.2, hcs.2.1]
            have hnil : st.fields = [] := List.eq_nil_of_length_eq_zero h0
            simp [expectedItems, expectedCollection, fieldItems, fieldItemsFrom, hnil]
          · simp [h0] at hret
        · have hret2 := hret
          rw [Interface_struct_eq implementsT Collect name self hself collection o hc options
            st] at hret2
          have ho : o = out := by
            cases hw : walk implementsT Collect (makeSettings options) self 0 st.fields
                st.heap st.collection with
            | next st1 =>
              rw [hw] at hret2
              have hcs := collectSelf_spec implementsT Collect
                (Value.pointer (GoType.struct name) self) o st1
              simp only at hret2
              rw [hcs.1] at hret2
              simpa using hret2
            | brk st1 => exact absurd hw (walk_ne_brk implementsT Collect _ self _ _ _ _ _)
            | panicked p st1 => rw [hw] at hret2; simp at hret2
          subst ho
          refine ⟨rfl, ?_⟩
          obtain ⟨st1, hw, hf, -, hcoll⟩ := Interface_struct_returned implementsT Collect name
            self hself collection options st o hc hret
          rw [hcoll, hf, walk_next_collection implementsT Collect _ self st.fields 0 st.heap
            st.collection st1 hw]
          simp [expectedItems, expectedCollection, fieldItems, List.foldl_append]
      · rw [Interface_not_struct_pointer_eq implementsT Collect v hv collection o hc options st]
          at hret ⊢
        simp only [Outcome.returned.injEq] at hret
        subst hret
        refine ⟨rfl, ?_⟩
        have he : expectedItems implementsT (makeSettings options).nilHandling (Any.val v)
            st.fields st.fields = [] := by
          rcases hv with hk | ⟨e, q, hv, hk⟩
          · cases v with
            | struct n d => rfl
            | other n d => rfl
            | pointer e q => exact absurd rfl hk
          · subst hv
            cases e with
            | struct n => exact absurd rfl hk
            | other n => rfl
            | pointer e2 => rfl
        simp [he]

/-- Claim C1.  For every collector and every pointer-to-struct candidate on
which `Interface` returns (every non-nil one in particular), the collector has
received exactly the
collection of the specification, one `Collect` call per item and in this
order: the direct fields in declaration order, each included iff it was
reached (not cut off by a skip) and its pointerized type (the field itself if
it is a pointer, otherwise the address of the field) is assignable to `T`,
followed by the candidate itself iff it is a `T`.  A field position yields at
most one item and nothing else is collected. -/
theorem Interface_collects_fields_then_self {S : Type} (implementsT : GoType → Bool)
    (Collect : S → Value → S) (name : String) (self : Ptr)
    (collection : Any) (options : List Opt) (st : State S) (out : Value)
    (hret : (Interface implementsT Collect (Any.val (Value.pointer (GoType.struct name) self))
      collection options st).outcome = Outcome.returned out) :
    (Interface implementsT Collect (Any.val (Value.pointer (GoType.struct name) self))
        collection options st).state.collection
      = (expectedCollection implementsT (makeSettings options).nilHandling name self st.fields
          (Interface implementsT Collect (Any.val (Value.pointer (GoType.struct name) self))
            collection options st).state.fields).foldl Collect st.collection :=
  (Interface_returned_spec implementsT Collect _ collection options st out hret).2

/-- Claim C1 on the test case "compound doer": the call returns, and the
collector, started empty, holds the address of `Doer1`, then `Doer2`, then the
candidate. -/
theorem Interface_collects_fields_then_self_witness :
    (Interface isDoer multiDoerCollect (testCandidate "compoundDoer") (Any.val multiDoerPtr) []
        (State.mk (compoundDoerFields "-hallo" (Ptr.obj 2)) (testHeap "compoundDoer" "-two")
          [])).outcome = Outcome.returned multiDoerPtr
      ∧ (Interface isDoer multiDoerCollect (testCandidate "compoundDoer") (Any.val multiDoerPtr)
          [] (State.mk (compoundDoerFields "-hallo" (Ptr.obj 2)) (testHeap "compoundDoer" "-two")
            [])).state.collection
        = [Value.pointer (GoType.struct "doer1") (Ptr.field (Ptr.obj 1) 0),
           Value.pointer (GoType.struct "doer2") (Ptr.obj 2),
           Value.pointer (GoType.struct "compoundDoer") (Ptr.obj 1)] :=
  ⟨by decide,
   (Interface_collects_fields_then_self isDoer multiDoerCollect "compoundDoer" (Ptr.obj 1)
      (Any.val multiDoerPtr) []
      (State.mk (compoundDoerFields "-hallo" (Ptr.obj 2)) (testHeap "compoundDoer" "-two") [])
      multiDoerPtr (by decide)).trans (by decide)⟩

/-- Claim C6.  For every collector that implements `T` and every non-nil
candidate whose dynamic type is not a pointer type, or is a pointer to a
non-struct type, `Interface` returns the collector, under every policy, and
leaves the state as it was: no `Collect` call, no panic, no mutation.  Nothing
is asked about the candidate being a `T` itself. -/
theorem Interface_not_struct_pointer_returns_unchanged {S : Type}
    (implementsT : GoType → Bool) (Collect : S → Value → S) (v : Value)
    (hv : v.Type.Kind ≠ Kind.Pointer
      ∨ ∃ elem p, v = Value.pointer elem p ∧ elem.Kind ≠ Kind.Struct)
    (collection : Any) (out : Value) (hout : assertT implementsT collection = some out)
    (options : List Opt) (st : State S) :
    (Interface implementsT Collect (Any.val v) collection options st).outcome
        = Outcome.returned out
      ∧ collection = Any.val out
      ∧ (Interface implementsT Collect (Any.val v) collection options st).state.collection
        = st.collection
      ∧ (Interface implementsT Collect (Any.val v) collection options st).state.fields
        = st.fields
      ∧ (Interface implementsT Collect (Any.val v) collection options st).state.heap
        = st.heap := by
  rw [Interface_not_struct_pointer_eq implementsT Collect v hv collection out hout options st]
  exact ⟨rfl, (assertT_eq_some implementsT collection out hout).1, rfl, rfl, rfl⟩

/-- Claim C6 on a candidate that is a `T` itself: a pointer to the named slice
type `multiDoer`, whose pointer type has the method `Do`, under the panic
policy and with a collector that already holds an item. -/
theorem Interface_not_struct_pointer_returns_unchanged_witness :
    ((Value.pointer (GoType.other "multiDoer") (Ptr.obj 5)).Type.Kind ≠ Kind.Pointer
        ∨ ∃ elem p, Value.pointer (GoType.other "multiDoer") (Ptr.obj 5) = Value.pointer elem p
            ∧ elem.Kind ≠ Kind.Struct)
      ∧ isDoer (Value.pointer (GoType.other "multiDoer") (Ptr.obj 5)).Type = true
      ∧ assertT isDoer (Any.val multiDoerPtr) = some multiDoerPtr
      ∧ (Interface isDoer multiDoerCollect
            (Any.val (Value.pointer (GoType.other "multiDoer") (Ptr.obj 5)))
            (Any.val multiDoerPtr) [OptPanicNilFields]
            (State.mk [] [] [Value.pointer (GoType.struct "doer1") (Ptr.obj 7)])).outcome
          = Outcome.returned multiDoerPtr
      ∧ (Interface isDoer multiDoerCollect
            (Any.val (Value.pointer (GoType.other "multiDoer") (Ptr.obj 5)))
            (Any.val multiDoerPtr) [OptPanicNilFields]
            (State.mk [] [] [Value.pointer (GoType.struct "doer1") (Ptr.obj 7)])).state.collection
          = [Value.pointer (GoType.struct "doer1") (Ptr.obj 7)] :=
  ⟨Or.inr ⟨_, _, rfl, by decide⟩, by decide, by decide,
   (Interface_not_struct_pointer_returns_unchanged isDoer multiDoerCollect
      (Value.pointer (GoType.other "multiDoer") (Ptr.obj 5))
      (Or.inr ⟨_, _, rfl, by decide⟩) (Any.val multiDoerPtr) multiDoerPtr (by decide)
      [OptPanicNilFields]
      (State.mk [] [] [Value.pointer (GoType.struct "doer1") (Ptr.obj 7)])).1,
   (Interface_not_struct_pointer_returns_unchanged isDoer multiDoerCollect
      (Value.pointer (GoType.other "multiDoer") (Ptr.obj 5))
      (Or.inr ⟨_, _, rfl, by decide⟩) (Any.val multiDoerPtr) multiDoerPtr (by decide)
      [OptPanicNilFields]
      (State.mk [] [] [Value.pointer (GoType.struct "doer1") (Ptr.obj 7)])).2.2.1⟩

/-- The settings after a list of options that ends in `o`: `o` applied to the
settings after the options before it. -/
theorem makeSettings_append_singleton (opts : List Opt) (o : Opt) :
    makeSettings (opts ++ [o]) = o (makeSettings opts) := by
  simp [makeSettings, List.foldl_append]

/-- Claim C9.  `makeSettings` resolves the policy to create for the empty
option list, and for a list that ends in `OptSkipNilFields`,
`OptCreateNilFields` or `OptPanicNilFields` to the policy that last option
names, whatever the options before it are. -/
theorem makeSettings_last_option_wins :
    (makeSettings []).nilHandling = NilHandling.createNilFields
      ∧ (∀ opts : List Opt,
          (makeSettings (opts ++ [OptSkipNilFields])).nilHandling = NilHandling.skipNilFields)
      ∧ (∀ opts : List Opt,
          (makeSettings (opts ++ [OptCreateNilFields])).nilHandling
            = NilHandling.createNilFields)
      ∧ (∀ opts : List Opt,
          (makeSettings (opts ++ [OptPanicNilFields])).nilHandling
            = NilHandling.panicNilFields) := by
  refine ⟨rfl, ?_, ?_, ?_⟩ <;> intro opts <;> rw [makeSettings_append_singleton] <;> rfl

/-- What `Do` of a `multiDoer` writes after it collected `items`: what it
wrote before, then what each item writes, in the order of collection. -/
theorem multiDoerDo_foldl_Collect (doOf : Value → List String) (items md : List Value) :
    multiDoerDo doOf (items.foldl multiDoerCollect md)
      = multiDoerDo doOf md ++ items.flatMap doOf := by
  induction items generalizing md with
  | nil => simp
  | cons x xs ih =>
    simp only [List.foldl_cons]
    rw [ih]
    simp [multiDoerCollect, multiDoerDo]

/-- Claim C10.  Whenever `Interface` returns, the returned value is the
collector that was passed in, and the state of that collector holds every item
collected during the call, in order; with the collector `multiDoer` of the
test file, `Do` on the returned value therefore writes what it wrote before
followed by what each collected item writes, in collection order. -/
theorem Interface_returns_the_collector {S : Type} (implementsT : GoType → Bool)
    (Collect : S → Value → S) (maybe collection : Any) (options : List Opt) (st : State S)
    (out : Value)
    (hret : (Interface implementsT Collect maybe collection options st).outcome
      = Outcome.returned out) :
    collection = Any.val out
      ∧ (Interface implementsT Collect maybe collection options st).state.collection
        = (expectedItems implementsT (makeSettings options).nilHandling maybe st.fields
            (Interface implementsT Collect maybe collection options st).state.fields).foldl
            Collect st.collection
      ∧ ∀ (doOf : Value → List String) (md : List Value) (out2 : Value),
          (Interface implementsT multiDoerCollect maybe collection options
            (State.mk st.fields st.heap md)).outcome = Outcome.returned out2 →
          multiDoerDo doOf (Interface implementsT multiDoerCollect maybe collection options
              (State.mk st.fields st.heap md)).state.collection
            = multiDoerDo doOf md
              ++ (expectedItems implementsT (makeSettings options).nilHandling maybe st.fields
                  (Interface implementsT multiDoerCollect maybe collection options
                    (State.mk st.fields st.heap md)).state.fields).flatMap doOf := by
  obtain ⟨hc, hcoll⟩ := Interface_returned_spec implementsT Collect maybe collection options st
    out hret
  refine ⟨(assertT_eq_some implementsT collection out hc).1, hcoll, ?_⟩
  intro doOf md out2 hret2
  rw [(Interface_returned_spec implementsT multiDoerCollect maybe collection options
    (State.mk st.fields st.heap md) out2 hret2).2]
  exact multiDoerDo_foldl_Collect doOf _ md

/-- Claim C10 on the test case "compound doer one nil field default (create)":
the call returns the collector `multiDoerPtr`, and `Do` on it writes the lines
the test wants: `doer1-one`, `doer2`, `compoundDoer`. -/
theorem Interface_returns_the_collector_witness :
    (Interface isDoer multiDoerCollect (testCandidate "compoundDoer") (Any.val multiDoerPtr) []
        (State.mk (compoundDoerFields "-one" Ptr.null) (testHeap "compoundDoer" "")
          [])).outcome = Outcome.returned multiDoerPtr
      ∧ Any.val multiDoerPtr = Any.val multiDoerPtr
      ∧ multiDoerDo
          (testDo
            (Interface isDoer multiDoerCollect (testCandidate "compoundDoer")
              (Any.val multiDoerPtr) []
              (State.mk (compoundDoerFields "-one" Ptr.null) (testHeap "compoundDoer" "")
                [])).state.fields
            (Interface isDoer multiDoerCollect (testCandidate "compoundDoer")
              (Any.val multiDoerPtr) []
              (State.mk (compoundDoerFields "-one" Ptr.null) (testHeap "compoundDoer" "")
                [])).state.heap)
          (Interface isDoer multiDoerCollect (testCandidate "compoundDoer")
            (Any.val multiDoerPtr) []
            (State.mk (compoundDoerFields "-one" Ptr.null) (testHeap "compoundDoer" "")
              [])).state.collection
        = ["doer1-one", "doer2", "compoundDoer"] :=
  ⟨by decide,
   (Interface_returns_the_collector isDoer multiDoerCollect (testCandidate "compoundDoer")
      (Any.val multiDoerPtr) []
      (State.mk (compoundDoerFields "-one" Ptr.null) (testHeap "compoundDoer" "") [])
      multiDoerPtr (by decide)).1,
   ((Interface_returns_the_collector isDoer multiDoerCollect (testCandidate "compoundDoer")
      (Any.val multiDoerPtr) []
      (State.mk (compoundDoerFields "-one" Ptr.null) (testHeap "compoundDoer" "") [])
      multiDoerPtr (by decide)).2.2 _ [] multiDoerPtr (by decide)).trans (by decide)⟩

/-- The first nil pointer field, seen from a first field that is not one. -/
theorem firstNilIndex_cons_of_not_nil (f : Field) (rest : List Field)
    (hn : f.val.IsNil = false) : firstNilIndex (f :: rest) = firstNilIndex rest + 1 := by
  simp [firstNilIndex, List.findIdx_cons, hn]

/-- The first nil pointer field, when the first field is one. -/
theorem firstNilIndex_cons_of_nil (f : Field) (rest : List Field)
    (hn : f.val.IsNil = true) : firstNilIndex (f :: rest) = 0 := by
  simp [firstNilIndex, List.findIdx_cons, hn]

/-- The body on a field that is not a nil pointer and, if it qualifies, is
exported: the field is collected iff it qualifies, and the loop goes on. -/
theorem visit_of_not_nil_exported {S : Type} (implementsT : GoType → Bool)
    (Collect : S → Value → S) (s : Settings) (self : Ptr) (i : Nat) (f : Field) (h : Heap)
    (c : S) (hn : f.val.IsNil = false) (hx : qualifies implementsT f = true → f.exported = true) :
    visit implementsT Collect s self i f h c
      = Visit.next f h
          ((if qualifies implementsT f = true then [pointerized self i f.val] else []).foldl
            Collect c) := by
  rw [visit_of_not_nil implementsT Collect s self i f h c hn, visitCollect_pointerized]
  by_cases hq : qualifies implementsT f = true
  · simp [hq, hx hq]
  · simp [hq]

/-- Under the skip policy, when the fields before the first nil pointer field
that qualify are exported, the walk ends normally, has collected exactly those
fields, and has left fields and heap alone. -/
theorem walk_skip {S : Type} (implementsT : GoType → Bool) (Collect : S → Value → S)
    (s : Settings) (self : Ptr) (hs : s.nilHandling = NilHandling.skipNilFields)
    (rest : List Field) :
    ∀ (i : Nat) (h : Heap) (c : S),
      (∀ g ∈ rest.take (firstNilIndex rest), qualifies implementsT g = true → g.exported = true) →
      walk implementsT Collect s self i rest h c
        = Step.next (State.mk rest h
            ((fieldItemsFrom implementsT self i (rest.take (firstNilIndex rest))).foldl
              Collect c)) := by
  induction rest with
  | nil => intro i h c _; simp [walk, fieldItemsFrom_nil]
  | cons f rest ih =>
    intro i h c hx
    by_cases hn : f.val.IsNil = true
    · simp [walk, visit_nil_skip implementsT Collect s self i f h c hn hs,
        firstNilIndex_cons_of_nil f rest hn, fieldItemsFrom_nil]
    · have hn2 : f.val.IsNil = false := by simpa using hn
      rw [firstNilIndex_cons_of_not_nil f rest hn2] at hx ⊢
      simp only [List.take_succ_cons, List.mem_cons, forall_eq_or_imp] at hx
      simp only [walk, visit_of_not_nil_exported implementsT Collect s self i f h c hn2 hx.1,
        ih (i + 1) h _ hx.2, List.take_succ_cons, fieldItemsFrom_cons, List.foldl_append]

/-- Under the panic policy, when there is a nil pointer field and the fields
before the first one that qualify are exported, the walk panics with the
message that names that field; the collector has by then received the
qualifying fields before it. -/
theorem walk_panic_at_first_nil {S : Type} (implementsT : GoType → Bool)
    (Collect : S → Value → S) (s : Settings) (self : Ptr)
    (hs : s.nilHandling = NilHandling.panicNilFields) (rest : List Field) :
    ∀ (i : Nat) (h : Heap) (c : S) (f : Field),
      rest[firstNilIndex rest]? = some f →
      (∀ g ∈ rest.take (firstNilIndex rest), qualifies implementsT g = true → g.exported = true) →
      walk implementsT Collect s self i rest h c
        = Step.panicked (Panic.raised (nilFieldMessage f.Name)) (State.mk rest h
            ((fieldItemsFrom implementsT self i (rest.take (firstNilIndex rest))).foldl
              Collect c)) := by
  induction rest with
  | nil => intro i h c f hf _; simp at hf
  | cons g rest ih =>
    intro i h c f hf hx
    by_cases hn : g.val.IsNil = true
    · rw [firstNilIndex_cons_of_nil g rest hn] at hf ⊢
      simp only [List.getElem?_cons_zero, Option.some.injEq] at hf
      subst hf
      simp [walk, visit_nil_panic implementsT Collect s self i g h c hn hs, fieldItemsFrom_nil]
    · have hn2 : g.val.IsNil = false := by simpa using hn
      rw [firstNilIndex_cons_of_not_nil g rest hn2] at hf hx ⊢
      simp only [List.getElem?_cons_succ] at hf
      simp only [List.take_succ_cons, List.mem_cons, forall_eq_or_imp] at hx
      simp only [walk, visit_of_not_nil_exported implementsT Collect s self i g h c hn2 hx.1,
        ih (i + 1) h _ f hf hx.2, List.take_succ_cons, fieldItemsFrom_cons, List.foldl_append]

/-- Under every policy, when no pointer field is nil and the fields that
qualify are exported, the walk ends normally, has collected the qualifying
fields, and has left fields and heap alone. -/
theorem walk_of_no_nil {S : Type} (implementsT : GoType → Bool) (Collect : S → Value → S)
    (s : Settings) (self : Ptr) (rest : List Field) :
    ∀ (i : Nat) (h : Heap) (c : S),
      (∀ g ∈ rest, g.val.IsNil = false) →
      (∀ g ∈ rest, qualifies implementsT g = true → g.exported = true) →
      walk implementsT Collect s self i rest h c
        = Step.next (State.mk rest h
            ((fieldItemsFrom implementsT self i rest).foldl Collect c)) := by
  induction rest with
  | nil => intro i h c _ _; simp [walk, fieldItemsFrom_nil]
  | cons f rest ih =>
    intro i h c hnil hx
    simp only [List.mem_cons, forall_eq_or_imp] at hnil hx
    simp only [walk, visit_of_not_nil_exported implementsT Collect s self i f h c hnil.1 hx.1,
      ih (i + 1) h _ hnil.2 hx.2, fieldItemsFrom_cons, List.foldl_append]

/-- A walk goes on after a body that lets it. -/
theorem walk_cons_of_next {S : Type} (implementsT : GoType → Bool) (Collect : S → Value → S)
    (s : Settings) (self : Ptr) (i : Nat) (f : Field) (rest : List Field) (h : Heap) (c : S)
    (f1 : Field) (h1 : Heap) (c1 : S) (st2 : State S)
    (hv : visit implementsT Collect s self i f h c = Visit.next f1 h1 c1)
    (hw : walk implementsT Collect s self (i + 1) rest h1 c1 = Step.next st2) :
    walk implementsT Collect s self i (f :: rest) h c
      = Step.next (State.mk (f1 :: st2.fields) st2.heap st2.collection) := by
  simp only [walk, hv, hw]

/-- Under the create policy, when every field that is a nil pointer or that
qualifies is exported, the walk ends normally. -/
theorem walk_create_next {S : Type} (implementsT : GoType → Bool) (Collect : S → Value → S)
    (s : Settings) (self : Ptr) (hs : s.nilHandling = NilHandling.createNilFields)
    (rest : List Field) :
    ∀ (i : Nat) (h : Heap) (c : S),
      (∀ g ∈ rest, (g.val.IsNil = true ∨ qualifies implementsT g = true) → g.exported = true) →
      ∃ st1, walk implementsT Collect s self i rest h c = Step.next st1 := by
  induction rest with
  | nil => intro i h c _; exact ⟨_, rfl⟩
  | cons f rest ih =>
    intro i h c hx
    simp only [List.mem_cons, forall_eq_or_imp] at hx
    by_cases hn : f.val.IsNil = true
    · obtain ⟨elem, he⟩ := eq_null_of_IsNil f.val hn
      have hv := visit_nil_create implementsT Collect s self i f h c elem he hs
      simp only [hx.1 (Or.inl hn), if_true] at hv
      simp only [visitCollect] at hv
      by_cases hq : implementsT (Value.pointer elem (Ptr.obj h.length)).Type = true
      · simp only [hq, if_true] at hv
        obtain ⟨st2, hw2⟩ := ih (i + 1) (h ++ [Object.zero elem])
          (Collect c (Value.pointer elem (Ptr.obj h.length))) hx.2
        exact ⟨_, walk_cons_of_next implementsT Collect s self i f rest h c _ _ _ st2 hv hw2⟩
      · simp only [hq, if_false] at hv
        obtain ⟨st2, hw2⟩ := ih (i + 1) (h ++ [Object.zero elem]) c hx.2
        exact ⟨_, walk_cons_of_next implementsT Collect s self i f rest h c _ _ _ st2 hv hw2⟩
    · have hn2 : f.val.IsNil = false := by simpa using hn
      have hv := visit_of_not_nil_exported implementsT Collect s self i f h c hn2
        (fun hq => hx.1 (Or.inr hq))
      obtain ⟨st2, hw2⟩ := ih (i + 1) h
        ((if qualifies implementsT f = true then [pointerized self i f.val] else []).foldl
          Collect c) hx.2
      exact ⟨_, walk_cons_of_next implementsT Collect s self i f rest h c _ _ _ st2 hv hw2⟩

/-- On the restricted embedding, where `Collect` returns and keeps to its own
state and the options return.  Under the skip policy, for every collector that
implements `T` and every non-nil pointer-to-struct candidate whose first nil
pointer field is at declaration index `i` (the number of fields when no
pointer field is nil) and whose qualifying fields at indices below `i` are
exported: `Interface` returns the collector; the collector has received the
qualifying fields at indices below `i`, in declaration order, then the
candidate itself iff it is a `T`, and nothing from index `i` on; the candidate
struct and the heap are as on entry. -/
theorem Interface_skip_stops_at_first_nil {S : Type} (implementsT : GoType → Bool)
    (Collect : S → Value → S) (name : String) (self : Ptr) (hself : self ≠ Ptr.null)
    (collection : Any) (out : Value) (hout : assertT implementsT collection = some out)
    (options : List Opt)
    (hs : (makeSettings options).nilHandling = NilHandling.skipNilFields)
    (st : State S) (i : Nat) (hi : firstNilIndex st.fields = i)
    (hx : ∀ g ∈ st.fields.take i, qualifies implementsT g = true → g.exported = true) :
    (Interface implementsT Collect (Any.val (Value.pointer (GoType.struct name) self))
        collection options st).outcome = Outcome.returned out
      ∧ (Interface implementsT Collect (Any.val (Value.pointer (GoType.struct name) self))
          collection options st).state.collection
        = (fieldItems implementsT self (st.fields.take i)
            ++ selfItem implementsT (Value.pointer (GoType.struct name) self)).foldl Collect
            st.collection
      ∧ (Interface implementsT Collect (Any.val (Value.pointer (GoType.struct name) self))
          collection options st).state.fields = st.fields
      ∧ (Interface implementsT Collect (Any.val (Value.pointer (GoType.struct name) self))
          collection options st).state.heap = st.heap := by
  subst hi
  rw [Interface_struct_eq implementsT Collect name self hself collection out hout options st,
    walk_skip implementsT Collect _ self hs st.fields 0 st.heap st.collection hx]
  have hcs := collectSelf_spec implementsT Collect (Value.pointer (GoType.struct name) self) out
    (State.mk st.fields st.heap
      ((fieldItemsFrom implementsT self 0 (st.fields.take (firstNilIndex st.fields))).foldl
        Collect st.collection))
  refine ⟨hcs.1, ?_, hcs.2.1, hcs.2.2.1⟩
  rw [hcs.2.2.2]
  simp [fieldItems, List.foldl_append]

/-- The items of two runs of fields, one after the other. -/
theorem fieldItemsFrom_append (implementsT : GoType → Bool) (self : Ptr) (l1 l2 : List Field) :
    ∀ i : Nat, fieldItemsFrom implementsT self i (l1 ++ l2)
      = fieldItemsFrom implementsT self i l1
          ++ fieldItemsFrom implementsT self (i + l1.length) l2 := by
  induction l1 with
  | nil => intro i; simp [fieldItemsFrom_nil]
  | cons f l1 ih =>
    intro i
    simp only [List.cons_append, fieldItemsFrom_cons, ih (i + 1), List.length_cons,
      List.append_assoc]
    congr 3
    omega

/-- The items of a struct, cut at the field with index `j`. -/
theorem fieldItems_split (implementsT : GoType → Bool) (self : Ptr) (fields : List Field)
    (j : Nat) (g : Field) (hg : fields[j]? = some g) :
    fieldItems implementsT self fields
      = fieldItems implementsT self (fields.take j)
          ++ (if qualifies implementsT g = true then [pointerized self j g.val] else [])
          ++ fieldItemsFrom implementsT self (j + 1) (fields.drop (j + 1)) := by
  have hj : j < fields.length := by
    rcases Nat.lt_or_ge j fields.length with hlt | hge
    · exact hlt
    · rw [List.getElem?_eq_none hge] at hg; cases hg
  have hgj : fields[j] = g := by
    rw [List.getElem?_eq_getElem hj] at hg
    exact Option.some.inj hg
  have hsplit : fields = fields.take j ++ g :: fields.drop (j + 1) := by
    rw [← hgj, ← List.drop_eq_getElem_cons hj, List.take_append_drop]
  have hlen : (fields.take j).length = j := by
    rw [List.length_take]; omega
  conv_lhs => rw [hsplit]
  unfold fieldItems
  rw [fieldItemsFrom_append, fieldItemsFrom_cons, hlen]
  simp [List.append_assoc]

/-- Under the create policy, a walk that ends normally only extends the heap
and, at every field that was a nil pointer of type `*elem`, leaves a pointer
to a zero value of `elem` allocated during the walk; every other field is as
it was. -/
theorem walk_create_inv {S : Type} (implementsT : GoType → Bool) (Collect : S → Value → S)
    (s : Settings) (self : Ptr) (hs : s.nilHandling = NilHandling.createNilFields)
    (rest : List Field) :
    ∀ (i : Nat) (h : Heap) (c : S) (st1 : State S),
      walk implementsT Collect s self i rest h c = Step.next st1 →
      (∃ extra, st1.heap = h ++ extra)
        ∧ ∀ (j : Nat) (f : Field), rest[j]? = some f →
            (f.val.IsNil = false → st1.fields[j]? = some f)
            ∧ ∀ elem : GoType, f.val = Value.pointer elem Ptr.null →
                ∃ a, h.length ≤ a
                  ∧ st1.fields[j]?
                      = some (Field.mk f.Name f.exported (Value.pointer elem (Ptr.obj a)))
                  ∧ st1.heap[a]? = some (Object.zero elem) := by
  induction rest with
  | nil =>
    intro i h c st1 hw
    simp only [walk, Step.next.injEq] at hw
    subst hw
    exact ⟨⟨[], by simp⟩, fun j f hf => by simp at hf⟩
  | cons g rest ih =>
    intro i h c st1 hw
    rcases walk_cons_next_inv implementsT Collect s self i g rest h c st1 hw with
      ⟨hv, -⟩ | ⟨f1, h1, c1, st2, hv, hw2, hst⟩
    · have hb := (visit_brk_inv implementsT Collect s self i g h c hv).1
      rw [hs] at hb
      cases hb
    · obtain ⟨-, hname, hexp, -, hcase⟩ :=
        visit_next_inv implementsT Collect s self i g h c f1 h1 c1 hv
      obtain ⟨⟨extra2, hheap2⟩, hfields2⟩ := ih (i + 1) h1 c1 st2 hw2
      subst hst
      have hh1 : ∃ e1, h1 = h ++ e1 := by
        rcases hcase with ⟨-, -, hh⟩ | ⟨-, -, elem, -, -, hh⟩
        · exact ⟨[], by simp [hh]⟩
        · exact ⟨_, hh⟩
      obtain ⟨e1, he1⟩ := hh1
      refine ⟨⟨e1 ++ extra2, by simp [hheap2, he1]⟩, ?_⟩
      intro j f hf
      cases j with
      | zero =>
        simp only [List.getElem?_cons_zero, Option.some.injEq] at hf
        subst hf
        refine ⟨?_, ?_⟩
        · intro hn
          rcases hcase with ⟨-, hf1, -⟩ | ⟨-, -, elem, hval, -, -⟩
          · simp [hf1]
          · rw [hval] at hn; simp [Value.IsNil] at hn
        · intro elem hval
          rcases hcase with ⟨hn, -, -⟩ | ⟨-, -, elem2, hval2, hval1, hh⟩
          · rw [hval] at hn; simp [Value.IsNil] at hn
          · rw [hval] at hval2
            simp only [Value.pointer.injEq, and_true] at hval2
            subst hval2
            refine ⟨h.length, le_refl _, ?_, ?_⟩
            · rcases f1 with ⟨n1, x1, v1⟩
              simp only at hname hexp hval1
              simp [hname, hexp, hval1]
            · simp only [hheap2, hh, List.append_assoc, List.singleton_append]
              rw [List.getElem?_append_right (le_refl _)]
              simp
      | succ k =>
        simp only [List.getElem?_cons_succ] at hf ⊢
        obtain ⟨hkeep, hnew⟩ := hfields2 k f hf
        refine ⟨hkeep, ?_⟩
        intro elem hval
        obtain ⟨a, ha, hfa, hza⟩ := hnew elem hval
        refine ⟨a, ?_, hfa, hza⟩
        rw [he1] at ha
        simp only [List.length_append] at ha
        omega

/-- A walk that ends normally leaves as many fields as it was given. -/
theorem walk_next_length {S : Type} (implementsT : GoType → Bool) (Collect : S → Value → S)
    (s : Settings) (self : Ptr) (rest : List Field) :
    ∀ (i : Nat) (h : Heap) (c : S) (st1 : State S),
      walk implementsT Collect s self i rest h c = Step.next st1 →
      st1.fields.length = rest.length := by
  induction rest with
  | nil =>
    intro i h c st1 hw
    simp only [walk, Step.next.injEq] at hw
    subst hw
    rfl
  | cons g rest ih =>
    intro i h c st1 hw
    rcases walk_cons_next_inv implementsT Collect s self i g rest h c st1 hw with
      ⟨-, hst⟩ | ⟨f1, h1, c1, st2, -, hw2, hst⟩
    · subst hst; rfl
    · subst hst
      simp [ih (i + 1) h1 c1 st2 hw2]

/-- On the restricted embedding, where `Collect` returns and keeps to its own
state and the options return.  Under the create policy, for every collector that
implements `T` and every non-nil pointer-to-struct candidate in which every
field that is a nil pointer or that qualifies is exported: `Interface`
returns the collector; the heap on entry is a prefix of the heap on return;
and every nil pointer field, of type `*elem` say, whose type satisfies `T` is
replaced in the candidate by a pointer to a zero value of `elem` at an address
not allocated on entry, and that new pointer is passed to `Collect` at the
declaration-order position of the field: after the qualifying fields before
it, before those after it, and before the candidate itself. -/
theorem Interface_create_fills_nil_fields {S : Type} (implementsT : GoType → Bool)
    (Collect : S → Value → S) (name : String) (self : Ptr) (hself : self ≠ Ptr.null)
    (collection : Any) (out : Value) (hout : assertT implementsT collection = some out)
    (options : List Opt)
    (hs : (makeSettings options).nilHandling = NilHandling.createNilFields)
    (st : State S)
    (hx : ∀ g ∈ st.fields,
      (g.val.IsNil = true ∨ qualifies implementsT g = true) → g.exported = true) :
    (Interface implementsT Collect (Any.val (Value.pointer (GoType.struct name) self))
        collection options st).outcome = Outcome.returned out
      ∧ (∃ extra, (Interface implementsT Collect
          (Any.val (Value.pointer (GoType.struct name) self)) collection options st).state.heap
            = st.heap ++ extra)
      ∧ ∀ (j : Nat) (f : Field) (elem : GoType), st.fields[j]? = some f →
          f.val = Value.pointer elem Ptr.null → implementsT (GoType.pointer elem) = true →
          ∃ a, st.heap.length ≤ a
            ∧ (Interface implementsT Collect (Any.val (Value.pointer (GoType.struct name) self))
                collection options st).state.heap[a]? = some (Object.zero elem)
            ∧ (Interface implementsT Collect (Any.val (Value.pointer (GoType.struct name) self))
                collection options st).state.fields[j]?
                = some (Field.mk f.Name f.exported (Value.pointer elem (Ptr.obj a)))
            ∧ (Interface implementsT Collect (Any.val (Value.pointer (GoType.struct name) self))
                collection options st).state.collection
                = (fieldItems implementsT self
                      ((Interface implementsT Collect
                        (Any.val (Value.pointer (GoType.struct name) self)) collection options
                        st).state.fields.take j)
                    ++ [Value.pointer elem (Ptr.obj a)]
                    ++ fieldItemsFrom implementsT self (j + 1)
                      ((Interface implementsT Collect
                        (Any.val (Value.pointer (GoType.struct name) self)) collection options
                        st).state.fields.drop (j + 1))
                    ++ selfItem implementsT (Value.pointer (GoType.struct name) self)).foldl
                    Collect st.collection := by
  obtain ⟨st1, hw⟩ := walk_create_next implementsT Collect _ self hs st.fields 0 st.heap
    st.collection hx
  have hcs := collectSelf_spec implementsT Collect (Value.pointer (GoType.struct name) self) out
    st1
  obtain ⟨hheap, hfields⟩ := walk_create_inv implementsT Collect _ self hs st.fields 0 st.heap
    st.collection st1 hw
  have hlen := walk_next_length implementsT Collect _ self st.fields 0 st.heap st.collection
    st1 hw
  have hcoll := walk_next_collection implementsT Collect _ self st.fields 0 st.heap
    st.collection st1 hw
  have htake : st1.fields.take (reached (makeSettings options).nilHandling st.fields)
      = st1.fields := by
    rw [hs]
    simp only [reached]
    rw [← hlen]
    exact List.take_length st1.fields
  rw [htake] at hcoll
  rw [Interface_struct_eq implementsT Collect name self hself collection out hout options st,
    hw]
  simp only
  refine ⟨hcs.1, ?_, ?_⟩
  · rw [hcs.2.2.1]; exact hheap
  · intro j f elem hf hval hT
    obtain ⟨a, ha, hfa, hza⟩ := (hfields j f hf).2 elem hval
    refine ⟨a, ha, ?_, ?_, ?_⟩
    · rw [hcs.2.2.1]; exact hza
    · rw [hcs.2.1]; exact hfa
    · rw [hcs.2.2.2, hcs.2.1, hcoll]
      have hsplit := fieldItems_split implementsT self st1.fields j _ hfa
      have hq : qualifies implementsT
          (Field.mk f.Name f.exported (Value.pointer elem (Ptr.obj a))) = true := hT
      simp only [hq, if_true, pointerized] at hsplit
      unfold fieldItems at hsplit
      rw [hsplit]
      simp [fieldItems, List.foldl_append]

/-- What a walk that panics did at its first field. -/
theorem walk_cons_panicked_inv {S : Type} (implementsT : GoType → Bool)
    (Collect : S → Value → S) (s : Settings) (self : Ptr) (i : Nat) (f : Field)
    (rest : List Field) (h : Heap) (c : S) (p : Panic) (st1 : State S)
    (hw : walk implementsT Collect s self i (f :: rest) h c = Step.panicked p st1) :
    (∃ h1, visit implementsT Collect s self i f h c = Visit.panicked p h1
        ∧ st1 = State.mk (f :: rest) h1 c)
      ∨ ∃ f1 h1 c1 st2, visit implementsT Collect s self i f h c = Visit.next f1 h1 c1
          ∧ walk implementsT Collect s self (i + 1) rest h1 c1 = Step.panicked p st2
          ∧ st1 = State.mk (f1 :: st2.fields) st2.heap st2.collection := by
  simp only [walk] at hw
  cases hv : visit implementsT Collect s self i f h c with
  | brk => rw [hv] at hw; cases hw
  | panicked q h1 =>
    rw [hv] at hw
    simp only [Step.panicked.injEq] at hw
    obtain ⟨hq, hst⟩ := hw
    subst hq
    exact Or.inl ⟨h1, rfl, hst.symm⟩
  | next f1 h1 c1 =>
    rw [hv] at hw
    simp only at hw
    cases hw2 : walk implementsT Collect s self (i + 1) rest h1 c1 with
    | next st2 => rw [hw2] at hw; cases hw
    | brk st2 => rw [hw2] at hw; cases hw
    | panicked q st2 =>
      rw [hw2] at hw
      simp only [Step.panicked.injEq] at hw
      obtain ⟨hq, hst⟩ := hw
      subst hq
      exact Or.inr ⟨f1, h1, c1, st2, rfl, hw2, hst.symm⟩

/-- A walk over fields none of which is a nil pointer can only panic inside
`reflect.Value.Interface`, on an unexported field. -/
theorem walk_panicked_of_no_nil {S : Type} (implementsT : GoType → Bool)
    (Collect : S → Value → S) (s : Settings) (self : Ptr) (rest : List Field) :
    ∀ (i : Nat) (h : Heap) (c : S) (p : Panic) (st1 : State S),
      (∀ g ∈ rest, g.val.IsNil = false) →
      walk implementsT Collect s self i rest h c = Step.panicked p st1 →
      p = Panic.reflectError
        "reflect.Value.Interface: cannot return value obtained from unexported field or method" := by
  induction rest with
  | nil => intro i h c p st1 _ hw; simp [walk] at hw
  | cons f rest ih =>
    intro i h c p st1 hnil hw
    simp only [List.mem_cons, forall_eq_or_imp] at hnil
    rcases walk_cons_panicked_inv implementsT Collect s self i f rest h c p st1 hw with
      ⟨h1, hv, -⟩ | ⟨f1, h1, c1, st2, -, hw2, -⟩
    · rw [visit_of_not_nil implementsT Collect s self i f h c hnil.1,
        visitCollect_pointerized] at hv
      split_ifs at hv
      simp only [Visit.panicked.injEq] at hv
      exact hv.1.symm
    · exact ih (i + 1) h1 c1 p st2 hnil.2 hw2

/-- Under the panic policy a walk that ends normally met no nil pointer
field. -/
theorem walk_panic_next_no_nil {S : Type} (implementsT : GoType → Bool)
    (Collect : S → Value → S) (s : Settings) (self : Ptr)
    (hs : s.nilHandling = NilHandling.panicNilFields) (rest : List Field) :
    ∀ (i : Nat) (h : Heap) (c : S) (st1 : State S),
      walk implementsT Collect s self i rest h c = Step.next st1 →
      ∀ g ∈ rest, g.val.IsNil = false := by
  induction rest with
  | nil => intro i h c st1 _ g hg; simp at hg
  | cons f rest ih =>
    intro i h c st1 hw
    simp only [List.mem_cons, forall_eq_or_imp]
    rcases walk_cons_next_inv implementsT Collect s self i f rest h c st1 hw with
      ⟨hv, -⟩ | ⟨f1, h1, c1, st2, hv, hw2, -⟩
    · have hb := (visit_brk_inv implementsT Collect s self i f h c hv).1
      rw [hs] at hb
      cases hb
    · obtain ⟨-, -, -, -, hcase⟩ := visit_next_inv implementsT Collect s self i f h c f1 h1 c1 hv
      refine ⟨?_, ih (i + 1) h1 c1 st2 hw2⟩
      rcases hcase with ⟨hn, -, -⟩ | ⟨hc, -, -⟩
      · exact hn
      · rw [hs] at hc; cases hc

/-- A struct with a nil pointer field has a field at its first nil index. -/
theorem exists_getElem_firstNilIndex (fields : List Field)
    (hnil : ∃ g ∈ fields, g.val.IsNil = true) :
    ∃ f, fields[firstNilIndex fields]? = some f ∧ f.val.IsNil = true := by
  obtain ⟨g, hg, hgn⟩ := hnil
  have hlt : firstNilIndex fields < fields.length :=
    List.findIdx_lt_length_of_exists ⟨g, hg, hgn⟩
  refine ⟨fields[firstNilIndex fields], List.getElem?_eq_getElem hlt, ?_⟩
  have := List.findIdx_getElem (w := hlt)
  simpa [firstNilIndex] using this

/-- On the restricted embedding, where `Collect` returns and keeps to its own
state and the options return.  Under the panic policy, for every collector that
implements `T` and every non-nil pointer-to-struct candidate:
* when some pointer field is nil, `Interface` panics instead of returning;
* when moreover the qualifying fields before the first nil pointer field are
  exported, the diagnostic is `field "<name>" is nil` with the declared name of
  the first nil pointer field in declaration order;
* when no pointer field is nil, the call does not panic with a diagnostic of
  this form, whatever the name. -/
theorem Interface_panic_names_first_nil_field {S : Type} (implementsT : GoType → Bool)
    (Collect : S → Value → S) (name : String) (self : Ptr) (hself : self ≠ Ptr.null)
    (collection : Any) (out : Value) (hout : assertT implementsT collection = some out)
    (options : List Opt)
    (hs : (makeSettings options).nilHandling = NilHandling.panicNilFields)
    (st : State S) :
    ((∃ g ∈ st.fields, g.val.IsNil = true) →
        ∃ p, (Interface implementsT Collect (Any.val (Value.pointer (GoType.struct name) self))
          collection options st).outcome = Outcome.panicked p)
      ∧ (∀ f : Field, st.fields[firstNilIndex st.fields]? = some f →
          (∀ g ∈ st.fields.take (firstNilIndex st.fields),
            qualifies implementsT g = true → g.exported = true) →
          (Interface implementsT Collect (Any.val (Value.pointer (GoType.struct name) self))
            collection options st).outcome
            = Outcome.panicked (Panic.raised (nilFieldMessage f.Name)))
      ∧ ((∀ g ∈ st.fields, g.val.IsNil = false) →
          ∀ n : String,
            (Interface implementsT Collect (Any.val (Value.pointer (GoType.struct name) self))
              collection options st).outcome
              ≠ Outcome.panicked (Panic.raised (nilFieldMessage n))) := by
  rw [Interface_struct_eq implementsT Collect name self hself collection out hout options st]
  refine ⟨?_, ?_, ?_⟩
  · rintro ⟨g, hg, hgn⟩
    cases hw : walk implementsT Collect (makeSettings options) self 0 st.fields st.heap
        st.collection with
    | next st1 =>
      have hno := walk_panic_next_no_nil implementsT Collect _ self hs st.fields 0 st.heap
        st.collection st1 hw g hg
      rw [hgn] at hno
      cases hno
    | brk st1 => exact absurd hw (walk_ne_brk implementsT Collect _ self _ _ _ _ _)
    | panicked p st1 => exact ⟨p, rfl⟩
  · intro f hf hx
    rw [walk_panic_at_first_nil implementsT Collect _ self hs st.fields 0 st.heap st.collection
      f hf hx]
  · intro hnil n
    cases hw : walk implementsT Collect (makeSettings options) self 0 st.fields st.heap
        st.collection with
    | next st1 =>
      simp only
      rw [(collectSelf_spec implementsT Collect _ out st1).1]
      simp
    | brk st1 => exact absurd hw (walk_ne_brk implementsT Collect _ self _ _ _ _ _)
    | panicked p st1 =>
      have hp := walk_panicked_of_no_nil implementsT Collect _ self st.fields 0 st.heap
        st.collection p st1 hnil hw
      subst hp
      simp

/-- Claim C7, the code at the failing inputs.  With a collector that is a
`Doer`, the nil candidate makes the call panic with a nil pointer dereference
(`reflect.TypeOf(nil)` is nil and `Kind` is called on it), and a nil
`*doerContainer` makes it panic in `reflect.Value.Field` on the first pass
through the loop; neither call returns. -/
theorem Interface_nil_candidate_panics :
    (Interface isDoer multiDoerCollect Any.nil (Any.val multiDoerPtr) []
        (State.mk [] (testHeap "doerContainer" "") [])).outcome
        = Outcome.panicked (Panic.runtimeError
            "invalid memory address or nil pointer dereference")
      ∧ (Interface isDoer multiDoerCollect
          (Any.val (Value.pointer (GoType.struct "doerContainer") Ptr.null))
          (Any.val multiDoerPtr) []
          (State.mk (doerContainerFields "" Ptr.null) (testHeap "doerContainer" "")
            [])).outcome
        = Outcome.panicked (Panic.reflectError
            "reflect: call of reflect.Value.Field on zero Value") := by
  decide

/-- What is known when the body panics: the field is not a nil pointer,
qualifies and is unexported (`Interface` panics); or it is a nil pointer under
the panic policy; or it is a nil pointer of an unexported field under the
create policy (`Set` panics, after the allocation). -/
theorem visit_panicked_inv {S : Type} (implementsT : GoType → Bool) (Collect : S → Value → S)
    (s : Settings) (self : Ptr) (i : Nat) (f : Field) (h : Heap) (c : S) (p : Panic)
    (h1 : Heap) (hv : visit implementsT Collect s self i f h c = Visit.panicked p h1) :
    (f.val.IsNil = false ∧ h1 = h)
      ∨ (f.val.IsNil = true ∧ s.nilHandling = NilHandling.panicNilFields ∧ h1 = h)
      ∨ (f.val.IsNil = true ∧ s.nilHandling = NilHandling.createNilFields
          ∧ ∃ elem, h1 = h ++ [Object.zero elem]) := by
  by_cases hn : f.val.IsNil = true
  · obtain ⟨elem, he⟩ := eq_null_of_IsNil f.val hn
    rcases s with ⟨nh⟩
    cases nh with
    | skipNilFields => rw [visit_nil_skip implementsT Collect _ self i f h c hn rfl] at hv; cases hv
    | panicNilFields =>
      rw [visit_nil_panic implementsT Collect _ self i f h c hn rfl] at hv
      simp only [Visit.panicked.injEq] at hv
      exact Or.inr (Or.inl ⟨hn, rfl, hv.2.symm⟩)
    | createNilFields =>
      rw [visit_nil_create implementsT Collect _ self i f h c elem he rfl] at hv
      unfold visitCollect at hv
      refine Or.inr (Or.inr ⟨hn, rfl, elem, ?_⟩)
      split_ifs at hv
      simp only [Visit.panicked.injEq] at hv
      exact hv.2.symm
  · have hn2 : f.val.IsNil = false := by simpa using hn
    rw [visit_of_not_nil implementsT Collect s self i f h c hn2,
      visitCollect_pointerized] at hv
    split_ifs at hv
    simp only [Visit.panicked.injEq] at hv
    exact Or.inl ⟨hn2, hv.2.symm⟩

/-- The state a walk leaves, one field at a time. -/
theorem walk_cons_state {S : Type} (implementsT : GoType → Bool) (Collect : S → Value → S)
    (s : Settings) (self : Ptr) (i : Nat) (f : Field) (rest : List Field) (h : Heap) (c : S) :
    (walk implementsT Collect s self i (f :: rest) h c).state
      = match visit implementsT Collect s self i f h c with
        | Visit.next f1 h1 c1 =>
          State.mk (f1 :: (walk implementsT Collect s self (i + 1) rest h1 c1).state.fields)
            (walk implementsT Collect s self (i + 1) rest h1 c1).state.heap
            (walk implementsT Collect s self (i + 1) rest h1 c1).state.collection
        | Visit.brk => State.mk (f :: rest) h c
        | Visit.panicked _ h1 => State.mk (f :: rest) h1 c := by
  simp only [walk]
  cases visit implementsT Collect s self i f h c with
  | brk => rfl
  | panicked p h1 => rfl
  | next f1 h1 c1 =>
    simp only
    cases walk implementsT Collect s self (i + 1) rest h1 c1 <;> rfl

/-- When the policy is not create, or no pointer field is nil, a walk leaves
the fields and the heap as they were, however it ends. -/
theorem walk_frame {S : Type} (implementsT : GoType → Bool) (Collect : S → Value → S)
    (s : Settings) (self : Ptr) (rest : List Field) :
    ∀ (i : Nat) (h : Heap) (c : S),
      (s.nilHandling ≠ NilHandling.createNilFields ∨ ∀ g ∈ rest, g.val.IsNil = false) →
      (walk implementsT Collect s self i rest h c).state.fields = rest
        ∧ (walk implementsT Collect s self i rest h c).state.heap = h := by
  induction rest with
  | nil => intro i h c _; exact ⟨rfl, rfl⟩
  | cons f rest ih =>
    intro i h c hcond
    have hcond2 : s.nilHandling ≠ NilHandling.createNilFields
        ∨ ∀ g ∈ rest, g.val.IsNil = false := by
      rcases hcond with hs | hn
      · exact Or.inl hs
      · exact Or.inr (fun g hg => hn g (List.mem_cons_of_mem _ hg))
    have hnot : ¬ (f.val.IsNil = true ∧ s.nilHandling = NilHandling.createNilFields) := by
      rintro ⟨hn, hs⟩
      rcases hcond with hs2 | hn2
      · exact hs2 hs
      · rw [hn2 f (List.mem_cons_self _ _)] at hn; cases hn
    rw [walk_cons_state]
    cases hv : visit implementsT Collect s self i f h c with
    | brk => exact ⟨rfl, rfl⟩
    | panicked p h1 =>
      rcases visit_panicked_inv implementsT Collect s self i f h c p h1 hv with
        ⟨-, hh⟩ | ⟨-, -, hh⟩ | ⟨hn, hs, -⟩
      · subst hh; exact ⟨rfl, rfl⟩
      · subst hh; exact ⟨rfl, rfl⟩
      · exact absurd ⟨hn, hs⟩ hnot
    | next f1 h1 c1 =>
      obtain ⟨-, -, -, -, hcase⟩ := visit_next_inv implementsT Collect s self i f h c f1 h1 c1 hv
      rcases hcase with ⟨-, hf1, hh1⟩ | ⟨hs, -, elem, hval, -, -⟩
      · subst hf1 hh1
        obtain ⟨hfs, hhp⟩ := ih (i + 1) h1 c1 hcond2
        simp only
        exact ⟨by rw [hfs], hhp⟩
      · exact absurd ⟨by rw [hval]; rfl, hs⟩ hnot

/-- Under every policy a walk keeps the number of fields and leaves every
field that is not a nil pointer as it was, however it ends. -/
theorem walk_frame_not_nil {S : Type} (implementsT : GoType → Bool) (Collect : S → Value → S)
    (s : Settings) (self : Ptr) (rest : List Field) :
    ∀ (i : Nat) (h : Heap) (c : S),
      (walk implementsT Collect s self i rest h c).state.fields.length = rest.length
        ∧ ∀ (j : Nat) (f : Field), rest[j]? = some f → f.val.IsNil = false →
            (walk implementsT Collect s self i rest h c).state.fields[j]? = some f := by
  induction rest with
  | nil => intro i h c; exact ⟨rfl, fun j f hf => by simp at hf⟩
  | cons g rest ih =>
    intro i h c
    rw [walk_cons_state]
    cases hv : visit implementsT Collect s self i g h c with
    | brk => exact ⟨rfl, fun j f hf _ => hf⟩
    | panicked p h1 => exact ⟨rfl, fun j f hf _ => hf⟩
    | next f1 h1 c1 =>
      obtain ⟨-, -, -, -, hcase⟩ := visit_next_inv implementsT Collect s self i g h c f1 h1 c1 hv
      obtain ⟨hlen, hkeep⟩ := ih (i + 1) h1 c1
      simp only [List.length_cons, hlen, true_and]
      intro j f hf hn
      cases j with
      | zero =>
        simp only [List.getElem?_cons_zero, Option.some.injEq] at hf ⊢
        subst hf
        rcases hcase with ⟨-, hf1, -⟩ | ⟨-, -, elem, hval, -, -⟩
        · exact hf1
        · rw [hval] at hn; simp [Value.IsNil] at hn
      | succ k =>
        simp only [List.getElem?_cons_succ] at hf ⊢
        exact hkeep k f hf hn

/-- A call on a non-nil pointer to a struct with a collector that is a `T`
leaves the fields and the heap that the walk leaves, however it ends. -/
theorem Interface_struct_state {S : Type} (implementsT : GoType → Bool)
    (Collect : S → Value → S) (name : String) (self : Ptr) (hself : self ≠ Ptr.null)
    (collection : Any) (out : Value) (hout : assertT implementsT collection = some out)
    (options : List Opt) (st : State S) :
    (Interface implementsT Collect (Any.val (Value.pointer (GoType.struct name) self))
        collection options st).state.fields
        = (walk implementsT Collect (makeSettings options) self 0 st.fields st.heap
            st.collection).state.fields
      ∧ (Interface implementsT Collect (Any.val (Value.pointer (GoType.struct name) self))
          collection options st).state.heap
        = (walk implementsT Collect (makeSettings options) self 0 st.fields st.heap
            st.collection).state.heap := by
  rw [Interface_struct_eq implementsT Collect name self hself collection out hout options st]
  cases hw : walk implementsT Collect (makeSettings options) self 0 st.fields st.heap
      st.collection with
  | next st1 =>
    have hcs := collectSelf_spec implementsT Collect (Value.pointer (GoType.struct name) self)
      out st1
    exact ⟨hcs.2.1, hcs.2.2.1⟩
  | brk st1 => exact absurd hw (walk_ne_brk implementsT Collect _ self _ _ _ _ _)
  | panicked p st1 => exact ⟨rfl, rfl⟩

/-- A call that does not get to walk a struct leaves the fields and the heap
as they were: the collector is not a `T`, or the candidate is nil, a nil
pointer, or not a pointer to a struct. -/
theorem Interface_state_of_no_walk {S : Type} (implementsT : GoType → Bool)
    (Collect : S → Value → S) (maybe collection : Any) (options : List Opt) (st : State S)
    (hno : assertT implementsT collection = none
      ∨ ∀ name self, maybe = Any.val (Value.pointer (GoType.struct name) self) →
          self = Ptr.null) :
    (Interface implementsT Collect maybe collection options st).state.fields = st.fields
      ∧ (Interface implementsT Collect maybe collection options st).state.heap = st.heap := by
  cases hc : assertT implementsT collection with
  | none =>
    rw [Interface_of_assertT_none implementsT Collect maybe collection options st hc]
    exact ⟨rfl, rfl⟩
  | some o =>
    have hno2 : ∀ name self, maybe = Any.val (Value.pointer (GoType.struct name) self) →
        self = Ptr.null := by
      rcases hno with hn | hn
      · rw [hc] at hn; cases hn
      · exact hn
    cases maybe with
    | nil => simp [Interface, hc]
    | val v =>
      rcases Value.struct_pointer_or v with ⟨name, self, hv⟩ | hv
      · subst hv
        have hnull := hno2 name self rfl
        subst hnull
        rw [Interface_null_struct_eq implementsT Collect name collection o hc options st]
        by_cases h0 : st.fields.length = 0
        · simp only [h0, if_true]
          have hcs := collectSelf_spec implementsT Collect
            (Value.pointer (GoType.struct name) Ptr.null) o st
          exact ⟨hcs.2.1, hcs.2.2.1⟩
        · simp only [h0, if_false]
          exact ⟨trivial, trivial⟩
      · rw [Interface_not_struct_pointer_eq implementsT Collect v hv collection o hc options st]
        exact ⟨rfl, rfl⟩

/-- Every call walks a struct or leaves the fields and the heap alone. -/
theorem Interface_walks_or_not (implementsT : GoType → Bool)
    (maybe collection : Any) :
    (∃ name self out, maybe = Any.val (Value.pointer (GoType.struct name) self)
        ∧ self ≠ Ptr.null ∧ assertT implementsT collection = some out)
      ∨ (assertT implementsT collection = none
          ∨ ∀ name self, maybe = Any.val (Value.pointer (GoType.struct name) self) →
              self = Ptr.null) := by
  cases hc : assertT implementsT collection with
  | none => exact Or.inr (Or.inl rfl)
  | some o =>
    by_cases hex : ∃ name self, maybe = Any.val (Value.pointer (GoType.struct name) self)
        ∧ self ≠ Ptr.null
    · obtain ⟨name, self, hm, hs⟩ := hex
      exact Or.inl ⟨name, self, o, hm, hs, rfl⟩
    · refine Or.inr (Or.inr ?_)
      intro name self hm
      by_contra hne
      exact hex ⟨name, self, hm, hne⟩

/-- When the policy is not create, or no pointer field is nil, a call leaves
the fields of the candidate and the heap as they were, however it ends. -/
theorem Interface_frame {S : Type} (implementsT : GoType → Bool) (Collect : S → Value → S)
    (maybe collection : Any) (options : List Opt) (st : State S)
    (hcond : (makeSettings options).nilHandling ≠ NilHandling.createNilFields
      ∨ ∀ g ∈ st.fields, g.val.IsNil = false) :
    (Interface implementsT Collect maybe collection options st).state.fields = st.fields
      ∧ (Interface implementsT Collect maybe collection options st).state.heap = st.heap := by
  rcases Interface_walks_or_not implementsT maybe collection with
    ⟨name, self, out, hm, hself, hout⟩ | hno
  · subst hm
    obtain ⟨hf, hh⟩ := Interface_struct_state implementsT Collect name self hself collection out
      hout options st
    obtain ⟨hwf, hwh⟩ := walk_frame implementsT Collect (makeSettings options) self st.fields 0
      st.heap st.collection hcond
    exact ⟨hf.trans hwf, hh.trans hwh⟩
  · exact Interface_state_of_no_walk implementsT Collect maybe collection options st hno

/-- Under every policy a call keeps the number of fields of the candidate and
leaves every field that is not a nil pointer as it was, however it ends. -/
theorem Interface_frame_not_nil {S : Type} (implementsT : GoType → Bool)
    (Collect : S → Value → S) (maybe collection : Any) (options : List Opt) (st : State S) :
    (Interface implementsT Collect maybe collection options st).state.fields.length
        = st.fields.length
      ∧ ∀ (j : Nat) (f : Field), st.fields[j]? = some f → f.val.IsNil = false →
          (Interface implementsT Collect maybe collection options st).state.fields[j]?
            = some f := by
  rcases Interface_walks_or_not implementsT maybe collection with
    ⟨name, self, out, hm, hself, hout⟩ | hno
  · subst hm
    obtain ⟨hf, -⟩ := Interface_struct_state implementsT Collect name self hself collection out
      hout options st
    rw [hf]
    exact walk_frame_not_nil implementsT Collect (makeSettings options) self st.fields 0
      st.heap st.collection
  · obtain ⟨hf, -⟩ := Interface_state_of_no_walk implementsT Collect maybe collection options
      st hno
    rw [hf]
    exact ⟨rfl, fun j f hf _ => hf⟩

/-- Over fields none of which is a nil pointer the walk is the same under
every policy. -/
theorem walk_policy_independent {S : Type} (implementsT : GoType → Bool)
    (Collect : S → Value → S) (s1 s2 : Settings) (self : Ptr) (rest : List Field) :
    ∀ (i : Nat) (h : Heap) (c : S),
      (∀ g ∈ rest, g.val.IsNil = false) →
      walk implementsT Collect s1 self i rest h c
        = walk implementsT Collect s2 self i rest h c := by
  induction rest with
  | nil => intro i h c _; rfl
  | cons f rest ih =>
    intro i h c hnil
    simp only [List.mem_cons, forall_eq_or_imp] at hnil
    simp only [walk, visit_of_not_nil implementsT Collect s1 self i f h c hnil.1,
      visit_of_not_nil implementsT Collect s2 self i f h c hnil.1]
    cases visitCollect implementsT Collect f (pointerized self i f.val) h c with
    | brk => rfl
    | panicked p h1 => rfl
    | next f1 h1 c1 =>
      simp only
      rw [ih (i + 1) h1 c1 hnil.2]

/-- On a candidate without a nil pointer field a call is the same under every
policy: same outcome, same state. -/
theorem Interface_policy_independent {S : Type} (implementsT : GoType → Bool)
    (Collect : S → Value → S) (maybe collection : Any) (options1 options2 : List Opt)
    (st : State S) (hnil : ∀ g ∈ st.fields, g.val.IsNil = false) :
    Interface implementsT Collect maybe collection options1 st
      = Interface implementsT Collect maybe collection options2 st := by
  rcases Interface_walks_or_not implementsT maybe collection with
    ⟨name, self, out, hm, hself, hout⟩ | hno
  · subst hm
    rw [Interface_struct_eq implementsT Collect name self hself collection out hout options1 st,
      Interface_struct_eq implementsT Collect name self hself collection out hout options2 st,
      walk_policy_independent implementsT Collect (makeSettings options1)
        (makeSettings options2) self st.fields 0 st.heap st.collection hnil]
  · cases hc : assertT implementsT collection with
    | none =>
      rw [Interface_of_assertT_none implementsT Collect maybe collection options1 st hc,
        Interface_of_assertT_none implementsT Collect maybe collection options2 st hc]
    | some o =>
      have hno2 : ∀ name self, maybe = Any.val (Value.pointer (GoType.struct name) self) →
          self = Ptr.null := by
        rcases hno with hn | hn
        · rw [hc] at hn; cases hn
        · exact hn
      cases maybe with
      | nil => simp [Interface, hc]
      | val v =>
        rcases Value.struct_pointer_or v with ⟨name, self, hv⟩ | hv
        · subst hv
          have hnull := hno2 name self rfl
          subst hnull
          rw [Interface_null_struct_eq implementsT Collect name collection o hc options1 st,
            Interface_null_struct_eq implementsT Collect name collection o hc options2 st]
        · rw [Interface_not_struct_pointer_eq implementsT Collect v hv collection o hc
              options1 st,
            Interface_not_struct_pointer_eq implementsT Collect v hv collection o hc
              options2 st]

/-- On the restricted embedding, where `Collect` returns and keeps to its own
state and the options return.  Policy independence: for every non-nil pointer-to-struct
candidate that has no nil pointer field and every collector that implements
`T`, the call is the same under any two option lists, so under the skip, the
create and the panic policy: same outcome, same collector state, same
candidate, which is unchanged.  When moreover the fields that qualify are
exported, the call returns the collector under every policy, with the
qualifying fields and then the candidate itself collected. -/
theorem Interface_policy_irrelevant_without_nil_fields {S : Type}
    (implementsT : GoType → Bool) (Collect : S → Value → S) (name : String) (self : Ptr)
    (hself : self ≠ Ptr.null) (collection : Any) (out : Value)
    (hout : assertT implementsT collection = some out) (st : State S)
    (hnil : ∀ g ∈ st.fields, g.val.IsNil = false) :
    (∀ options1 options2 : List Opt,
        Interface implementsT Collect (Any.val (Value.pointer (GoType.struct name) self))
            collection options1 st
          = Interface implementsT Collect (Any.val (Value.pointer (GoType.struct name) self))
              collection options2 st)
      ∧ (∀ options : List Opt,
          (Interface implementsT Collect (Any.val (Value.pointer (GoType.struct name) self))
              collection options st).state.fields = st.fields
            ∧ (Interface implementsT Collect (Any.val (Value.pointer (GoType.struct name) self))
              collection options st).state.heap = st.heap)
      ∧ ((∀ g ∈ st.fields, qualifies implementsT g = true → g.exported = true) →
          ∀ options : List Opt,
            (Interface implementsT Collect (Any.val (Value.pointer (GoType.struct name) self))
                collection options st).outcome = Outcome.returned out
              ∧ (Interface implementsT Collect
                  (Any.val (Value.pointer (GoType.struct name) self)) collection options
                  st).state.collection
                = (fieldItems implementsT self st.fields
                    ++ selfItem implementsT (Value.pointer (GoType.struct name) self)).foldl
                    Collect st.collection) := by
  refine ⟨?_, ?_, ?_⟩
  · intro options1 options2
    exact Interface_policy_independent implementsT Collect _ collection options1 options2 st hnil
  · intro options
    exact Interface_frame implementsT Collect _ collection options st (Or.inr hnil)
  · intro hx options
    rw [Interface_struct_eq implementsT Collect name self hself collection out hout options st,
      walk_of_no_nil implementsT Collect _ self st.fields 0 st.heap st.collection hnil hx]
    have hcs := collectSelf_spec implementsT Collect (Value.pointer (GoType.struct name) self)
      out (State.mk st.fields st.heap
        ((fieldItemsFrom implementsT self 0 st.fields).foldl Collect st.collection))
    refine ⟨hcs.1, ?_⟩
    rw [hcs.2.2.2]
    simp [fieldItems, List.foldl_append]

/-- On the restricted embedding, where `Collect` returns and keeps to its own
state and the options return.  Frame of the candidate, for every pointer-to-struct
candidate, every collector and however the call ends: the number of fields is
kept; under the skip policy and under the panic policy the candidate struct
after the call is the one before the call; under every policy a field that is
a non-pointer or a non-nil pointer holds after the call what it held before.
Under the create policy, when the call on a non-nil candidate returns, every
nil pointer field, of type `*elem` say, holds a pointer to a zero value of
`elem` allocated during the call, whether or not its type satisfies `T`. -/
theorem Interface_candidate_frame {S : Type} (implementsT : GoType → Bool)
    (Collect : S → Value → S) (name : String) (self : Ptr) (collection : Any)
    (options : List Opt) (st : State S) :
    (Interface implementsT Collect (Any.val (Value.pointer (GoType.struct name) self))
        collection options st).state.fields.length = st.fields.length
      ∧ ((makeSettings options).nilHandling ≠ NilHandling.createNilFields →
          (Interface implementsT Collect (Any.val (Value.pointer (GoType.struct name) self))
            collection options st).state.fields = st.fields)
      ∧ (∀ (j : Nat) (f : Field), st.fields[j]? = some f → f.val.IsNil = false →
          (Interface implementsT Collect (Any.val (Value.pointer (GoType.struct name) self))
            collection options st).state.fields[j]? = some f)
      ∧ ((makeSettings options).nilHandling = NilHandling.createNilFields → self ≠ Ptr.null →
          ∀ out : Value,
            (Interface implementsT Collect (Any.val (Value.pointer (GoType.struct name) self))
              collection options st).outcome = Outcome.returned out →
            ∀ (j : Nat) (f : Field) (elem : GoType), st.fields[j]? = some f →
              f.val = Value.pointer elem Ptr.null →
              ∃ a, st.heap.length ≤ a
                ∧ (Interface implementsT Collect
                    (Any.val (Value.pointer (GoType.struct name) self)) collection options
                    st).state.fields[j]?
                  = some (Field.mk f.Name f.exported (Value.pointer elem (Ptr.obj a)))
                ∧ (Interface implementsT Collect
                    (Any.val (Value.pointer (GoType.struct name) self)) collection options
                    st).state.heap[a]? = some (Object.zero elem)) := by
  obtain ⟨hlen, hkeep⟩ := Interface_frame_not_nil implementsT Collect
    (Any.val (Value.pointer (GoType.struct name) self)) collection options st
  refine ⟨hlen, ?_, hkeep, ?_⟩
  · intro hs
    exact (Interface_frame implementsT Collect _ collection options st (Or.inl hs)).1
  · intro hs hself out hret j f elem hf hval
    have hout := (Interface_returned_spec implementsT Collect _ collection options st out
      hret).1
    obtain ⟨st1, hw, hfe, hhe, -⟩ := Interface_struct_returned implementsT Collect name self
      hself collection options st out hout hret
    obtain ⟨-, hfields⟩ := walk_create_inv implementsT Collect _ self hs st.fields 0 st.heap
      st.collection st1 hw
    obtain ⟨a, ha, hfa, hza⟩ := (hfields j f hf).2 elem hval
    exact ⟨a, ha, by rw [hfe]; exact hfa, by rw [hhe]; exact hza⟩

/-- A run of fields yields no item exactly when none of them qualifies. -/
theorem fieldItemsFrom_eq_nil_iff (implementsT : GoType → Bool) (self : Ptr)
    (fields : List Field) :
    ∀ i : Nat, fieldItemsFrom implementsT self i fields = []
      ↔ ∀ g ∈ fields, qualifies implementsT g = false := by
  induction fields with
  | nil => intro i; simp [fieldItemsFrom_nil]
  | cons f rest ih =>
    intro i
    rw [fieldItemsFrom_cons]
    by_cases hq : qualifies implementsT f = true
    · simp [hq]
    · have hq2 : qualifies implementsT f = false := by simpa using hq
      simp [hq2, ih (i + 1)]

/-- On the restricted embedding, where `Collect` returns and keeps to its own
state and the options return.  Under the panic policy, for every collector that
implements `T` and every non-nil pointer-to-struct candidate whose first nil
pointer field is at declaration index `i` and whose qualifying fields at
indices below `i` are exported: `Interface` panics with the diagnostic that
names that field, and at that moment the collector has received exactly the
qualifying fields at indices below `i`, in declaration order, and not the
candidate itself; no `Collect` call was made exactly when no qualifying field
precedes index `i`.  The candidate struct is as on entry. -/
theorem Interface_panic_not_atomic {S : Type} (implementsT : GoType → Bool)
    (Collect : S → Value → S) (name : String) (self : Ptr) (hself : self ≠ Ptr.null)
    (collection : Any) (out : Value) (hout : assertT implementsT collection = some out)
    (options : List Opt)
    (hs : (makeSettings options).nilHandling = NilHandling.panicNilFields)
    (st : State S) (i : Nat) (f : Field) (hi : firstNilIndex st.fields = i)
    (hf : st.fields[i]? = some f)
    (hx : ∀ g ∈ st.fields.take i, qualifies implementsT g = true → g.exported = true) :
    (Interface implementsT Collect (Any.val (Value.pointer (GoType.struct name) self))
        collection options st).outcome
        = Outcome.panicked (Panic.raised (nilFieldMessage f.Name))
      ∧ (Interface implementsT Collect (Any.val (Value.pointer (GoType.struct name) self))
          collection options st).state.collection
        = (fieldItems implementsT self (st.fields.take i)).foldl Collect st.collection
      ∧ (fieldItems implementsT self (st.fields.take i) = []
          ↔ ∀ g ∈ st.fields.take i, qualifies implementsT g = false)
      ∧ (Interface implementsT Collect (Any.val (Value.pointer (GoType.struct name) self))
          collection options st).state.fields = st.fields := by
  subst hi
  rw [Interface_struct_eq implementsT Collect name self hself collection out hout options st,
    walk_panic_at_first_nil implementsT Collect _ self hs st.fields 0 st.heap st.collection
      f hf hx]
  exact ⟨rfl, rfl, fieldItemsFrom_eq_nil_iff implementsT self _ 0, rfl⟩

/-- Under the create policy a walk that ends normally leaves no nil pointer
field, and every field that qualifies is exported. -/
theorem walk_create_final {S : Type} (implementsT : GoType → Bool) (Collect : S → Value → S)
    (s : Settings) (self : Ptr) (hs : s.nilHandling = NilHandling.createNilFields)
    (rest : List Field) :
    ∀ (i : Nat) (h : Heap) (c : S) (st1 : State S),
      walk implementsT Collect s self i rest h c = Step.next st1 →
      ∀ g ∈ st1.fields,
        g.val.IsNil = false ∧ (qualifies implementsT g = true → g.exported = true) := by
  induction rest with
  | nil =>
    intro i h c st1 hw
    simp only [walk, Step.next.injEq] at hw
    subst hw
    intro g hg
    simp at hg
  | cons f rest ih =>
    intro i h c st1 hw
    rcases walk_cons_next_inv implementsT Collect s self i f rest h c st1 hw with
      ⟨hv, -⟩ | ⟨f1, h1, c1, st2, hv, hw2, hst⟩
    · have hb := (visit_brk_inv implementsT Collect s self i f h c hv).1
      rw [hs] at hb
      cases hb
    · obtain ⟨-, -, hexp, hq, hcase⟩ :=
        visit_next_inv implementsT Collect s self i f h c f1 h1 c1 hv
      subst hst
      intro g hg
      simp only [List.mem_cons] at hg
      rcases hg with hg | hg
      · subst hg
        refine ⟨?_, fun hqg => by rw [hexp]; exact hq hqg⟩
        rcases hcase with ⟨hn, hf1, -⟩ | ⟨-, -, elem, -, hval1, -⟩
        · rw [hf1]; exact hn
        · rw [hval1]; rfl
      · exact ih (i + 1) h1 c1 st2 hw2 g hg

/-- On the restricted embedding, where `Collect` returns and keeps to its own
state and the options return.  After a call of `Interface` under the create policy that
returns, on a non-nil pointer-to-struct candidate, no pointer field of the
candidate struct is nil.  A second call on the candidate as the first call
left it, with a collector in the fresh state the first call started from,
under any policy, the panic policy included, returns its collector, leaves the
candidate struct and the heap as they are, and yields the same ordered
collection as the first call. -/
theorem Interface_create_then_any_policy {S : Type} (implementsT : GoType → Bool)
    (Collect : S → Value → S) (name : String) (self : Ptr) (hself : self ≠ Ptr.null)
    (collection : Any) (options : List Opt)
    (hs : (makeSettings options).nilHandling = NilHandling.createNilFields)
    (st : State S) (out : Value)
    (hret : (Interface implementsT Collect (Any.val (Value.pointer (GoType.struct name) self))
      collection options st).outcome = Outcome.returned out) :
    (∀ g ∈ (Interface implementsT Collect (Any.val (Value.pointer (GoType.struct name) self))
        collection options st).state.fields, g.val.IsNil = false)
      ∧ ∀ (options2 : List Opt) (collection2 : Any) (out2 : Value),
          assertT implementsT collection2 = some out2 →
          (Interface implementsT Collect (Any.val (Value.pointer (GoType.struct name) self))
              collection2 options2
              (State.mk
                (Interface implementsT Collect
                  (Any.val (Value.pointer (GoType.struct name) self)) collection options
                  st).state.fields
                (Interface implementsT Collect
                  (Any.val (Value.pointer (GoType.struct name) self)) collection options
                  st).state.heap
                st.collection)).outcome = Outcome.returned out2
            ∧ (Interface implementsT Collect (Any.val (Value.pointer (GoType.struct name) self))
              collection2 options2
              (State.mk
                (Interface implementsT Collect
                  (Any.val (Value.pointer (GoType.struct name) self)) collection options
                  st).state.fields
                (Interface implementsT Collect
                  (Any.val (Value.pointer (GoType.struct name) self)) collection options
                  st).state.heap
                st.collection)).state.fields
              = (Interface implementsT Collect
                  (Any.val (Value.pointer (GoType.struct name) self)) collection options
                  st).state.fields
            ∧ (Interface implementsT Collect (Any.val (Value.pointer (GoType.struct name) self))
              collection2 options2
              (State.mk
                (Interface implementsT Collect
                  (Any.val (Value.pointer (GoType.struct name) self)) collection options
                  st).state.fields
                (Interface implementsT Collect
                  (Any.val (Value.pointer (GoType.struct name) self)) collection options
                  st).state.heap
                st.collection)).state.heap
              = (Interface implementsT Collect
                  (Any.val (Value.pointer (GoType.struct name) self)) collection options
                  st).state.heap
            ∧ (Interface implementsT Collect (Any.val (Value.pointer (GoType.struct name) self))
              collection2 options2
              (State.mk
                (Interface implementsT Collect
                  (Any.val (Value.pointer (GoType.struct name) self)) collection options
                  st).state.fields
                (Interface implementsT Collect
                  (Any.val (Value.pointer (GoType.struct name) self)) collection options
                  st).state.heap
                st.collection)).state.collection
              = (Interface implementsT Collect
                  (Any.val (Value.pointer (GoType.struct name) self)) collection options
                  st).state.collection := by
  have hout := (Interface_returned_spec implementsT Collect _ collection options st out hret).1
  obtain ⟨st1, hw, hfe, hhe, hce⟩ := Interface_struct_returned implementsT Collect name self
    hself collection options st out hout hret
  have hfin := walk_create_final implementsT Collect _ self hs st.fields 0 st.heap
    st.collection st1 hw
  have hlen := walk_next_length implementsT Collect _ self st.fields 0 st.heap st.collection
    st1 hw
  have hcoll := walk_next_collection implementsT Collect _ self st.fields 0 st.heap
    st.collection st1 hw
  have htake : st1.fields.take (reached (makeSettings options).nilHandling st.fields)
      = st1.fields := by
    rw [hs]
    simp only [reached]
    rw [← hlen]
    exact List.take_length st1.fields
  rw [htake] at hcoll
  rw [hfe, hhe, hce]
  refine ⟨fun g hg => (hfin g hg).1, ?_⟩
  intro options2 collection2 out2 hout2
  rw [Interface_struct_eq implementsT Collect name self hself collection2 out2 hout2 options2
    (State.mk st1.fields st1.heap st.collection)]
  simp only
  rw [walk_of_no_nil implementsT Collect _ self st1.fields 0 st1.heap st.collection
    (fun g hg => (hfin g hg).1) (fun g hg => (hfin g hg).2)]
  have hcs := collectSelf_spec implementsT Collect (Value.pointer (GoType.struct name) self)
    out2 (State.mk st1.fields st1.heap
      ((fieldItemsFrom implementsT self 0 st1.fields).foldl Collect st.collection))
  refine ⟨hcs.1, hcs.2.1, hcs.2.2.1, ?_⟩
  rw [hcs.2.2.2, hcoll]

/-- Every item of the expected collection has a type assignable to `T`. -/
theorem implementsT_of_mem_expectedCollection (implementsT : GoType → Bool)
    (nh : NilHandling) (name : String) (self : Ptr) (entry final : List Field) (v : Value)
    (hv : v ∈ expectedCollection implementsT nh name self entry final) :
    implementsT v.Type = true := by
  simp only [expectedCollection, fieldItems, fieldItemsFrom, selfItem, List.mem_append,
    List.mem_filter] at hv
  rcases hv with ⟨-, hT⟩ | hv
  · exact hT
  · split_ifs at hv with hT
    · simp only [List.mem_singleton] at hv
      subst hv
      exact hT
    · simp at hv

/-! ## Caller code that may panic or write to the candidate -/

namespace Go

/-- The check of lines 75 to 77 with a collector that returns and keeps to its
own state is the check of the restricted embedding. -/
theorem collectIfAssignable_pureCollect {S : Type} (implementsT : GoType → Bool)
    (f : S → Value → S) (exported : Bool) (fieldVal : Value) (st : State S) :
    collectIfAssignable implementsT (pureCollect f) exported fieldVal st
      = Multiplex.collectIfAssignable implementsT f exported fieldVal st := by
  unfold collectIfAssignable Multiplex.collectIfAssignable pureCollect
  by_cases hT : implementsT fieldVal.Type = true <;> by_cases hx : exported = true <;>
    simp [hT, hx]

/-- The loop body with such a collector is the loop body of the restricted
embedding. -/
theorem fieldStep_pureCollect {S : Type} (implementsT : GoType → Bool)
    (f : S → Value → S) (s : Settings) (self : Ptr) (i : Nat) (st : State S) :
    fieldStep implementsT (pureCollect f) s self i st
      = Multiplex.fieldStep implementsT f s self i st := by
  unfold fieldStep Multiplex.fieldStep
  simp only [collectIfAssignable_pureCollect]

/-- The loop with such a collector is the loop of the restricted embedding. -/
theorem fieldLoop_pureCollect {S : Type} (implementsT : GoType → Bool)
    (f : S → Value → S) (s : Settings) (self : Ptr) (n : Nat) :
    ∀ (i : Nat) (st : State S),
      fieldLoop implementsT (pureCollect f) s self n i st
        = Multiplex.fieldLoop implementsT f s self n i st := by
  induction n with
  | zero => intro i st; rfl
  | succ n ih =>
    intro i st
    simp only [fieldLoop, Multiplex.fieldLoop, fieldStep_pureCollect]
    cases Multiplex.fieldStep implementsT f s self i st with
    | next st1 => exact ih (i + 1) st1
    | brk st1 => rfl
    | panicked p st1 => rfl

/-- Lines 80 to 85 with such a collector are those of the restricted
embedding. -/
theorem collectSelf_pureCollect {S : Type} (implementsT : GoType → Bool)
    (f : S → Value → S) (maybe : Any) (out : Value) (st : State S) :
    collectSelf implementsT (pureCollect f) maybe out st
      = Multiplex.collectSelf implementsT f maybe out st := by
  unfold collectSelf Multiplex.collectSelf pureCollect
  cases assertT implementsT maybe <;> rfl

/-- The settings of the restricted embedding for the one option that sets
`s`. -/
theorem makeSettings_const (s : Settings) :
    Multiplex.makeSettings [fun _ => s] = s := rfl

/-- A call whose options return the settings `s` and whose collector returns
and keeps to its own state is the call of the restricted embedding under the
settings `s`. -/
theorem Interface_pureCollect {S : Type} (implementsT : GoType → Bool)
    (f : S → Value → S) (maybe collection : Any) (options : List Opt) (s : Settings)
    (hopt : makeSettings options = Except.ok s) (st : State S) :
    Interface implementsT (pureCollect f) maybe collection options st
      = Multiplex.Interface implementsT f maybe collection [fun _ => s] st := by
  unfold Interface Multiplex.Interface
  simp only [hopt, makeSettings_const, fieldLoop_pureCollect, collectSelf_pureCollect]

/-- The check of lines 75 to 77 with a collector that does not write to the
candidate leaves the fields and the heap as they were, however it ends. -/
theorem collectIfAssignable_frame {S : Type} (implementsT : GoType → Bool)
    (Collect : State S → Value → Effect S) (hfr : Framed Collect) (exported : Bool)
    (fieldVal : Value) (st : State S) :
    (collectIfAssignable implementsT Collect exported fieldVal st).state.fields = st.fields
      ∧ (collectIfAssignable implementsT Collect exported fieldVal st).state.heap
        = st.heap := by
  unfold collectIfAssignable
  by_cases hT : implementsT fieldVal.Type = true
  · by_cases hx : exported = true
    · simp only [hT, hx, if_true]
      have h := hfr st fieldVal
      cases hc : Collect st fieldVal with
      | done st1 => rw [hc] at h; exact h
      | panicked p st1 => rw [hc] at h; exact h
    · have hx2 : exported = false := by simpa using hx
      subst hx2
      simp only [hT, if_true]
      exact ⟨rfl, rfl⟩
  · simp only [hT]
    exact ⟨rfl, rfl⟩

/-- The loop body with a collector that does not write to the candidate keeps
the number of fields, keeps every field that is not a nil pointer (and every
field when the policy is not create), and leaves fields and heap as they were
when the policy is not create or no pointer field is nil. -/
theorem fieldStep_frame {S : Type} (implementsT : GoType → Bool)
    (Collect : State S → Value → Effect S) (hfr : Framed Collect) (s : Settings) (self : Ptr)
    (i : Nat) (st : State S) :
    (fieldStep implementsT Collect s self i st).state.fields.length = st.fields.length
      ∧ (∀ (j : Nat) (f : Field), st.fields[j]? = some f →
          (f.val.IsNil = false ∨ s.nilHandling ≠ NilHandling.createNilFields) →
          (fieldStep implementsT Collect s self i st).state.fields[j]? = some f)
      ∧ ((s.nilHandling ≠ NilHandling.createNilFields ∨ ∀ g ∈ st.fields, g.val.IsNil = false) →
          (fieldStep implementsT Collect s self i st).state.fields = st.fields
            ∧ (fieldStep implementsT Collect s self i st).state.heap = st.heap) := by
  unfold fieldStep
  by_cases hself : self = Ptr.null
  · simp only [hself, if_true]
    exact ⟨rfl, fun j f hf _ => hf, fun _ => ⟨rfl, rfl⟩⟩
  · simp only [hself, if_false]
    cases hfi : st.fields[i]? with
    | none => exact ⟨rfl, fun j f hf _ => hf, fun _ => ⟨rfl, rfl⟩⟩
    | some fi =>
      have hkeep : ∀ (fieldVal : Value),
          (collectIfAssignable implementsT Collect fi.exported fieldVal st).state.fields.length
              = st.fields.length
            ∧ (∀ (j : Nat) (f : Field), st.fields[j]? = some f →
                (f.val.IsNil = false ∨ s.nilHandling ≠ NilHandling.createNilFields) →
                (collectIfAssignable implementsT Collect fi.exported fieldVal
                  st).state.fields[j]? = some f)
            ∧ ((s.nilHandling ≠ NilHandling.createNilFields
                  ∨ ∀ g ∈ st.fields, g.val.IsNil = false) →
                (collectIfAssignable implementsT Collect fi.exported fieldVal st).state.fields
                    = st.fields
                  ∧ (collectIfAssignable implementsT Collect fi.exported fieldVal
                      st).state.heap = st.heap) := by
        intro fieldVal
        obtain ⟨hf, hh⟩ := collectIfAssignable_frame implementsT Collect hfr fi.exported
          fieldVal st
        rw [hf]
        exact ⟨rfl, fun j f hj _ => hj, fun _ => ⟨rfl, hh⟩⟩
      rcases fi with ⟨name, ex, v⟩
      cases v with
      | struct n d => exact hkeep _
      | other n d => exact hkeep _
      | pointer elem p =>
        by_cases hn : (Value.pointer elem p).IsNil = true
        · simp only [hn, if_true]
          rcases s with ⟨nh⟩
          cases nh with
          | skipNilFields => exact ⟨rfl, fun j f hf _ => hf, fun _ => ⟨rfl, rfl⟩⟩
          | panicNilFields => exact ⟨rfl, fun j f hf _ => hf, fun _ => ⟨rfl, rfl⟩⟩
          | createNilFields =>
            have hnotcond : ¬ (NilHandling.createNilFields ≠ NilHandling.createNilFields
                ∨ ∀ g ∈ st.fields, g.val.IsNil = false) := by
              rintro (hc | hc)
              · exact hc rfl
              · have hmem : Field.mk name ex (Value.pointer elem p) ∈ st.fields :=
                  List.getElem?_mem hfi
                have := hc _ hmem
                simp only at this
                rw [hn] at this
                cases this
            cases ex with
            | false =>
              simp only [Bool.false_eq_true, if_false]
              exact ⟨rfl, fun j f hf _ => hf, fun hc => absurd hc hnotcond⟩
            | true =>
              simp only [if_true]
              obtain ⟨hf, -⟩ := collectIfAssignable_frame implementsT Collect hfr true
                (reflectNew st.heap elem).2
                (State.mk (st.fields.set i (Field.mk name true (reflectNew st.heap elem).2))
                  (reflectNew st.heap elem).1 st.collection)
              rw [hf]
              refine ⟨by simp, ?_, fun hc => absurd hc hnotcond⟩
              intro j f hj hcond
              rcases hcond with hfn | hc
              · have hji : i ≠ j := by
                  intro hij
                  subst hij
                  rw [hfi] at hj
                  simp only [Option.some.injEq] at hj
                  subst hj
                  simp only at hfn
                  rw [hn] at hfn
                  cases hfn
                simp only
                rw [List.getElem?_set_ne hji]
                exact hj
              · exact absurd rfl hc
        · simp only [hn]
          exact hkeep _

/-- The loop with a collector that does not write to the candidate keeps the
number of fields, keeps every field that is not a nil pointer (and every field
when the policy is not create), and leaves fields and heap as they were when
the policy is not create or no pointer field is nil; however the loop ends. -/
theorem fieldLoop_frame {S : Type} (implementsT : GoType → Bool)
    (Collect : State S → Value → Effect S) (hfr : Framed Collect) (s : Settings) (self : Ptr)
    (n : Nat) :
    ∀ (i : Nat) (st : State S),
      (fieldLoop implementsT Collect s self n i st).state.fields.length = st.fields.length
        ∧ (∀ (j : Nat) (f : Field), st.fields[j]? = some f →
            (f.val.IsNil = false ∨ s.nilHandling ≠ NilHandling.createNilFields) →
            (fieldLoop implementsT Collect s self n i st).state.fields[j]? = some f)
        ∧ ((s.nilHandling ≠ NilHandling.createNilFields
              ∨ ∀ g ∈ st.fields, g.val.IsNil = false) →
            (fieldLoop implementsT Collect s self n i st).state.fields = st.fields
              ∧ (fieldLoop implementsT Collect s self n i st).state.heap = st.heap) := by
  induction n with
  | zero => intro i st; exact ⟨rfl, fun j f hf _ => hf, fun _ => ⟨rfl, rfl⟩⟩
  | succ n ih =>
    intro i st
    obtain ⟨hlen, hkeep, hsame⟩ := fieldStep_frame implementsT Collect hfr s self i st
    simp only [fieldLoop]
    cases hstep : fieldStep implementsT Collect s self i st with
    | brk st1 =>
      rw [hstep] at hlen hkeep hsame
      exact ⟨hlen, hkeep, hsame⟩
    | panicked p st1 =>
      rw [hstep] at hlen hkeep hsame
      exact ⟨hlen, hkeep, hsame⟩
    | next st1 =>
      rw [hstep] at hlen hkeep hsame
      simp only [Step.state] at hlen hkeep hsame
      obtain ⟨hlen1, hkeep1, hsame1⟩ := ih (i + 1) st1
      refine ⟨hlen1.trans hlen, ?_, ?_⟩
      · intro j f hf hcond
        exact hkeep1 j f (hkeep j f hf hcond) hcond
      · intro hcond
        obtain ⟨hf1, hh1⟩ := hsame hcond
        have hcond1 : s.nilHandling ≠ NilHandling.createNilFields
            ∨ ∀ g ∈ st1.fields, g.val.IsNil = false := by
          rcases hcond with hc | hc
          · exact Or.inl hc
          · exact Or.inr (by rw [hf1]; exact hc)
        obtain ⟨hf2, hh2⟩ := hsame1 hcond1
        exact ⟨hf2.trans hf1, hh2.trans hh1⟩

/-- Lines 80 to 85 with a collector that does not write to the candidate leave
the fields and the heap as they were, however they end. -/
theorem collectSelf_frame {S : Type} (implementsT : GoType → Bool)
    (Collect : State S → Value → Effect S) (hfr : Framed Collect) (maybe : Any) (out : Value)
    (st : State S) :
    (collectSelf implementsT Collect maybe out st).state.fields = st.fields
      ∧ (collectSelf implementsT Collect maybe out st).state.heap = st.heap := by
  unfold collectSelf
  cases assertT implementsT maybe with
  | none => exact ⟨rfl, rfl⟩
  | some f =>
    have h := hfr st f
    simp only
    cases hc : Collect st f with
    | done st1 => rw [hc] at h; exact h
    | panicked p st1 => rw [hc] at h; exact h

/-- A call as the walk over a struct, or as a call that leaves the state
alone: every call is one of the two. -/
theorem Interface_cases {S : Type} (implementsT : GoType → Bool)
    (Collect : State S → Value → Effect S) (maybe collection : Any) (options : List Opt)
    (st : State S) :
    (Interface implementsT Collect maybe collection options st).state = st
      ∨ ∃ s out name self, makeSettings options = Except.ok s
          ∧ assertT implementsT collection = some out
          ∧ maybe = Any.val (Value.pointer (GoType.struct name) self)
          ∧ Interface implementsT Collect maybe collection options st
            = match fieldLoop implementsT Collect s self st.fields.length 0 st with
              | Step.next st1 => collectSelf implementsT Collect maybe out st1
              | Step.brk st1 => collectSelf implementsT Collect maybe out st1
              | Step.panicked p st1 => Result.mk (Outcome.panicked p) st1 := by
  unfold Interface
  cases hopt : makeSettings options with
  | error p => exact Or.inl rfl
  | ok s =>
    cases hc : assertT implementsT collection with
    | none => exact Or.inl rfl
    | some out =>
      cases maybe with
      | nil => exact Or.inl rfl
      | val v =>
        cases v with
        | struct n d => exact Or.inl rfl
        | other n d => exact Or.inl rfl
        | pointer elem p =>
          cases elem with
          | other n => exact Or.inl rfl
          | pointer e => exact Or.inl rfl
          | struct n => exact Or.inr ⟨s, out, n, p, rfl, rfl, rfl, rfl⟩

/-- A call with a collector that does not write to the candidate keeps the
number of fields, keeps every field that is not a nil pointer, and leaves the
candidate struct and the heap as they were when the options do not resolve to
the create policy or no pointer field is nil; however the call ends. -/
theorem call_frame {S : Type} (implementsT : GoType → Bool)
    (Collect : State S → Value → Effect S) (hfr : Framed Collect) (maybe collection : Any)
    (options : List Opt) (st : State S) :
    (Interface implementsT Collect maybe collection options st).state.fields.length
        = st.fields.length
      ∧ (∀ (j : Nat) (f : Field), st.fields[j]? = some f → f.val.IsNil = false →
          (Interface implementsT Collect maybe collection options st).state.fields[j]?
            = some f)
      ∧ (((∀ s, makeSettings options = Except.ok s →
              s.nilHandling ≠ NilHandling.createNilFields)
            ∨ ∀ g ∈ st.fields, g.val.IsNil = false) →
          (Interface implementsT Collect maybe collection options st).state.fields = st.fields
            ∧ (Interface implementsT Collect maybe collection options st).state.heap
              = st.heap) := by
  rcases Interface_cases implementsT Collect maybe collection options st with
    hst | ⟨s, out, name, self, hopt, -, -, heq⟩
  · rw [hst]
    exact ⟨rfl, fun j f hf _ => hf, fun _ => ⟨rfl, rfl⟩⟩
  · rw [heq]
    obtain ⟨hlen, hkeep, hsame⟩ := fieldLoop_frame implementsT Collect hfr s self
      st.fields.length 0 st
    have hall : ∀ (r : Step S) (st1 : State S), r.state = st1 →
        (match r with
          | Step.next st1 => collectSelf implementsT Collect maybe out st1
          | Step.brk st1 => collectSelf implementsT Collect maybe out st1
          | Step.panicked p st1 => Result.mk (Outcome.panicked p) st1).state.fields
            = st1.fields
          ∧ (match r with
              | Step.next st1 => collectSelf implementsT Collect maybe out st1
              | Step.brk st1 => collectSelf implementsT Collect maybe out st1
              | Step.panicked p st1 => Result.mk (Outcome.panicked p) st1).state.heap
            = st1.heap := by
      intro r st1 hr
      cases r with
      | next st2 =>
        simp only [Step.state] at hr
        subst hr
        exact collectSelf_frame implementsT Collect hfr maybe out st2
      | brk st2 =>
        simp only [Step.state] at hr
        subst hr
        exact collectSelf_frame implementsT Collect hfr maybe out st2
      | panicked p st2 =>
        simp only [Step.state] at hr
        subst hr
        exact ⟨rfl, rfl⟩
    obtain ⟨hf, hh⟩ := hall (fieldLoop implementsT Collect s self st.fields.length 0 st) _ rfl
    rw [hf, hh]
    refine ⟨hlen, fun j f hj hn => hkeep j f hj (Or.inl hn), ?_⟩
    intro hcond
    apply hsame
    rcases hcond with hc | hc
    · exact Or.inl (hc s hopt)
    · exact Or.inr hc

/-- On a struct without a nil pointer field the loop body is the same under
every policy. -/
theorem fieldStep_policy_independent {S : Type} (implementsT : GoType → Bool)
    (Collect : State S → Value → Effect S) (s1 s2 : Settings) (self : Ptr) (i : Nat)
    (st : State S) (hnil : ∀ g ∈ st.fields, g.val.IsNil = false) :
    fieldStep implementsT Collect s1 self i st = fieldStep implementsT Collect s2 self i st := by
  unfold fieldStep
  by_cases hself : self = Ptr.null
  · simp only [hself, if_true]
  · simp only [hself, if_false]
    cases hfi : st.fields[i]? with
    | none => rfl
    | some fi =>
      have hn := hnil fi (List.getElem?_mem hfi)
      rcases fi with ⟨name, ex, v⟩
      cases v with
      | struct n d => rfl
      | other n d => rfl
      | pointer elem p =>
        simp only at hn
        simp only [hn]
        rfl

/-- On a struct without a nil pointer field, with a collector that does not
write to the candidate, the loop is the same under every policy. -/
theorem fieldLoop_policy_independent {S : Type} (implementsT : GoType → Bool)
    (Collect : State S → Value → Effect S) (hfr : Framed Collect) (s1 s2 : Settings)
    (self : Ptr) (n : Nat) :
    ∀ (i : Nat) (st : State S), (∀ g ∈ st.fields, g.val.IsNil = false) →
      fieldLoop implementsT Collect s1 self n i st
        = fieldLoop implementsT Collect s2 self n i st := by
  induction n with
  | zero => intro i st _; rfl
  | succ n ih =>
    intro i st hnil
    simp only [fieldLoop,
      fieldStep_policy_independent implementsT Collect s1 s2 self i st hnil]
    have hsame := (fieldStep_frame implementsT Collect hfr s2 self i st).2.2 (Or.inr hnil)
    cases hstep : fieldStep implementsT Collect s2 self i st with
    | brk st1 => rfl
    | panicked p st1 => rfl
    | next st1 =>
      rw [hstep] at hsame
      simp only [Step.state] at hsame
      exact ih (i + 1) st1 (by rw [hsame.1]; exact hnil)

/-- On a candidate without a nil pointer field, with a collector that does not
write to the candidate, a call is the same under any two option lists that
return settings. -/
theorem call_policy_independent {S : Type} (implementsT : GoType → Bool)
    (Collect : State S → Value → Effect S) (hfr : Framed Collect) (maybe collection : Any)
    (options1 options2 : List Opt) (s1 s2 : Settings)
    (hopt1 : makeSettings options1 = Except.ok s1)
    (hopt2 : makeSettings options2 = Except.ok s2) (st : State S)
    (hnil : ∀ g ∈ st.fields, g.val.IsNil = false) :
    Interface implementsT Collect maybe collection options1 st
      = Interface implementsT Collect maybe collection options2 st := by
  unfold Interface
  simp only [hopt1, hopt2]
  cases assertT implementsT collection with
  | none => rfl
  | some out =>
    cases maybe with
    | nil => rfl
    | val v =>
      cases v with
      | struct n d => rfl
      | other n d => rfl
      | pointer elem p =>
        cases elem with
        | other n => rfl
        | pointer e => rfl
        | struct n =>
          simp only
          rw [fieldLoop_policy_independent implementsT Collect hfr s1 s2 p st.fields.length 0
            st hnil]

/-- The three options of the package return the settings they name. -/
theorem makeSettings_package_options :
    makeSettings [] = Except.ok (Settings.mk NilHandling.createNilFields)
      ∧ makeSettings [OptSkipNilFields] = Except.ok (Settings.mk NilHandling.skipNilFields)
      ∧ makeSettings [OptCreateNilFields]
        = Except.ok (Settings.mk NilHandling.createNilFields)
      ∧ makeSettings [OptPanicNilFields]
        = Except.ok (Settings.mk NilHandling.panicNilFields) :=
  ⟨rfl, rfl, rfl, rfl⟩

/-- Claim C5, counterexample.  Line 41 runs the options before the collector
is checked on line 43: with an option list that holds the nil `Option` and a
collector that is not a `Doer`, the call panics with a nil pointer dereference
and not with "collection must implement T". -/
theorem nil_option_counterexample :
    assertT isDoer (Any.val (Value.pointer (GoType.other "notADoer") (Ptr.obj 0))) = none
      ∧ (Interface isDoer (multiDoerCollect (Ptr.obj 0)) (testCandidate "compoundDoer")
          (Any.val (Value.pointer (GoType.other "notADoer") (Ptr.obj 0))) [Opt.nilFunc]
          (State.mk (compoundDoerFields "-one" Ptr.null) (testHeap "compoundDoer" "")
            [])).outcome
        = Outcome.panicked
            (Panic.runtimeError "invalid memory address or nil pointer dereference")
      ∧ (Interface isDoer (multiDoerCollect (Ptr.obj 0)) (testCandidate "compoundDoer")
          (Any.val (Value.pointer (GoType.other "notADoer") (Ptr.obj 0))) [Opt.nilFunc]
          (State.mk (compoundDoerFields "-one" Ptr.null) (testHeap "compoundDoer" "")
            [])).outcome
        ≠ Outcome.panicked (Panic.raised "collection must implement T") := by
  decide

/-- Claim C5, as amended.  If the collector value does not implement `T` (the
assertion `any(collection).(T)` fails), then for every candidate, whatever its
shape, every `Collect` and every option list whose options are not nil and
return (so that `makeSettings` returns), `Interface` panics with "collection
must implement T"; the state is the one on entry, so no `Collect` call was
made and the candidate was not mutated. -/
theorem collector_must_implement_T {S : Type} (implementsT : GoType → Bool)
    (Collect : State S → Value → Effect S) (maybe collection : Any) (options : List Opt)
    (s : Settings) (hopt : makeSettings options = Except.ok s) (st : State S)
    (hnot : assertT implementsT collection = none) :
    (Interface implementsT Collect maybe collection options st).outcome
        = Outcome.panicked (Panic.raised "collection must implement T")
      ∧ (Interface implementsT Collect maybe collection options st).state.collection
        = st.collection
      ∧ (Interface implementsT Collect maybe collection options st).state.fields = st.fields
      ∧ (Interface implementsT Collect maybe collection options st).state.heap = st.heap := by
  unfold Interface
  simp [hopt, hnot]

/-- Claim C5 on a `compoundDoer` with a nil `Doer2` under `OptCreateNilFields`,
with a collector of a type that has no method `Do`. -/
theorem collector_must_implement_T_witness :
    makeSettings [OptCreateNilFields] = Except.ok (Settings.mk NilHandling.createNilFields)
      ∧ assertT isDoer (Any.val (Value.pointer (GoType.other "notADoer") (Ptr.obj 0))) = none
      ∧ (Interface isDoer (multiDoerCollect (Ptr.obj 0)) (testCandidate "compoundDoer")
          (Any.val (Value.pointer (GoType.other "notADoer") (Ptr.obj 0)))
          [OptCreateNilFields]
          (State.mk (compoundDoerFields "-one" Ptr.null) (testHeap "compoundDoer" "")
            [])).outcome
        = Outcome.panicked (Panic.raised "collection must implement T")
      ∧ (Interface isDoer (multiDoerCollect (Ptr.obj 0)) (testCandidate "compoundDoer")
          (Any.val (Value.pointer (GoType.other "notADoer") (Ptr.obj 0)))
          [OptCreateNilFields]
          (State.mk (compoundDoerFields "-one" Ptr.null) (testHeap "compoundDoer" "")
            [])).state.fields = compoundDoerFields "-one" Ptr.null :=
  ⟨rfl, by decide,
   (collector_must_implement_T isDoer (multiDoerCollect (Ptr.obj 0))
      (testCandidate "compoundDoer")
      (Any.val (Value.pointer (GoType.other "notADoer") (Ptr.obj 0))) [OptCreateNilFields]
      (Settings.mk NilHandling.createNilFields) rfl
      (State.mk (compoundDoerFields "-one" Ptr.null) (testHeap "compoundDoer" "") [])
      (by decide)).1,
   (collector_must_implement_T isDoer (multiDoerCollect (Ptr.obj 0))
      (testCandidate "compoundDoer")
      (Any.val (Value.pointer (GoType.other "notADoer") (Ptr.obj 0))) [OptCreateNilFields]
      (Settings.mk NilHandling.createNilFields) rfl
      (State.mk (compoundDoerFields "-one" Ptr.null) (testHeap "compoundDoer" "") [])
      (by decide)).2.2.1⟩

/-- A collector that returns and keeps to its own state does not write to the
candidate. -/
theorem pureCollect_framed {S : Type} (f : S → Value → S) : Framed (pureCollect f) :=
  fun _ _ => ⟨rfl, rfl⟩

/-- The method `Collect` of `multiDoer` does not write to the candidate,
whatever its receiver. -/
theorem multiDoerCollect_framed (md : Ptr) : Framed (multiDoerCollect md) := by
  intro st d
  unfold multiDoerCollect
  by_cases h : md = Ptr.null <;> simp [h, Effect.state]

/-- Claim C11, counterexample.  A fresh `selfCollector` is a `Doer`, has no nil
pointer field and is passed as candidate and as collector.  The run returns,
and it has changed the candidate: `Collect` wrote the address of `Doer1` and
then the candidate itself to the field `Items`. -/
theorem self_collector_first_run_counterexample :
    (∀ g ∈ selfCollectorFields "-x", g.val.IsNil = false)
      ∧ assertT (implements testMethods ["Do"])
          (Any.val (Value.pointer (GoType.struct "selfCollector") (Ptr.obj 1)))
        = some (Value.pointer (GoType.struct "selfCollector") (Ptr.obj 1))
      ∧ (Interface (implements testMethods ["Do"]) selfCollect
          (Any.val (Value.pointer (GoType.struct "selfCollector") (Ptr.obj 1)))
          (Any.val (Value.pointer (GoType.struct "selfCollector") (Ptr.obj 1))) []
          (State.mk (selfCollectorFields "-x") (testHeap "selfCollector" "") ())).outcome
        = Outcome.returned (Value.pointer (GoType.struct "selfCollector") (Ptr.obj 1))
      ∧ (Interface (implements testMethods ["Do"]) selfCollect
          (Any.val (Value.pointer (GoType.struct "selfCollector") (Ptr.obj 1)))
          (Any.val (Value.pointer (GoType.struct "selfCollector") (Ptr.obj 1))) []
          (State.mk (selfCollectorFields "-x") (testHeap "selfCollector" "") ())).state.fields
        = [Field.mk "Doer1" true (Value.struct "doer1" "-x"),
           Field.mk "Items" true (Value.other "[]Doer" "++")]
      ∧ (Interface (implements testMethods ["Do"]) selfCollect
          (Any.val (Value.pointer (GoType.struct "selfCollector") (Ptr.obj 1)))
          (Any.val (Value.pointer (GoType.struct "selfCollector") (Ptr.obj 1))) []
          (State.mk (selfCollectorFields "-x") (testHeap "selfCollector" "") ())).state.fields
        ≠ selfCollectorFields "-x" := by
  decide

/-- Claim C11, as amended.  Idempotence: for every pointer-to-struct candidate
with no nil pointer field (every non-nil one in particular), every collector
whose `Collect` does not write to the candidate struct or the heap (it may
panic), and every option list: the first run leaves the candidate struct and
the heap unchanged, and a second run on what the first run left, with a
collector in the same fresh state, ends as the first run did and yields the
same ordered collection; under the same option list, and under any other
option list when both lists return settings. -/
theorem idempotent_without_nil_fields {S : Type} (implementsT : GoType → Bool)
    (Collect : State S → Value → Effect S) (hfr : Framed Collect) (name : String) (self : Ptr)
    (collection : Any) (options : List Opt) (st : State S)
    (hnil : ∀ g ∈ st.fields, g.val.IsNil = false) :
    (Interface implementsT Collect (Any.val (Value.pointer (GoType.struct name) self))
        collection options st).state.fields = st.fields
      ∧ (Interface implementsT Collect (Any.val (Value.pointer (GoType.struct name) self))
          collection options st).state.heap = st.heap
      ∧ Interface implementsT Collect (Any.val (Value.pointer (GoType.struct name) self))
          collection options
          (State.mk
            (Interface implementsT Collect (Any.val (Value.pointer (GoType.struct name) self))
              collection options st).state.fields
            (Interface implementsT Collect (Any.val (Value.pointer (GoType.struct name) self))
              collection options st).state.heap
            st.collection)
        = Interface implementsT Collect (Any.val (Value.pointer (GoType.struct name) self))
            collection options st
      ∧ ∀ (options2 : List Opt) (s1 s2 : Settings), makeSettings options = Except.ok s1 →
          makeSettings options2 = Except.ok s2 →
          Interface implementsT Collect (Any.val (Value.pointer (GoType.struct name) self))
              collection options2
              (State.mk
                (Interface implementsT Collect
                  (Any.val (Value.pointer (GoType.struct name) self)) collection options
                  st).state.fields
                (Interface implementsT Collect
                  (Any.val (Value.pointer (GoType.struct name) self)) collection options
                  st).state.heap
                st.collection)
            = Interface implementsT Collect
                (Any.val (Value.pointer (GoType.struct name) self)) collection options st := by
  obtain ⟨hf, hh⟩ := (call_frame implementsT Collect hfr
    (Any.val (Value.pointer (GoType.struct name) self)) collection options st).2.2
    (Or.inr hnil)
  have hst : State.mk st.fields st.heap st.collection = st := rfl
  refine ⟨hf, hh, ?_, ?_⟩
  · rw [hf, hh, hst]
  · intro options2 s1 s2 hopt1 hopt2
    rw [hf, hh, hst]
    exact call_policy_independent implementsT Collect hfr _ collection options2 options
      s2 s1 hopt2 hopt1 st hnil

/-- Claim C11 on the test case "compound doer" with the collector `&multiDoer{}`:
the candidate is as before, and a second run started with the empty collector
collects `Doer1`, `Doer2` and the candidate again. -/
theorem idempotent_without_nil_fields_witness :
    (∀ g ∈ compoundDoerFields "-hallo" (Ptr.obj 2), g.val.IsNil = false)
      ∧ (Interface isDoer (multiDoerCollect (Ptr.obj 0)) (testCandidate "compoundDoer")
          (Any.val multiDoerPtr) []
          (State.mk (compoundDoerFields "-hallo" (Ptr.obj 2)) (testHeap "compoundDoer" "-two")
            [])).state.fields = compoundDoerFields "-hallo" (Ptr.obj 2)
      ∧ (Interface isDoer (multiDoerCollect (Ptr.obj 0)) (testCandidate "compoundDoer")
          (Any.val multiDoerPtr) []
          (State.mk
            (Interface isDoer (multiDoerCollect (Ptr.obj 0)) (testCandidate "compoundDoer")
              (Any.val multiDoerPtr) []
              (State.mk (compoundDoerFields "-hallo" (Ptr.obj 2))
                (testHeap "compoundDoer" "-two") [])).state.fields
            (Interface isDoer (multiDoerCollect (Ptr.obj 0)) (testCandidate "compoundDoer")
              (Any.val multiDoerPtr) []
              (State.mk (compoundDoerFields "-hallo" (Ptr.obj 2))
                (testHeap "compoundDoer" "-two") [])).state.heap
            [])).state.collection
        = [Value.pointer (GoType.struct "doer1") (Ptr.field (Ptr.obj 1) 0),
           Value.pointer (GoType.struct "doer2") (Ptr.obj 2),
           Value.pointer (GoType.struct "compoundDoer") (Ptr.obj 1)] :=
  ⟨by decide,
   (idempotent_without_nil_fields isDoer (multiDoerCollect (Ptr.obj 0))
      (multiDoerCollect_framed (Ptr.obj 0)) "compoundDoer" (Ptr.obj 1) (Any.val multiDoerPtr) []
      (State.mk (compoundDoerFields "-hallo" (Ptr.obj 2)) (testHeap "compoundDoer" "-two") [])
      (by decide)).1,
   (congrArg (fun r => r.state.collection)
      (idempotent_without_nil_fields isDoer (multiDoerCollect (Ptr.obj 0))
        (multiDoerCollect_framed (Ptr.obj 0)) "compoundDoer" (Ptr.obj 1)
        (Any.val multiDoerPtr) []
        (State.mk (compoundDoerFields "-hallo" (Ptr.obj 2)) (testHeap "compoundDoer" "-two")
          [])
        (by decide)).2.2.1).trans (by decide)⟩

/-- Claim C12, counterexample.  The struct `privateNote` has the unexported
nil pointer field `note *string`.  Under the create policy, with the collector
`&multiDoer{}`, the call panics inside `reflect.Value.Set` and the field is
not overwritten: the candidate is as on entry. -/
theorem create_overwrite_counterexample :
    (privateNoteFields "-x" Ptr.null)[1]?
        = some (Field.mk "note" false (Value.pointer (GoType.other "string") Ptr.null))
      ∧ (Interface isDoer (multiDoerCollect (Ptr.obj 0)) (testCandidate "privateNote")
          (Any.val multiDoerPtr) [OptCreateNilFields]
          (State.mk (privateNoteFields "-x" Ptr.null) (testHeap "privateNote" "")
            [])).outcome
        = Outcome.panicked (Panic.reflectError
            "reflect: reflect.Value.Set using value obtained using unexported field")
      ∧ (Interface isDoer (multiDoerCollect (Ptr.obj 0)) (testCandidate "privateNote")
          (Any.val multiDoerPtr) [OptCreateNilFields]
          (State.mk (privateNoteFields "-x" Ptr.null) (testHeap "privateNote" "")
            [])).state.fields = privateNoteFields "-x" Ptr.null := by
  decide

/-- Claim C12, as amended.  Frame of the candidate, for every pointer-to-struct
candidate, every option list, and every collector whose `Collect` does not
write to the candidate struct or the heap, however the call ends: the number
of fields is kept; when the options do not resolve to the create policy the
candidate struct after the call is the one before the call; under every
policy a field that is a non-pointer or a non-nil pointer holds after the call
what it held before.  Under the create policy, when `Collect` returns and
keeps to the collector state and the call on a non-nil candidate returns,
every nil pointer field, of type `*elem` say, holds a pointer to a zero value
of `elem` allocated during the call, whether or not its type satisfies `T`. -/
theorem candidate_frame {S : Type} (implementsT : GoType → Bool)
    (Collect : State S → Value → Effect S) (hfr : Framed Collect) (name : String) (self : Ptr)
    (collection : Any) (options : List Opt) (st : State S) :
    (Interface implementsT Collect (Any.val (Value.pointer (GoType.struct name) self))
        collection options st).state.fields.length = st.fields.length
      ∧ ((∀ s, makeSettings options = Except.ok s →
            s.nilHandling ≠ NilHandling.createNilFields) →
          (Interface implementsT Collect (Any.val (Value.pointer (GoType.struct name) self))
            collection options st).state.fields = st.fields)
      ∧ (∀ (j : Nat) (f : Field), st.fields[j]? = some f → f.val.IsNil = false →
          (Interface implementsT Collect (Any.val (Value.pointer (GoType.struct name) self))
            collection options st).state.fields[j]? = some f)
      ∧ (∀ (f0 : S → Value → S) (s : Settings), Collect = pureCollect f0 →
          makeSettings options = Except.ok s →
          s.nilHandling = NilHandling.createNilFields → self ≠ Ptr.null →
          ∀ out : Value,
            (Interface implementsT Collect (Any.val (Value.pointer (GoType.struct name) self))
              collection options st).outcome = Outcome.returned out →
            ∀ (j : Nat) (f : Field) (elem : GoType), st.fields[j]? = some f →
              f.val = Value.pointer elem Ptr.null →
              ∃ a, st.heap.length ≤ a
                ∧ (Interface implementsT Collect
                    (Any.val (Value.pointer (GoType.struct name) self)) collection options
                    st).state.fields[j]?
                  = some (Field.mk f.Name f.exported (Value.pointer elem (Ptr.obj a)))
                ∧ (Interface implementsT Collect
                    (Any.val (Value.pointer (GoType.struct name) self)) collection options
                    st).state.heap[a]? = some (Object.zero elem)) := by
  obtain ⟨hlen, hkeep, hsame⟩ := call_frame implementsT Collect hfr
    (Any.val (Value.pointer (GoType.struct name) self)) collection options st
  refine ⟨hlen, fun hs => (hsame (Or.inl hs)).1, hkeep, ?_⟩
  intro f0 s hpure hopt hs hself out hret j f elem hf hval
  subst hpure
  rw [Interface_pureCollect implementsT f0 _ collection options s hopt st] at hret ⊢
  exact (Multiplex.Interface_candidate_frame implementsT f0 name self collection
    [fun _ => s] st).2.2.2 hs hself out hret j f elem hf hval

/-- Claim C12 on a `publicNote` with a nil `Note *string`, a type that is not
a `Doer`, and the collector `&multiDoer{}`: under the create policy `Doer1` is
as it was and `Note` points at a zero `string` at the fresh address 3. -/
theorem candidate_frame_witness :
    (publicNoteFields "-x" Ptr.null)[0]?
        = some (Field.mk "Doer1" true (Value.struct "doer1" "-x"))
      ∧ (Interface isDoer (multiDoerCollect (Ptr.obj 0)) (testCandidate "publicNote")
          (Any.val multiDoerPtr) []
          (State.mk (publicNoteFields "-x" Ptr.null) (testHeap "publicNote" "")
            [])).state.fields[0]?
        = some (Field.mk "Doer1" true (Value.struct "doer1" "-x"))
      ∧ (Interface isDoer (multiDoerCollect (Ptr.obj 0)) (testCandidate "publicNote")
          (Any.val multiDoerPtr) []
          (State.mk (publicNoteFields "-x" Ptr.null) (testHeap "publicNote" "")
            [])).state.fields = publicNoteFields "-x" (Ptr.obj 3)
      ∧ (Interface isDoer (multiDoerCollect (Ptr.obj 0)) (testCandidate "publicNote")
          (Any.val multiDoerPtr) []
          (State.mk (publicNoteFields "-x" Ptr.null) (testHeap "publicNote" "")
            [])).state.collection
        = [Value.pointer (GoType.struct "doer1") (Ptr.field (Ptr.obj 1) 0)] :=
  ⟨by decide,
   (candidate_frame isDoer (multiDoerCollect (Ptr.obj 0)) (multiDoerCollect_framed (Ptr.obj 0))
      "publicNote" (Ptr.obj 1) (Any.val multiDoerPtr) []
      (State.mk (publicNoteFields "-x" Ptr.null) (testHeap "publicNote" "") [])).2.2.1 0
      (Field.mk "Doer1" true (Value.struct "doer1" "-x")) (by decide) (by decide),
   by decide, by decide⟩

/-- Claim C14, counterexample.  A fresh `selfCollector`, a `Doer` without a nil
pointer field, is passed as candidate and as collector under the panic policy:
the call returns and the candidate is not unchanged, `Collect` wrote to its
field `Items`. -/
theorem self_collector_policy_counterexample :
    (∀ g ∈ selfCollectorFields "-y", g.val.IsNil = false)
      ∧ (Interface (implements testMethods ["Do"]) selfCollect
          (Any.val (Value.pointer (GoType.struct "selfCollector") (Ptr.obj 1)))
          (Any.val (Value.pointer (GoType.struct "selfCollector") (Ptr.obj 1)))
          [OptPanicNilFields]
          (State.mk (selfCollectorFields "-y") (testHeap "selfCollector" "") ())).outcome
        = Outcome.returned (Value.pointer (GoType.struct "selfCollector") (Ptr.obj 1))
      ∧ (Interface (implements testMethods ["Do"]) selfCollect
          (Any.val (Value.pointer (GoType.struct "selfCollector") (Ptr.obj 1)))
          (Any.val (Value.pointer (GoType.struct "selfCollector") (Ptr.obj 1)))
          [OptPanicNilFields]
          (State.mk (selfCollectorFields "-y") (testHeap "selfCollector" "") ())).state.fields
        ≠ selfCollectorFields "-y" := by
  decide

/-- Claim C14, as amended.  Policy independence: for every non-nil
pointer-to-struct candidate that has no nil pointer field and every collector
that implements `T` and whose `Collect` does not write to the candidate struct
or the heap, the call is the same under any two option lists that return
settings, so under the skip, the create and the panic policy: same outcome,
same collector state, same candidate, which is unchanged.  When moreover
`Collect` returns and keeps to the collector state and the fields that qualify
are exported, the call returns the collector under every policy, with the
qualifying fields and then the candidate itself collected. -/
theorem policy_irrelevant_without_nil_fields {S : Type} (implementsT : GoType → Bool)
    (Collect : State S → Value → Effect S) (hfr : Framed Collect) (name : String) (self : Ptr)
    (hself : self ≠ Ptr.null) (collection : Any) (out : Value)
    (hout : assertT implementsT collection = some out) (st : State S)
    (hnil : ∀ g ∈ st.fields, g.val.IsNil = false) :
    (∀ (options1 options2 : List Opt) (s1 s2 : Settings),
        makeSettings options1 = Except.ok s1 → makeSettings options2 = Except.ok s2 →
        Interface implementsT Collect (Any.val (Value.pointer (GoType.struct name) self))
            collection options1 st
          = Interface implementsT Collect (Any.val (Value.pointer (GoType.struct name) self))
              collection options2 st)
      ∧ (∀ options : List Opt,
          (Interface implementsT Collect (Any.val (Value.pointer (GoType.struct name) self))
              collection options st).state.fields = st.fields
            ∧ (Interface implementsT Collect (Any.val (Value.pointer (GoType.struct name) self))
              collection options st).state.heap = st.heap)
      ∧ (∀ f0 : S → Value → S, Collect = pureCollect f0 →
          (∀ g ∈ st.fields, qualifies implementsT g = true → g.exported = true) →
          ∀ (options : List Opt) (s : Settings), makeSettings options = Except.ok s →
            (Interface implementsT Collect (Any.val (Value.pointer (GoType.struct name) self))
                collection options st).outcome = Outcome.returned out
              ∧ (Interface implementsT Collect
                  (Any.val (Value.pointer (GoType.struct name) self)) collection options
                  st).state.collection
                = (fieldItems implementsT self st.fields
                    ++ selfItem implementsT (Value.pointer (GoType.struct name) self)).foldl
                    f0 st.collection) := by
  refine ⟨?_, ?_, ?_⟩
  · intro options1 options2 s1 s2 hopt1 hopt2
    exact call_policy_independent implementsT Collect hfr _ collection options1 options2
      s1 s2 hopt1 hopt2 st hnil
  · intro options
    exact (call_frame implementsT Collect hfr _ collection options st).2.2 (Or.inr hnil)
  · intro f0 hpure hx options s hopt
    subst hpure
    rw [Interface_pureCollect implementsT f0 _ collection options s hopt st]
    exact (Multiplex.Interface_policy_irrelevant_without_nil_fields implementsT f0 name self
      hself collection out hout st hnil).2.2 hx [fun _ => s]

/-- Claim C14 on the test case "doer container" with the collector
`&multiDoer{}`: the call under the panic policy is the call under the skip
policy, and it collects `Doer1` and `Doer2`. -/
theorem policy_irrelevant_without_nil_fields_witness :
    (∀ g ∈ doerContainerFields "-blargle" (Ptr.obj 2), g.val.IsNil = false)
      ∧ Interface isDoer (multiDoerCollect (Ptr.obj 0)) (testCandidate "doerContainer")
          (Any.val multiDoerPtr) [OptPanicNilFields]
          (State.mk (doerContainerFields "-blargle" (Ptr.obj 2))
            (testHeap "doerContainer" "-brrr") [])
        = Interface isDoer (multiDoerCollect (Ptr.obj 0)) (testCandidate "doerContainer")
            (Any.val multiDoerPtr) [OptSkipNilFields]
            (State.mk (doerContainerFields "-blargle" (Ptr.obj 2))
              (testHeap "doerContainer" "-brrr") [])
      ∧ (Interface isDoer (multiDoerCollect (Ptr.obj 0)) (testCandidate "doerContainer")
          (Any.val multiDoerPtr) [OptPanicNilFields]
          (State.mk (doerContainerFields "-blargle" (Ptr.obj 2))
            (testHeap "doerContainer" "-brrr") [])).state.collection
        = [Value.pointer (GoType.struct "doer1") (Ptr.field (Ptr.obj 1) 0),
           Value.pointer (GoType.struct "doer2") (Ptr.obj 2)] :=
  ⟨by decide,
   (policy_irrelevant_without_nil_fields isDoer (multiDoerCollect (Ptr.obj 0))
      (multiDoerCollect_framed (Ptr.obj 0)) "doerContainer" (Ptr.obj 1) (by decide)
      (Any.val multiDoerPtr) multiDoerPtr (by decide)
      (State.mk (doerContainerFields "-blargle" (Ptr.obj 2)) (testHeap "doerContainer" "-brrr")
        [])
      (by decide)).1 [OptPanicNilFields] [OptSkipNilFields]
      (Settings.mk NilHandling.panicNilFields) (Settings.mk NilHandling.skipNilFields) rfl rfl,
   by decide⟩

/-- Without a nil pointer field the first nil index is the number of fields. -/
theorem firstNilIndex_of_no_nil (fields : List Field)
    (hnil : ∀ g ∈ fields, g.val.IsNil = false) : firstNilIndex fields = fields.length := by
  unfold firstNilIndex
  exact List.findIdx_eq_length.mpr hnil

/-- On the restricted embedding: when every walked field that is a nil pointer
or qualifies is exported, a call on a non-nil pointer to a struct with a
collector that is a `T` fails exactly under the panic policy with a nil
pointer field, with the diagnostic that names the first one, and returns the
collector otherwise. -/
theorem Interface_outcome_of_walked_exported {S : Type} (implementsT : GoType → Bool)
    (f0 : S → Value → S) (name : String) (self : Ptr) (hself : self ≠ Ptr.null)
    (collection : Any) (out : Value) (hout : assertT implementsT collection = some out)
    (options : List Multiplex.Opt) (st : State S)
    (hx : ∀ g ∈ st.fields.take (walked (Multiplex.makeSettings options).nilHandling st.fields),
      (g.val.IsNil = true ∨ qualifies implementsT g = true) → g.exported = true) :
    (((Multiplex.makeSettings options).nilHandling = NilHandling.panicNilFields
          ∧ ∃ g ∈ st.fields, g.val.IsNil = true) →
        ∃ f, st.fields[firstNilIndex st.fields]? = some f ∧ f.val.IsNil = true
          ∧ (Multiplex.Interface implementsT f0
              (Any.val (Value.pointer (GoType.struct name) self)) collection options
              st).outcome
            = Outcome.panicked (Panic.raised (nilFieldMessage f.Name)))
      ∧ (¬ ((Multiplex.makeSettings options).nilHandling = NilHandling.panicNilFields
          ∧ ∃ g ∈ st.fields, g.val.IsNil = true) →
        (Multiplex.Interface implementsT f0
          (Any.val (Value.pointer (GoType.struct name) self)) collection options st).outcome
          = Outcome.returned out) := by
  refine ⟨?_, ?_⟩
  · rintro ⟨hs, hnil⟩
    obtain ⟨f, hf, hfn⟩ := exists_getElem_firstNilIndex st.fields hnil
    refine ⟨f, hf, hfn, ?_⟩
    rw [hs] at hx
    simp only [walked] at hx
    rw [Interface_struct_eq implementsT f0 name self hself collection out hout options st,
      walk_panic_at_first_nil implementsT f0 _ self hs st.fields 0 st.heap st.collection
        f hf (fun g hg hq => hx g hg (Or.inr hq))]
  · intro hnot
    rw [Interface_struct_eq implementsT f0 name self hself collection out hout options st]
    have hnext : ∃ st1, walk implementsT f0 (Multiplex.makeSettings options) self 0 st.fields
        st.heap st.collection = Step.next st1 := by
      cases hs : (Multiplex.makeSettings options).nilHandling with
      | skipNilFields =>
        rw [hs] at hx
        simp only [walked] at hx
        exact ⟨_, walk_skip implementsT f0 _ self hs st.fields 0 st.heap st.collection
          (fun g hg hq => hx g hg (Or.inr hq))⟩
      | createNilFields =>
        rw [hs] at hx
        simp only [walked, List.take_length] at hx
        exact walk_create_next implementsT f0 _ self hs st.fields 0 st.heap st.collection hx
      | panicNilFields =>
        have hnn : ∀ g ∈ st.fields, g.val.IsNil = false := by
          intro g hg
          by_contra hgn
          exact hnot ⟨hs, g, hg, by simpa using hgn⟩
        rw [hs] at hx
        simp only [walked, firstNilIndex_of_no_nil st.fields hnn, List.take_length] at hx
        exact ⟨_, walk_of_no_nil implementsT f0 _ self st.fields 0 st.heap st.collection
          hnn (fun g hg hq => hx g hg (Or.inr hq))⟩
    obtain ⟨st1, hw⟩ := hnext
    rw [hw]
    exact (collectSelf_spec implementsT f0 _ out st1).1

/-- Claim C2, counterexample.  The struct `hiddenContainer` has the unexported
field `first doer1`, which qualifies, at index 0 and its first nil pointer
field at index 1.  Under `OptSkipNilFields`, with the collector `&multiDoer{}`,
the call panics inside `reflect.Value.Interface` and the qualifying field at
index 0 is not collected. -/
theorem skip_unexported_counterexample :
    firstNilIndex (hiddenContainerFields "-x" Ptr.null) = 1
      ∧ fieldItems isDoer (Ptr.obj 1) ((hiddenContainerFields "-x" Ptr.null).take 1)
        = [Value.pointer (GoType.struct "doer1") (Ptr.field (Ptr.obj 1) 0)]
      ∧ (Interface isDoer (multiDoerCollect (Ptr.obj 0)) (testCandidate "hiddenContainer")
          (Any.val multiDoerPtr) [OptSkipNilFields]
          (State.mk (hiddenContainerFields "-x" Ptr.null) (testHeap "hiddenContainer" "")
            [])).outcome
        = Outcome.panicked (Panic.reflectError
            "reflect.Value.Interface: cannot return value obtained from unexported field or method")
      ∧ (Interface isDoer (multiDoerCollect (Ptr.obj 0)) (testCandidate "hiddenContainer")
          (Any.val multiDoerPtr) [OptSkipNilFields]
          (State.mk (hiddenContainerFields "-x" Ptr.null) (testHeap "hiddenContainer" "")
            [])).state.collection = [] := by
  decide

/-- Claim C2, as amended.  When the options resolve to the skip policy, for
every collector that implements `T` and whose `Collect` returns and keeps to
the collector state (it acts on it as `f0` and does not write to the candidate
or the heap), and every non-nil pointer-to-struct candidate whose first nil
pointer field is at declaration index `i` (the number of fields when no
pointer field is nil) and whose qualifying fields at indices below `i` are
exported: `Interface` returns the collector; the collector has received the
qualifying fields at indices below `i`, in declaration order, then the
candidate itself iff it is a `T`, and nothing from index `i` on; the candidate
struct and the heap are as on entry. -/
theorem skip_stops_at_first_nil_field {S : Type} (implementsT : GoType → Bool)
    (f0 : S → Value → S) (name : String) (self : Ptr) (hself : self ≠ Ptr.null)
    (collection : Any) (out : Value) (hout : assertT implementsT collection = some out)
    (options : List Opt) (s : Settings) (hopt : makeSettings options = Except.ok s)
    (hs : s.nilHandling = NilHandling.skipNilFields)
    (st : State S) (i : Nat) (hi : firstNilIndex st.fields = i)
    (hx : ∀ g ∈ st.fields.take i, qualifies implementsT g = true → g.exported = true) :
    (Interface implementsT (pureCollect f0) (Any.val (Value.pointer (GoType.struct name) self))
        collection options st).outcome = Outcome.returned out
      ∧ (Interface implementsT (pureCollect f0)
          (Any.val (Value.pointer (GoType.struct name) self)) collection options
          st).state.collection
        = (fieldItems implementsT self (st.fields.take i)
            ++ selfItem implementsT (Value.pointer (GoType.struct name) self)).foldl f0
            st.collection
      ∧ (Interface implementsT (pureCollect f0)
          (Any.val (Value.pointer (GoType.struct name) self)) collection options
          st).state.fields = st.fields
      ∧ (Interface implementsT (pureCollect f0)
          (Any.val (Value.pointer (GoType.struct name) self)) collection options
          st).state.heap = st.heap := by
  rw [Interface_pureCollect implementsT f0 _ collection options s hopt st]
  exact Multiplex.Interface_skip_stops_at_first_nil implementsT f0 name self hself collection
    out hout [fun _ => s] hs st i hi hx

/-- Claim C2 on the test case "compound doer one nil field skip", with a
qualifying field added after the nil one and the collector `&multiDoer{}`
(`Collect` appends): only `Doer1` and the candidate are collected. -/
theorem skip_stops_at_first_nil_field_witness :
    firstNilIndex (compoundDoerFields "-alone" Ptr.null
        ++ [Field.mk "Doer3" true (Value.pointer (GoType.struct "doer2") (Ptr.obj 2))]) = 1
      ∧ (Interface isDoer (pureCollect Multiplex.multiDoerCollect)
          (testCandidate "compoundDoer") (Any.val multiDoerPtr) [OptSkipNilFields]
          (State.mk (compoundDoerFields "-alone" Ptr.null
              ++ [Field.mk "Doer3" true (Value.pointer (GoType.struct "doer2") (Ptr.obj 2))])
            (testHeap "compoundDoer" "") [])).outcome = Outcome.returned multiDoerPtr
      ∧ (Interface isDoer (pureCollect Multiplex.multiDoerCollect)
          (testCandidate "compoundDoer") (Any.val multiDoerPtr) [OptSkipNilFields]
          (State.mk (compoundDoerFields "-alone" Ptr.null
              ++ [Field.mk "Doer3" true (Value.pointer (GoType.struct "doer2") (Ptr.obj 2))])
            (testHeap "compoundDoer" "") [])).state.collection
        = [Value.pointer (GoType.struct "doer1") (Ptr.field (Ptr.obj 1) 0),
           Value.pointer (GoType.struct "compoundDoer") (Ptr.obj 1)] :=
  ⟨by decide,
   (skip_stops_at_first_nil_field isDoer Multiplex.multiDoerCollect "compoundDoer" (Ptr.obj 1)
      (by decide) (Any.val multiDoerPtr) multiDoerPtr (by decide) [OptSkipNilFields]
      (Settings.mk NilHandling.skipNilFields) rfl rfl
      (State.mk (compoundDoerFields "-alone" Ptr.null
          ++ [Field.mk "Doer3" true (Value.pointer (GoType.struct "doer2") (Ptr.obj 2))])
        (testHeap "compoundDoer" "") [])
      1 (by decide) (by decide)).1,
   by decide⟩

/-- The method `Collect` of `multiDoer` with a non-nil receiver returns and
keeps to the collector state, on which it appends. -/
theorem multiDoerCollect_eq_pureCollect (a : Nat) :
    multiDoerCollect (Ptr.obj a) = pureCollect Multiplex.multiDoerCollect := by
  funext st d
  simp [multiDoerCollect, pureCollect, Multiplex.multiDoerCollect]

/-- Claim C3, counterexample.  The struct `hiddenPointer` has the unexported
nil pointer field `second *doer2`, whose type satisfies `Doer`.  With no option,
so under the create policy, and the collector `&multiDoer{}`, the call panics
inside `reflect.Value.Set`; the field is still nil and was not collected. -/
theorem create_unexported_counterexample :
    (Interface isDoer (multiDoerCollect (Ptr.obj 0)) (testCandidate "hiddenPointer")
        (Any.val multiDoerPtr) []
        (State.mk (hiddenPointerFields "-x" Ptr.null) (testHeap "hiddenPointer" "")
          [])).outcome
        = Outcome.panicked (Panic.reflectError
            "reflect: reflect.Value.Set using value obtained using unexported field")
      ∧ (Interface isDoer (multiDoerCollect (Ptr.obj 0)) (testCandidate "hiddenPointer")
          (Any.val multiDoerPtr) []
          (State.mk (hiddenPointerFields "-x" Ptr.null) (testHeap "hiddenPointer" "")
            [])).state.fields = hiddenPointerFields "-x" Ptr.null
      ∧ (Interface isDoer (multiDoerCollect (Ptr.obj 0)) (testCandidate "hiddenPointer")
          (Any.val multiDoerPtr) []
          (State.mk (hiddenPointerFields "-x" Ptr.null) (testHeap "hiddenPointer" "")
            [])).state.collection
        = [Value.pointer (GoType.struct "doer1") (Ptr.field (Ptr.obj 1) 0)] := by
  decide

/-- Claim C3, as amended.  When the options resolve to the create policy, for
every collector that implements `T` and whose `Collect` returns and keeps to
the collector state, and every non-nil pointer-to-struct candidate in which
every field that is a nil pointer or that qualifies is exported (under create
every field is walked): `Interface` returns the collector; the heap on entry
is a prefix of the heap on return; and every nil pointer field, of type
`*elem` say, whose type satisfies `T` is replaced in the candidate by a
pointer to a zero value of `elem` at an address not allocated on entry, and
that new pointer is passed to `Collect` at the declaration-order position of
the field: after the qualifying fields before it, before those after it, and
before the candidate itself. -/
theorem create_fills_nil_fields {S : Type} (implementsT : GoType → Bool)
    (f0 : S → Value → S) (name : String) (self : Ptr) (hself : self ≠ Ptr.null)
    (collection : Any) (out : Value) (hout : assertT implementsT collection = some out)
    (options : List Opt) (s : Settings) (hopt : makeSettings options = Except.ok s)
    (hs : s.nilHandling = NilHandling.createNilFields)
    (st : State S)
    (hx : ∀ g ∈ st.fields,
      (g.val.IsNil = true ∨ qualifies implementsT g = true) → g.exported = true) :
    (Interface implementsT (pureCollect f0) (Any.val (Value.pointer (GoType.struct name) self))
        collection options st).outcome = Outcome.returned out
      ∧ (∃ extra, (Interface implementsT (pureCollect f0)
          (Any.val (Value.pointer (GoType.struct name) self)) collection options st).state.heap
            = st.heap ++ extra)
      ∧ ∀ (j : Nat) (f : Field) (elem : GoType), st.fields[j]? = some f →
          f.val = Value.pointer elem Ptr.null → implementsT (GoType.pointer elem) = true →
          ∃ a, st.heap.length ≤ a
            ∧ (Interface implementsT (pureCollect f0)
                (Any.val (Value.pointer (GoType.struct name) self)) collection options
                st).state.heap[a]? = some (Object.zero elem)
            ∧ (Interface implementsT (pureCollect f0)
                (Any.val (Value.pointer (GoType.struct name) self)) collection options
                st).state.fields[j]?
                = some (Field.mk f.Name f.exported (Value.pointer elem (Ptr.obj a)))
            ∧ (Interface implementsT (pureCollect f0)
                (Any.val (Value.pointer (GoType.struct name) self)) collection options
                st).state.collection
                = (fieldItems implementsT self
                      ((Interface implementsT (pureCollect f0)
                        (Any.val (Value.pointer (GoType.struct name) self)) collection options
                        st).state.fields.take j)
                    ++ [Value.pointer elem (Ptr.obj a)]
                    ++ fieldItemsFrom implementsT self (j + 1)
                      ((Interface implementsT (pureCollect f0)
                        (Any.val (Value.pointer (GoType.struct name) self)) collection options
                        st).state.fields.drop (j + 1))
                    ++ selfItem implementsT (Value.pointer (GoType.struct name) self)).foldl
                    f0 st.collection := by
  rw [Interface_pureCollect implementsT f0 _ collection options s hopt st]
  exact Multiplex.Interface_create_fills_nil_fields implementsT f0 name self hself collection
    out hout [fun _ => s] hs st hx

/-- Claim C3 on the test case "doer container - one nil field - default
(create)" with the collector `&multiDoer{}`: the call returns, `Doer2` now
points at a zero `doer2` at the fresh address 3, and the collection is the
address of `Doer1`, then the new `Doer2`. -/
theorem create_fills_nil_fields_witness :
    (∀ g ∈ doerContainerFields "-blargle" Ptr.null,
        (g.val.IsNil = true ∨ qualifies isDoer g = true) → g.exported = true)
      ∧ isDoer (GoType.pointer (GoType.struct "doerContainer")) = false
      ∧ (Interface isDoer (pureCollect Multiplex.multiDoerCollect)
          (testCandidate "doerContainer") (Any.val multiDoerPtr) []
          (State.mk (doerContainerFields "-blargle" Ptr.null) (testHeap "doerContainer" "")
            [])).outcome = Outcome.returned multiDoerPtr
      ∧ (Interface isDoer (pureCollect Multiplex.multiDoerCollect)
          (testCandidate "doerContainer") (Any.val multiDoerPtr) []
          (State.mk (doerContainerFields "-blargle" Ptr.null) (testHeap "doerContainer" "")
            [])).state.fields = doerContainerFields "-blargle" (Ptr.obj 3)
      ∧ (Interface isDoer (pureCollect Multiplex.multiDoerCollect)
          (testCandidate "doerContainer") (Any.val multiDoerPtr) []
          (State.mk (doerContainerFields "-blargle" Ptr.null) (testHeap "doerContainer" "")
            [])).state.heap = testHeap "doerContainer" "" ++ [Object.zero (GoType.struct "doer2")]
      ∧ (Interface isDoer (pureCollect Multiplex.multiDoerCollect)
          (testCandidate "doerContainer") (Any.val multiDoerPtr) []
          (State.mk (doerContainerFields "-blargle" Ptr.null) (testHeap "doerContainer" "")
            [])).state.collection
        = [Value.pointer (GoType.struct "doer1") (Ptr.field (Ptr.obj 1) 0),
           Value.pointer (GoType.struct "doer2") (Ptr.obj 3)] :=
  ⟨by decide, by decide,
   (create_fills_nil_fields isDoer Multiplex.multiDoerCollect "doerContainer" (Ptr.obj 1)
      (by decide) (Any.val multiDoerPtr) multiDoerPtr (by decide) []
      (Settings.mk NilHandling.createNilFields) rfl rfl
      (State.mk (doerContainerFields "-blargle" Ptr.null) (testHeap "doerContainer" "") [])
      (by decide)).1,
   by decide, by decide, by decide⟩

/-- Claim C4, counterexample.  The struct `hiddenContainer` has its first nil
pointer field, `Doer2`, at index 1, after the unexported field `first doer1`,
which qualifies.  Under `OptPanicNilFields`, with the collector `&multiDoer{}`,
the call panics, but inside `reflect.Value.Interface` at index 0, and not with
the diagnostic `field "Doer2" is nil`. -/
theorem panic_diagnostic_counterexample :
    (hiddenContainerFields "-x" Ptr.null)[firstNilIndex (hiddenContainerFields "-x" Ptr.null)]?
        = some (Field.mk "Doer2" true (Value.pointer (GoType.struct "doer2") Ptr.null))
      ∧ (Interface isDoer (multiDoerCollect (Ptr.obj 0)) (testCandidate "hiddenContainer")
          (Any.val multiDoerPtr) [OptPanicNilFields]
          (State.mk (hiddenContainerFields "-x" Ptr.null) (testHeap "hiddenContainer" "")
            [])).outcome
        = Outcome.panicked (Panic.reflectError
            "reflect.Value.Interface: cannot return value obtained from unexported field or method")
      ∧ (Interface isDoer (multiDoerCollect (Ptr.obj 0)) (testCandidate "hiddenContainer")
          (Any.val multiDoerPtr) [OptPanicNilFields]
          (State.mk (hiddenContainerFields "-x" Ptr.null) (testHeap "hiddenContainer" "")
            [])).outcome
        ≠ Outcome.panicked (Panic.raised (nilFieldMessage "Doer2")) := by
  decide

/-- Claim C4, as amended.  When the options resolve to the panic policy, for
every collector that implements `T` and whose `Collect` returns and keeps to
the collector state, and every non-nil pointer-to-struct candidate:
* when some pointer field is nil, `Interface` panics instead of returning;
* when moreover the qualifying fields before the first nil pointer field are
  exported, the diagnostic is `field "<name>" is nil` with the declared name of
  the first nil pointer field in declaration order;
* when no pointer field is nil, the call does not panic with a diagnostic of
  this form, whatever the name. -/
theorem panic_names_first_nil_field {S : Type} (implementsT : GoType → Bool)
    (f0 : S → Value → S) (name : String) (self : Ptr) (hself : self ≠ Ptr.null)
    (collection : Any) (out : Value) (hout : assertT implementsT collection = some out)
    (options : List Opt) (s : Settings) (hopt : makeSettings options = Except.ok s)
    (hs : s.nilHandling = NilHandling.panicNilFields)
    (st : State S) :
    ((∃ g ∈ st.fields, g.val.IsNil = true) →
        ∃ p, (Interface implementsT (pureCollect f0)
          (Any.val (Value.pointer (GoType.struct name) self)) collection options st).outcome
            = Outcome.panicked p)
      ∧ (∀ f : Field, st.fields[firstNilIndex st.fields]? = some f →
          (∀ g ∈ st.fields.take (firstNilIndex st.fields),
            qualifies implementsT g = true → g.exported = true) →
          (Interface implementsT (pureCollect f0)
            (Any.val (Value.pointer (GoType.struct name) self)) collection options
            st).outcome
            = Outcome.panicked (Panic.raised (nilFieldMessage f.Name)))
      ∧ ((∀ g ∈ st.fields, g.val.IsNil = false) →
          ∀ n : String,
            (Interface implementsT (pureCollect f0)
              (Any.val (Value.pointer (GoType.struct name) self)) collection options
              st).outcome
              ≠ Outcome.panicked (Panic.raised (nilFieldMessage n))) := by
  rw [Interface_pureCollect implementsT f0 _ collection options s hopt st]
  exact Multiplex.Interface_panic_names_first_nil_field implementsT f0 name self hself
    collection out hout [fun _ => s] hs st

/-- Claim C4 on a `compoundDoer` with a nil `Doer2` and the collector
`&multiDoer{}`: under `OptPanicNilFields` the call panics with
`field "Doer2" is nil`. -/
theorem panic_names_first_nil_field_witness :
    (compoundDoerFields "-one" Ptr.null)[firstNilIndex (compoundDoerFields "-one" Ptr.null)]?
        = some (Field.mk "Doer2" true (Value.pointer (GoType.struct "doer2") Ptr.null))
      ∧ (Interface isDoer (pureCollect Multiplex.multiDoerCollect)
          (testCandidate "compoundDoer") (Any.val multiDoerPtr) [OptPanicNilFields]
          (State.mk (compoundDoerFields "-one" Ptr.null) (testHeap "compoundDoer" "")
            [])).outcome
        = Outcome.panicked (Panic.raised "field \"Doer2\" is nil") :=
  ⟨by decide,
   ((panic_names_first_nil_field isDoer Multiplex.multiDoerCollect "compoundDoer" (Ptr.obj 1)
      (by decide) (Any.val multiDoerPtr) multiDoerPtr (by decide) [OptPanicNilFields]
      (Settings.mk NilHandling.panicNilFields) rfl rfl
      (State.mk (compoundDoerFields "-one" Ptr.null) (testHeap "compoundDoer" "") [])).2.1
      (Field.mk "Doer2" true (Value.pointer (GoType.struct "doer2") Ptr.null)) (by decide)
      (by decide)).trans (by decide)⟩

/-- Claim C8, counterexample.  The struct `hiddenContainer` has the
unexported field `first doer1`, which qualifies, and no nil pointer field; the
collector `&multiDoer{}` is a `Doer`.  Under the create policy, under the skip
policy and under the panic policy alike the call panics inside
`reflect.Value.Interface`: exportedness does matter, and this is a fatal
condition besides the two of the claim. -/
theorem unexported_field_counterexample :
    assertT isDoer (Any.val multiDoerPtr) = some multiDoerPtr
      ∧ (∀ g ∈ hiddenContainerFields "-x" (Ptr.obj 2), g.val.IsNil = false)
      ∧ (Interface isDoer (multiDoerCollect (Ptr.obj 0)) (testCandidate "hiddenContainer")
          (Any.val multiDoerPtr) [OptCreateNilFields]
          (State.mk (hiddenContainerFields "-x" (Ptr.obj 2))
            (testHeap "hiddenContainer" "-two") [])).outcome
        = Outcome.panicked (Panic.reflectError
            "reflect.Value.Interface: cannot return value obtained from unexported field or method")
      ∧ (Interface isDoer (multiDoerCollect (Ptr.obj 0)) (testCandidate "hiddenContainer")
          (Any.val multiDoerPtr) [OptSkipNilFields]
          (State.mk (hiddenContainerFields "-x" (Ptr.obj 2))
            (testHeap "hiddenContainer" "-two") [])).outcome
        = Outcome.panicked (Panic.reflectError
            "reflect.Value.Interface: cannot return value obtained from unexported field or method")
      ∧ (Interface isDoer (multiDoerCollect (Ptr.obj 0)) (testCandidate "hiddenContainer")
          (Any.val multiDoerPtr) [OptPanicNilFields]
          (State.mk (hiddenContainerFields "-x" (Ptr.obj 2))
            (testHeap "hiddenContainer" "-two") [])).outcome
        = Outcome.panicked (Panic.reflectError
            "reflect.Value.Interface: cannot return value obtained from unexported field or method") := by
  decide

/-- Claim C8, as amended.  For every option list that returns settings, every
collector that implements `T` and whose `Collect` returns and keeps to the
collector state, and every non-nil pointer-to-struct candidate in which every
walked field that is a nil pointer or that qualifies is exported (walked are
all fields under the create policy and the fields before the first nil pointer
field under the skip and the panic policy; fields of any type, nil or not, and
unexported fields that are not walked or do neither, are allowed):
* under the panic policy with some nil pointer field, `Interface` panics with
  the diagnostic that names the first nil pointer field;
* in every other case, so under the create policy, under the skip policy, and
  under the panic policy when no pointer field is nil, `Interface` returns the
  collector.
For every non-nil candidate that is not a pointer to a struct, `Interface`
returns the collector as well.  The nil candidates are left out. -/
theorem fails_only_on_nil_under_panic {S : Type} (implementsT : GoType → Bool)
    (f0 : S → Value → S) (name : String) (self : Ptr) (hself : self ≠ Ptr.null)
    (collection : Any) (out : Value) (hout : assertT implementsT collection = some out)
    (options : List Opt) (s : Settings) (hopt : makeSettings options = Except.ok s)
    (st : State S)
    (hx : ∀ g ∈ st.fields.take (walked s.nilHandling st.fields),
      (g.val.IsNil = true ∨ qualifies implementsT g = true) → g.exported = true) :
    ((s.nilHandling = NilHandling.panicNilFields ∧ ∃ g ∈ st.fields, g.val.IsNil = true) →
        ∃ f, st.fields[firstNilIndex st.fields]? = some f ∧ f.val.IsNil = true
          ∧ (Interface implementsT (pureCollect f0)
              (Any.val (Value.pointer (GoType.struct name) self)) collection options
              st).outcome
            = Outcome.panicked (Panic.raised (nilFieldMessage f.Name)))
      ∧ (¬ (s.nilHandling = NilHandling.panicNilFields ∧ ∃ g ∈ st.fields, g.val.IsNil = true) →
        (Interface implementsT (pureCollect f0)
          (Any.val (Value.pointer (GoType.struct name) self)) collection options st).outcome
          = Outcome.returned out)
      ∧ (∀ v : Value,
          (v.Type.Kind ≠ Kind.Pointer
            ∨ ∃ elem p, v = Value.pointer elem p ∧ elem.Kind ≠ Kind.Struct) →
          (Interface implementsT (pureCollect f0) (Any.val v) collection options st).outcome
            = Outcome.returned out) := by
  have h := Interface_outcome_of_walked_exported implementsT f0 name self hself collection out
    hout [fun _ => s] st hx
  refine ⟨?_, ?_, ?_⟩
  · rw [Interface_pureCollect implementsT f0 _ collection options s hopt st]
    exact h.1
  · rw [Interface_pureCollect implementsT f0 _ collection options s hopt st]
    exact h.2
  · intro v hv
    rw [Interface_pureCollect implementsT f0 _ collection options s hopt st,
      Interface_not_struct_pointer_eq implementsT f0 v hv collection out hout [fun _ => s] st]

/-- Claim C8 on the `compoundDoer` of the test file with a nil `Doer2` and an
unexported qualifying field after it, which under `OptSkipNilFields` is not
walked: the call returns. -/
theorem fails_only_on_nil_under_panic_witness :
    (∀ g ∈ (compoundDoerFields "-alone" Ptr.null
          ++ [Field.mk "last" false (Value.struct "doer1" "")]).take
          (walked NilHandling.skipNilFields (compoundDoerFields "-alone" Ptr.null
            ++ [Field.mk "last" false (Value.struct "doer1" "")])),
        (g.val.IsNil = true ∨ qualifies isDoer g = true) → g.exported = true)
      ∧ (Interface isDoer (pureCollect Multiplex.multiDoerCollect)
          (testCandidate "compoundDoer") (Any.val multiDoerPtr) [OptSkipNilFields]
          (State.mk (compoundDoerFields "-alone" Ptr.null
              ++ [Field.mk "last" false (Value.struct "doer1" "")])
            (testHeap "compoundDoer" "") [])).outcome = Outcome.returned multiDoerPtr :=
  ⟨by decide,
   (fails_only_on_nil_under_panic isDoer Multiplex.multiDoerCollect "compoundDoer" (Ptr.obj 1)
      (by decide) (Any.val multiDoerPtr) multiDoerPtr (by decide) [OptSkipNilFields]
      (Settings.mk NilHandling.skipNilFields) rfl
      (State.mk (compoundDoerFields "-alone" Ptr.null
          ++ [Field.mk "last" false (Value.struct "doer1" "")])
        (testHeap "compoundDoer" "") [])
      (by decide)).2.1 (by decide)⟩

/-- Claim C13, counterexample.  The struct `mixedContainer` has its first nil
pointer field at index 2, after two fields that qualify: the exported `Doer1`
and the unexported `hidden`.  Under `OptPanicNilFields`, with the collector
`&multiDoer{}`, the call fails at index 1, inside `reflect.Value.Interface`,
and the collector has received `Doer1` only, not the two qualifying fields
below index 2. -/
theorem panic_partial_counterexample :
    firstNilIndex (mixedContainerFields "-x" Ptr.null) = 2
      ∧ fieldItems isDoer (Ptr.obj 1) ((mixedContainerFields "-x" Ptr.null).take 2)
        = [Value.pointer (GoType.struct "doer1") (Ptr.field (Ptr.obj 1) 0),
           Value.pointer (GoType.struct "doer1") (Ptr.field (Ptr.obj 1) 1)]
      ∧ (Interface isDoer (multiDoerCollect (Ptr.obj 0)) (testCandidate "mixedContainer")
          (Any.val multiDoerPtr) [OptPanicNilFields]
          (State.mk (mixedContainerFields "-x" Ptr.null) (testHeap "mixedContainer" "")
            [])).outcome
        = Outcome.panicked (Panic.reflectError
            "reflect.Value.Interface: cannot return value obtained from unexported field or method")
      ∧ (Interface isDoer (multiDoerCollect (Ptr.obj 0)) (testCandidate "mixedContainer")
          (Any.val multiDoerPtr) [OptPanicNilFields]
          (State.mk (mixedContainerFields "-x" Ptr.null) (testHeap "mixedContainer" "")
            [])).state.collection
        = [Value.pointer (GoType.struct "doer1") (Ptr.field (Ptr.obj 1) 0)] := by
  decide

/-- Claim C13, as amended.  When the options resolve to the panic policy, for
every collector that implements `T` and whose `Collect` returns and keeps to
the collector state, and every non-nil pointer-to-struct candidate whose first
nil pointer field is at declaration index `i` and whose qualifying fields at
indices below `i` are exported: `Interface` panics with the diagnostic that
names that field, and at that moment the collector has received exactly the
qualifying fields at indices below `i`, in declaration order, and not the
candidate itself; no `Collect` call was made exactly when no qualifying field
precedes index `i`.  The candidate struct is as on entry. -/
theorem panic_not_atomic {S : Type} (implementsT : GoType → Bool)
    (f0 : S → Value → S) (name : String) (self : Ptr) (hself : self ≠ Ptr.null)
    (collection : Any) (out : Value) (hout : assertT implementsT collection = some out)
    (options : List Opt) (s : Settings) (hopt : makeSettings options = Except.ok s)
    (hs : s.nilHandling = NilHandling.panicNilFields)
    (st : State S) (i : Nat) (f : Field) (hi : firstNilIndex st.fields = i)
    (hf : st.fields[i]? = some f)
    (hx : ∀ g ∈ st.fields.take i, qualifies implementsT g = true → g.exported = true) :
    (Interface implementsT (pureCollect f0) (Any.val (Value.pointer (GoType.struct name) self))
        collection options st).outcome
        = Outcome.panicked (Panic.raised (nilFieldMessage f.Name))
      ∧ (Interface implementsT (pureCollect f0)
          (Any.val (Value.pointer (GoType.struct name) self)) collection options
          st).state.collection
        = (fieldItems implementsT self (st.fields.take i)).foldl f0 st.collection
      ∧ (fieldItems implementsT self (st.fields.take i) = []
          ↔ ∀ g ∈ st.fields.take i, qualifies implementsT g = false)
      ∧ (Interface implementsT (pureCollect f0)
          (Any.val (Value.pointer (GoType.struct name) self)) collection options
          st).state.fields = st.fields := by
  rw [Interface_pureCollect implementsT f0 _ collection options s hopt st]
  exact Multiplex.Interface_panic_not_atomic implementsT f0 name self hself collection out
    hout [fun _ => s] hs st i f hi hf hx

/-- Claim C13 on a `compoundDoer` with a nil `Doer2` and the collector
`&multiDoer{}`: under `OptPanicNilFields` the call panics with
`field "Doer2" is nil` after `Doer1` was collected, and the candidate itself
was not collected. -/
theorem panic_not_atomic_witness :
    firstNilIndex (compoundDoerFields "-one" Ptr.null) = 1
      ∧ (Interface isDoer (pureCollect Multiplex.multiDoerCollect)
          (testCandidate "compoundDoer") (Any.val multiDoerPtr) [OptPanicNilFields]
          (State.mk (compoundDoerFields "-one" Ptr.null) (testHeap "compoundDoer" "")
            [])).outcome
        = Outcome.panicked (Panic.raised (nilFieldMessage "Doer2"))
      ∧ (Interface isDoer (pureCollect Multiplex.multiDoerCollect)
          (testCandidate "compoundDoer") (Any.val multiDoerPtr) [OptPanicNilFields]
          (State.mk (compoundDoerFields "-one" Ptr.null) (testHeap "compoundDoer" "")
            [])).state.collection
        = [Value.pointer (GoType.struct "doer1") (Ptr.field (Ptr.obj 1) 0)] :=
  ⟨by decide,
   (panic_not_atomic isDoer Multiplex.multiDoerCollect "compoundDoer" (Ptr.obj 1) (by decide)
      (Any.val multiDoerPtr) multiDoerPtr (by decide) [OptPanicNilFields]
      (Settings.mk NilHandling.panicNilFields) rfl rfl
      (State.mk (compoundDoerFields "-one" Ptr.null) (testHeap "compoundDoer" "") [])
      1 (Field.mk "Doer2" true (Value.pointer (GoType.struct "doer2") Ptr.null))
      (by decide) (by decide) (by decide)).1,
   by decide⟩

/-- Claim C15, counterexample.  A `compoundDoer` with a nil `Doer2`: the first
call, under the create policy with the collector `&multiDoer{}`, returns.  The
second call, under `OptPanicNilFields`, gets as its fresh collector a nil
`*multiDoer`, which is a `Doer`: it panics inside `Collect` with a nil pointer
dereference and does not yield the collection of the first call. -/
theorem second_call_nil_collector_counterexample :
    (Interface isDoer (multiDoerCollect (Ptr.obj 0)) (testCandidate "compoundDoer")
        (Any.val multiDoerPtr) []
        (State.mk (compoundDoerFields "-one" Ptr.null) (testHeap "compoundDoer" "")
          [])).outcome = Outcome.returned multiDoerPtr
      ∧ (Interface isDoer (multiDoerCollect (Ptr.obj 0)) (testCandidate "compoundDoer")
          (Any.val multiDoerPtr) []
          (State.mk (compoundDoerFields "-one" Ptr.null) (testHeap "compoundDoer" "")
            [])).state.collection
        = [Value.pointer (GoType.struct "doer1") (Ptr.field (Ptr.obj 1) 0),
           Value.pointer (GoType.struct "doer2") (Ptr.obj 3),
           Value.pointer (GoType.struct "compoundDoer") (Ptr.obj 1)]
      ∧ assertT isDoer (Any.val (Value.pointer (GoType.other "multiDoer") Ptr.null))
        = some (Value.pointer (GoType.other "multiDoer") Ptr.null)
      ∧ (Interface isDoer (multiDoerCollect Ptr.null) (testCandidate "compoundDoer")
          (Any.val (Value.pointer (GoType.other "multiDoer") Ptr.null)) [OptPanicNilFields]
          (State.mk
            (Interface isDoer (multiDoerCollect (Ptr.obj 0)) (testCandidate "compoundDoer")
              (Any.val multiDoerPtr) []
              (State.mk (compoundDoerFields "-one" Ptr.null) (testHeap "compoundDoer" "")
                [])).state.fields
            (Interface isDoer (multiDoerCollect (Ptr.obj 0)) (testCandidate "compoundDoer")
              (Any.val multiDoerPtr) []
              (State.mk (compoundDoerFields "-one" Ptr.null) (testHeap "compoundDoer" "")
                [])).state.heap
            [])).outcome
        = Outcome.panicked
            (Panic.runtimeError "invalid memory address or nil pointer dereference")
      ∧ (Interface isDoer (multiDoerCollect Ptr.null) (testCandidate "compoundDoer")
          (Any.val (Value.pointer (GoType.other "multiDoer") Ptr.null)) [OptPanicNilFields]
          (State.mk
            (Interface isDoer (multiDoerCollect (Ptr.obj 0)) (testCandidate "compoundDoer")
              (Any.val multiDoerPtr) []
              (State.mk (compoundDoerFields "-one" Ptr.null) (testHeap "compoundDoer" "")
                [])).state.fields
            (Interface isDoer (multiDoerCollect (Ptr.obj 0)) (testCandidate "compoundDoer")
              (Any.val multiDoerPtr) []
              (State.mk (compoundDoerFields "-one" Ptr.null) (testHeap "compoundDoer" "")
                [])).state.heap
            [])).state.collection = [] := by
  decide

/-- Claim C15, as amended.  After a call of `Interface` under the create
policy that returns, on a non-nil pointer-to-struct candidate and with a
collector whose `Collect` returns and keeps to the collector state, no pointer
field of the candidate struct is nil.  A second call on the candidate as the
first call left it, with a collector of the same kind that implements `T`, in
the fresh state the first call started from, under any option list that
returns settings, the panic policy included, returns its collector, leaves
the candidate struct and the heap as they are, and yields the same ordered
collection as the first call. -/
theorem create_then_any_policy {S : Type} (implementsT : GoType → Bool)
    (f0 : S → Value → S) (name : String) (self : Ptr) (hself : self ≠ Ptr.null)
    (collection : Any) (options : List Opt) (s : Settings)
    (hopt : makeSettings options = Except.ok s)
    (hs : s.nilHandling = NilHandling.createNilFields)
    (st : State S) (out : Value)
    (hret : (Interface implementsT (pureCollect f0)
      (Any.val (Value.pointer (GoType.struct name) self)) collection options st).outcome
        = Outcome.returned out) :
    (∀ g ∈ (Interface implementsT (pureCollect f0)
        (Any.val (Value.pointer (GoType.struct name) self)) collection options
        st).state.fields, g.val.IsNil = false)
      ∧ ∀ (options2 : List Opt) (s2 : Settings) (collection2 : Any) (out2 : Value),
          makeSettings options2 = Except.ok s2 →
          assertT implementsT collection2 = some out2 →
          (Interface implementsT (pureCollect f0)
              (Any.val (Value.pointer (GoType.struct name) self)) collection2 options2
              (State.mk
                (Interface implementsT (pureCollect f0)
                  (Any.val (Value.pointer (GoType.struct name) self)) collection options
                  st).state.fields
                (Interface implementsT (pureCollect f0)
                  (Any.val (Value.pointer (GoType.struct name) self)) collection options
                  st).state.heap
                st.collection)).outcome = Outcome.returned out2
            ∧ (Interface implementsT (pureCollect f0)
              (Any.val (Value.pointer (GoType.struct name) self)) collection2 options2
              (State.mk
                (Interface implementsT (pureCollect f0)
                  (Any.val (Value.pointer (GoType.struct name) self)) collection options
                  st).state.fields
                (Interface implementsT (pureCollect f0)
                  (Any.val (Value.pointer (GoType.struct name) self)) collection options
                  st).state.heap
                st.collection)).state.fields
              = (Interface implementsT (pureCollect f0)
                  (Any.val (Value.pointer (GoType.struct name) self)) collection options
                  st).state.fields
            ∧ (Interface implementsT (pureCollect f0)
              (Any.val (Value.pointer (GoType.struct name) self)) collection2 options2
              (State.mk
                (Interface implementsT (pureCollect f0)
                  (Any.val (Value.pointer (GoType.struct name) self)) collection options
                  st).state.fields
                (Interface implementsT (pureCollect f0)
                  (Any.val (Value.pointer (GoType.struct name) self)) collection options
                  st).state.heap
                st.collection)).state.heap
              = (Interface implementsT (pureCollect f0)
                  (Any.val (Value.pointer (GoType.struct name) self)) collection options
                  st).state.heap
            ∧ (Interface implementsT (pureCollect f0)
              (Any.val (Value.pointer (GoType.struct name) self)) collection2 options2
              (State.mk
                (Interface implementsT (pureCollect f0)
                  (Any.val (Value.pointer (GoType.struct name) self)) collection options
                  st).state.fields
                (Interface implementsT (pureCollect f0)
                  (Any.val (Value.pointer (GoType.struct name) self)) collection options
                  st).state.heap
                st.collection)).state.collection
              = (Interface implementsT (pureCollect f0)
                  (Any.val (Value.pointer (GoType.struct name) self)) collection options
                  st).state.collection := by
  rw [Interface_pureCollect implementsT f0 _ collection options s hopt st] at hret ⊢
  have h := Multiplex.Interface_create_then_any_policy implementsT f0 name self hself
    collection [fun _ => s] hs st out hret
  refine ⟨h.1, ?_⟩
  intro options2 s2 collection2 out2 hopt2 hout2
  rw [Interface_pureCollect implementsT f0 _ collection2 options2 s2 hopt2 _]
  exact h.2 [fun _ => s2] collection2 out2 hout2

/-- Claim C15 on the test case "compound doer one nil field default (create)"
with the collector `&multiDoer{}`: after the first call `Doer2` is not nil,
and a second call under `OptPanicNilFields`, started with the empty collector,
returns and collects `Doer1`, the `Doer2` created by the first call, and the
candidate. -/
theorem create_then_any_policy_witness :
    (Interface isDoer (pureCollect Multiplex.multiDoerCollect) (testCandidate "compoundDoer")
        (Any.val multiDoerPtr) []
        (State.mk (compoundDoerFields "-one" Ptr.null) (testHeap "compoundDoer" "")
          [])).outcome = Outcome.returned multiDoerPtr
      ∧ (Interface isDoer (pureCollect Multiplex.multiDoerCollect)
          (testCandidate "compoundDoer") (Any.val multiDoerPtr) [OptPanicNilFields]
          (State.mk
            (Interface isDoer (pureCollect Multiplex.multiDoerCollect)
              (testCandidate "compoundDoer") (Any.val multiDoerPtr) []
              (State.mk (compoundDoerFields "-one" Ptr.null) (testHeap "compoundDoer" "")
                [])).state.fields
            (Interface isDoer (pureCollect Multiplex.multiDoerCollect)
              (testCandidate "compoundDoer") (Any.val multiDoerPtr) []
              (State.mk (compoundDoerFields "-one" Ptr.null) (testHeap "compoundDoer" "")
                [])).state.heap
            [])).outcome = Outcome.returned multiDoerPtr
      ∧ (Interface isDoer (pureCollect Multiplex.multiDoerCollect)
          (testCandidate "compoundDoer") (Any.val multiDoerPtr) [OptPanicNilFields]
          (State.mk
            (Interface isDoer (pureCollect Multiplex.multiDoerCollect)
              (testCandidate "compoundDoer") (Any.val multiDoerPtr) []
              (State.mk (compoundDoerFields "-one" Ptr.null) (testHeap "compoundDoer" "")
                [])).state.fields
            (Interface isDoer (pureCollect Multiplex.multiDoerCollect)
              (testCandidate "compoundDoer") (Any.val multiDoerPtr) []
              (State.mk (compoundDoerFields "-one" Ptr.null) (testHeap "compoundDoer" "")
                [])).state.heap
            [])).state.collection
        = [Value.pointer (GoType.struct "doer1") (Ptr.field (Ptr.obj 1) 0),
           Value.pointer (GoType.struct "doer2") (Ptr.obj 3),
           Value.pointer (GoType.struct "compoundDoer") (Ptr.obj 1)] :=
  ⟨by decide,
   ((create_then_any_policy isDoer Multiplex.multiDoerCollect "compoundDoer" (Ptr.obj 1)
      (by decide) (Any.val multiDoerPtr) [] (Settings.mk NilHandling.createNilFields) rfl rfl
      (State.mk (compoundDoerFields "-one" Ptr.null) (testHeap "compoundDoer" "") [])
      multiDoerPtr (by decide)).2 [OptPanicNilFields] (Settings.mk NilHandling.panicNilFields)
      (Any.val multiDoerPtr) multiDoerPtr rfl (by decide)).1,
   by decide⟩

/-- A pointer to an interface type has no methods, so it is assignable to `T`
only when `T` has no method. -/
theorem implements_pointer_to_interface (m : Methods) (T : List String) (iname : String)
    (ms : List String) (hiface : m.iface iname = some ms) :
    implements m T (GoType.pointer (GoType.other iname)) = decide (T = []) := by
  unfold implements methodSet
  simp only [hiface]
  cases T with
  | nil => rfl
  | cons x xs => simp

/-- Claim C16, counterexample.  With the empty interface as `T` (no method),
the struct `doerHolder` with the one field `D Doer`, of an interface type and
holding a non-nil `Doer`, has the address of `D`, of type pointer to `Doer`,
passed to `Collect`: every type is assignable to the empty interface. -/
theorem interface_field_counterexample :
    (doerHolderFields "doer1")[0]? = some (Field.mk "D" true (Value.other "Doer" "doer1"))
      ∧ testMethods.iface "Doer" = some ["Do"]
      ∧ (Interface (implements testMethods []) (multiDoerCollect (Ptr.obj 0))
          (testCandidate "doerHolder") (Any.val multiDoerPtr) []
          (State.mk (doerHolderFields "doer1") (testHeap "doerHolder" "") [])).outcome
        = Outcome.returned multiDoerPtr
      ∧ (Interface (implements testMethods []) (multiDoerCollect (Ptr.obj 0))
          (testCandidate "doerHolder") (Any.val multiDoerPtr) []
          (State.mk (doerHolderFields "doer1") (testHeap "doerHolder" "")
            [])).state.collection
        = [Value.pointer (GoType.other "Doer") (Ptr.field (Ptr.obj 1) 0),
           Value.pointer (GoType.struct "doerHolder") (Ptr.obj 1)] := by
  decide

/-- Claim C16, as amended.  A field whose static type is an interface type
(`T` itself or any other), whatever it holds, is judged only through its
pointerized type, the type pointer-to-interface, which by the method-set rules
has no method.  On a non-nil candidate the loop body at its index, under every
policy and for every `Collect`:
* leaves the state as it is when `T` has at least one method: the field is not
  collected and no nil handling takes place;
* when `T` is the empty interface, passes the address of the field to
  `Collect` if the field is exported, and panics inside
  `reflect.Value.Interface` if it is not; again no nil handling takes place.
When `T` has at least one method, a call that returns, with a `Collect` that
returns and keeps to the collector state, has collected exactly the expected
collection, in which no pointer to that interface type occurs. -/
theorem fieldStep_interface_typed_field {S : Type} (m : Methods) (T : List String)
    (Collect : State S → Value → Effect S) (self : Ptr) (hself : self ≠ Ptr.null) (i : Nat)
    (st : State S) (f : Field) (iname held : String) (ms : List String)
    (hf : st.fields[i]? = some f) (hval : f.val = Value.other iname held)
    (hiface : m.iface iname = some ms) :
    (T ≠ [] → ∀ s : Settings,
        fieldStep (implements m T) Collect s self i st = Step.next st)
      ∧ (T = [] → f.exported = true → ∀ s : Settings,
          fieldStep (implements m T) Collect s self i st
            = match Collect st (Value.pointer (GoType.other iname) (Ptr.field self i)) with
              | Effect.done st1 => Step.next st1
              | Effect.panicked p st1 => Step.panicked p st1)
      ∧ (T = [] → f.exported = false → ∀ s : Settings,
          fieldStep (implements m T) Collect s self i st
            = Step.panicked (Panic.reflectError
                "reflect.Value.Interface: cannot return value obtained from unexported field or method")
                st)
      ∧ (T ≠ [] → ∀ (f0 : S → Value → S) (name : String) (collection : Any)
          (options : List Opt) (s : Settings) (out : Value),
          makeSettings options = Except.ok s →
          (Interface (implements m T) (pureCollect f0)
            (Any.val (Value.pointer (GoType.struct name) self)) collection options
            st).outcome = Outcome.returned out →
          (Interface (implements m T) (pureCollect f0)
              (Any.val (Value.pointer (GoType.struct name) self)) collection options
              st).state.collection
            = (expectedCollection (implements m T) s.nilHandling name self st.fields
                (Interface (implements m T) (pureCollect f0)
                  (Any.val (Value.pointer (GoType.struct name) self)) collection options
                  st).state.fields).foldl f0 st.collection
            ∧ ∀ p : Ptr, Value.pointer (GoType.other iname) p
                ∉ expectedCollection (implements m T) s.nilHandling name self st.fields
                    (Interface (implements m T) (pureCollect f0)
                      (Any.val (Value.pointer (GoType.struct name) self)) collection options
                      st).state.fields) := by
  have hbody : ∀ s : Settings,
      fieldStep (implements m T) Collect s self i st
        = collectIfAssignable (implements m T) Collect f.exported
            (Value.pointer (GoType.other iname) (Ptr.field self i)) st := by
    intro s
    unfold fieldStep
    simp only [hself, if_false, hf]
    rcases f with ⟨n, x, v⟩
    simp only at hval
    subst hval
    rfl
  have himp := implements_pointer_to_interface m T iname ms hiface
  have hty : (Value.pointer (GoType.other iname) (Ptr.field self i)).Type
      = GoType.pointer (GoType.other iname) := rfl
  refine ⟨?_, ?_, ?_, ?_⟩
  · intro hT s
    rw [hbody s]
    unfold collectIfAssignable
    rw [hty, himp]
    simp [hT]
  · intro hT hx s
    rw [hbody s]
    unfold collectIfAssignable
    rw [hty, himp]
    simp [hT, hx]
  · intro hT hx s
    rw [hbody s]
    unfold collectIfAssignable
    rw [hty, himp]
    simp [hT, hx]
  · intro hT f0 name collection options s out hopt hret
    rw [Interface_pureCollect (implements m T) f0 _ collection options s hopt st] at hret ⊢
    refine ⟨(Interface_returned_spec (implements m T) f0 _ collection [fun _ => s] st out
      hret).2, ?_⟩
    intro p hmem
    have hT2 := implementsT_of_mem_expectedCollection (implements m T) _ name self st.fields
      _ _ hmem
    have hT3 : implements m T (GoType.pointer (GoType.other iname)) = true := hT2
    rw [himp] at hT3
    simp only [decide_eq_true_eq] at hT3
    exact hT hT3

/-- Claim C16 on the struct `doerHolder` with `Doer` as `T`: the field `D Doer`
holds nil, and under the panic policy the loop body leaves the state as it
is: no panic, no `Collect` call. -/
theorem fieldStep_interface_typed_field_witness :
    (doerHolderFields "")[0]? = some (Field.mk "D" true (Value.other "Doer" ""))
      ∧ testMethods.iface "Doer" = some ["Do"]
      ∧ fieldStep (implements testMethods ["Do"]) (multiDoerCollect (Ptr.obj 0))
          (Settings.mk NilHandling.panicNilFields) (Ptr.obj 1) 0
          (State.mk (doerHolderFields "") (testHeap "doerHolder" "") [])
        = Step.next (State.mk (doerHolderFields "") (testHeap "doerHolder" "") []) :=
  ⟨by decide, by decide,
   (fieldStep_interface_typed_field testMethods ["Do"] (multiDoerCollect (Ptr.obj 0))
      (Ptr.obj 1) (by decide) 0
      (State.mk (doerHolderFields "") (testHeap "doerHolder" "") [])
      (Field.mk "D" true (Value.other "Doer" "")) "Doer" "" ["Do"] (by decide) rfl
      (by decide)).1 (by decide) (Settings.mk NilHandling.panicNilFields)⟩

end Go

end Multiplex
